import Mathlib

/-!
# eWoms / DuMuX nonlinear-solver core: a shallow embedding

The C++ type `Scalar` (a `double`) is embedded as `Scalar` below: a value is either a
finite number, carried as an exact rational, or one of the three IEEE-754 special values
`+inf`, `-inf`, `NaN`.  The arithmetic and the comparison follow IEEE-754 on the special
values; on finite values they are exact (no rounding, no overflow, no signed zero).
A decimal literal of the source such as `0.8` is the rational `4/5`.

Vectors of the source (`SolutionVector`, `GlobalEqVector`, C arrays) are embedded as a
size together with an index function; a `for` loop is a left fold over `List.range`.
-/

namespace Ewoms

/-! ## Scalars -/

/-- Values of the C++ type `Scalar`. -/
inductive Scalar where
  | fin (q : ℚ)
  | posInf
  | negInf
  | nan
  deriving DecidableEq

namespace Scalar

/-- The C++ `std::isfinite`. -/
def isfinite : Scalar → Bool
  | fin _ => true
  | _ => false

/-- Unary minus. -/
def neg : Scalar → Scalar
  | fin a => fin (-a)
  | posInf => negInf
  | negInf => posInf
  | nan => nan

/-- Addition. -/
def add : Scalar → Scalar → Scalar
  | nan, _ => nan
  | _, nan => nan
  | fin a, fin b => fin (a + b)
  | posInf, negInf => nan
  | negInf, posInf => nan
  | posInf, _ => posInf
  | _, posInf => posInf
  | negInf, _ => negInf
  | _, negInf => negInf

/-- Subtraction. -/
def sub (x y : Scalar) : Scalar := add x (neg y)

/-- The infinity with the sign of `q`; `NaN` when `q = 0`. -/
def signedInf (q : ℚ) : Scalar :=
  if q = 0 then nan else if 0 < q then posInf else negInf

/-- Multiplication. -/
def mul : Scalar → Scalar → Scalar
  | nan, _ => nan
  | _, nan => nan
  | fin a, fin b => fin (a * b)
  | fin a, posInf => signedInf a
  | fin a, negInf => signedInf (-a)
  | posInf, fin b => signedInf b
  | negInf, fin b => signedInf (-b)
  | posInf, posInf => posInf
  | posInf, negInf => negInf
  | negInf, posInf => negInf
  | negInf, negInf => posInf

/-- Division; a zero divisor counts as `+0`. -/
def div : Scalar → Scalar → Scalar
  | nan, _ => nan
  | _, nan => nan
  | fin a, fin b => if b = 0 then signedInf a else fin (a / b)
  | fin _, posInf => fin 0
  | fin _, negInf => fin 0
  | posInf, fin b => if b < 0 then negInf else posInf
  | negInf, fin b => if b < 0 then posInf else negInf
  | posInf, posInf => nan
  | posInf, negInf => nan
  | negInf, posInf => nan
  | negInf, negInf => nan

/-- The comparison `x < y`; false as soon as one side is `NaN`. -/
def lt : Scalar → Scalar → Bool
  | fin a, fin b => decide (a < b)
  | fin _, posInf => true
  | negInf, fin _ => true
  | negInf, posInf => true
  | _, _ => false

/-- The comparison `x > y`, which C++ evaluates as `y < x`. -/
def gt (x y : Scalar) : Bool := lt y x

/-- The comparison `x >= y`; false as soon as one side is `NaN`. -/
def ge : Scalar → Scalar → Bool
  | fin a, fin b => decide (b ≤ a)
  | posInf, fin _ => true
  | fin _, negInf => true
  | posInf, negInf => true
  | posInf, posInf => true
  | negInf, negInf => true
  | _, _ => false

instance : Add Scalar := ⟨add⟩
instance : Sub Scalar := ⟨sub⟩
instance : Mul Scalar := ⟨mul⟩
instance : Div Scalar := ⟨div⟩
instance : Neg Scalar := ⟨neg⟩

/-- The C++ `std::max(a, b)`, which is `(a < b) ? b : a`. -/
def stdMax (a b : Scalar) : Scalar := if lt a b then b else a

/-- The C++ `std::min(a, b)`, which is `(b < a) ? b : a`. -/
def stdMin (a b : Scalar) : Scalar := if lt b a then b else a

end Scalar

/-- The usual clamp of a number to the interval `[lo, hi]`, as the specification uses it. -/
def clamp (x lo hi : ℚ) : ℚ := if x < lo then lo else if hi < x then hi else x

/-! ## Block vectors -/

/-- A Dune block vector: `size` blocks, entry `j` of block `i` is `val i j`. -/
structure BlockVector where
  size : Nat
  val : Nat → Nat → Scalar

namespace BlockVector

/-- The assignment `u[i][j] = v`. -/
def set (u : BlockVector) (i j : Nat) (v : Scalar) : BlockVector :=
  { u with val := fun a b => if a = i ∧ b = j then v else u.val a b }

/-- The squared two-norm of block `i`, a block of `numEq` entries. -/
def blockNorm2 (numEq : Nat) (u : BlockVector) (i : Nat) : Scalar :=
  (List.range numEq).foldl (fun acc j => acc + u.val i j * u.val i j) (Scalar.fin 0)

/-- The squared two-norm of a vector: the sum of the squared two-norms of its blocks. -/
def two_norm2 (numEq : Nat) (u : BlockVector) : Scalar :=
  (List.range u.size).foldl (fun acc i => acc + blockNorm2 numEq u i) (Scalar.fin 0)

end BlockVector

abbrev SolutionVector := BlockVector
abbrev GlobalEqVector := BlockVector

/-! ## The NCP Newton method (`ewoms/models/ncp/ncpnewtonmethod.hh`) -/

/-- The exceptions the Newton method raises. -/
inductive Exception where
  | NumericalProblem (msg : String)
  deriving DecidableEq

/-- The calls `update_` makes on its collaborators, in the order they are made. -/
inductive Call where
  | updateDiscrepancy (uLastIter : SolutionVector) (deltaU : GlobalEqVector)
  | computeColors (reassembleTol : Scalar)
  | lineSearchUpdate_ (uCurrentIter uLastIter : SolutionVector) (deltaU : GlobalEqVector)

/-- What `update_` leaves behind: the exception it raised, if any, the solution vector
`uCurrentIter` it was given by reference, and the collaborator calls it made. -/
structure UpdateResult where
  thrown : Option Exception
  uCurrentIter : SolutionVector
  calls : List Call

/-- The state of an `NcpNewtonMethod` object as far as `update_` reads it.  The compile-time
constants (`numEq`, `numPhases`, `numComponents`, the three index offsets of `Indices`), the
members of the parent class (`numIterations_`, `relError_`, `relTolerance_()`,
`enablePartialReassemble_()`, `enableLineSearch_()`, `lineSearchUpdate_`) and the model's
`minActivityCoeff` are declared outside this file of the source and are fields here. -/
structure NcpNewtonMethod where
  numEq : Nat
  numPhases : Nat
  numComponents : Nat
  fugacity0Idx : Nat
  saturation0Idx : Nat
  pressure0Idx : Nat
  choppedIterations_ : Int
  numIterations_ : Int
  relError_ : Scalar
  relTolerance_ : Scalar
  enablePartialReassemble_ : Bool
  enableLineSearch_ : Bool
  minActivityCoeff : Nat → Nat → Scalar
  lineSearchUpdate_ : SolutionVector → SolutionVector → GlobalEqVector → SolutionVector

namespace NcpNewtonMethod

open Scalar

/-- The source's `clampValue_`: `val = std::max(minVal, std::min(val, maxVal))`. -/
def clampValue_ (val minVal maxVal : Scalar) : Scalar :=
  stdMax minVal (stdMin val maxVal)

/-- The source's `pressureChop_`: limit pressure updates to 20% per iteration. -/
def pressureChop_ (val oldVal : Scalar) : Scalar :=
  clampValue_ val (oldVal * fin (4/5)) (oldVal * fin (6/5))

/-- The source's `saturationChop_`: limit saturation updates to 0.20 per iteration. -/
def saturationChop_ (val oldVal : Scalar) : Scalar :=
  let maxDelta := fin (1/5)
  clampValue_ val (oldVal - maxDelta) (oldVal + maxDelta)

/-- The body of the fugacity loop of `chopUpdate_` for one component: the new content of
`val`, given its current content, the old value and the minimum activity coefficient. -/
def fugacityChop_ (val oldVal minPhi : Scalar) : Scalar :=
  let maxDelta := fin (7/10) * minPhi
  let val1 := clampValue_ val (oldVal - maxDelta) (oldVal + maxDelta)
  let val2 := stdMax (fin (-1/100) * minPhi) val1
  stdMin (fin (101/100) * minPhi) val2

/-- The body of the outer loop of `chopUpdate_` for the degree of freedom `i`.  The bound
`numPhases - 1` of the saturation loop is taken in the natural numbers: the model has at
least one phase. -/
def chopUpdateDof_ (self : NcpNewtonMethod) (uLastIter : SolutionVector)
    (uCurrentIter : SolutionVector) (i : Nat) : SolutionVector :=
  let u1 := (List.range (self.numPhases - 1)).foldl
    (fun u phaseIdx =>
      u.set i (self.saturation0Idx + phaseIdx)
        (saturationChop_ (u.val i (self.saturation0Idx + phaseIdx))
          (uLastIter.val i (self.saturation0Idx + phaseIdx))))
    uCurrentIter
  let u2 := u1.set i self.pressure0Idx
    (pressureChop_ (u1.val i self.pressure0Idx) (uLastIter.val i self.pressure0Idx))
  (List.range self.numComponents).foldl
    (fun u compIdx =>
      u.set i (self.fugacity0Idx + compIdx)
        (fugacityChop_ (u.val i (self.fugacity0Idx + compIdx))
          (uLastIter.val i (self.fugacity0Idx + compIdx))
          (self.minActivityCoeff i compIdx)))
    u2

/-- The source's `chopUpdate_`. -/
def chopUpdate_ (self : NcpNewtonMethod) (uCurrentIter uLastIter : SolutionVector) :
    SolutionVector :=
  (List.range uLastIter.size).foldl (chopUpdateDof_ self uLastIter) uCurrentIter

/-- The reassembly tolerance computed by `update_`. -/
def reassembleTol (self : NcpNewtonMethod) : Scalar :=
  let minReasmTol := fin (1/100) * self.relTolerance_
  let maxReasmTol := fin 10 * self.relTolerance_
  stdMax minReasmTol (stdMin maxReasmTol (self.relError_ / fin 10000))

/-- The two nested loops of `update_` that assign `uLastIter - deltaU`. -/
def fullStep_ (self : NcpNewtonMethod) (uCurrentIter uLastIter : SolutionVector)
    (deltaU : GlobalEqVector) : SolutionVector :=
  (List.range uLastIter.size).foldl
    (fun u i =>
      (List.range self.numEq).foldl
        (fun u2 j => u2.set i j (uLastIter.val i j - deltaU.val i j)) u)
    uCurrentIter

/-- The source's `update_`. -/
def update_ (self : NcpNewtonMethod) (uCurrentIter uLastIter : SolutionVector)
    (deltaU : GlobalEqVector) : UpdateResult :=
  if !(isfinite (deltaU.two_norm2 self.numEq)) then
    { thrown := some (Exception.NumericalProblem "Non-finite update!"),
      uCurrentIter := uCurrentIter,
      calls := [] }
  else
    let calls1 :=
      if self.enablePartialReassemble_ then
        [Call.updateDiscrepancy uLastIter deltaU, Call.computeColors (reassembleTol self)]
      else []
    if self.enableLineSearch_ then
      { thrown := none,
        uCurrentIter := self.lineSearchUpdate_ uCurrentIter uLastIter deltaU,
        calls := calls1 ++ [Call.lineSearchUpdate_ uCurrentIter uLastIter deltaU] }
    else
      let u1 := fullStep_ self uCurrentIter uLastIter deltaU
      let u2 := if self.numIterations_ < self.choppedIterations_ then
        chopUpdate_ self u1 uLastIter else u1
      { thrown := none, uCurrentIter := u2, calls := calls1 }

end NcpNewtonMethod

/-! ## The PVS Newton method (`ewoms/models/pvs/pvsnewtonmethod.hh`) -/

/-- The state of a `PvsNewtonMethod` object and of the model it drives, as far as
`converged` and `endIteration_` touch it.  `parentConverged` is what the parent class's
`converged()` returns in this state, `switched` is what the model's `switched()` returns. -/
structure PvsNewtonMethod where
  parentConverged : Bool
  switched : Bool

namespace PvsNewtonMethod

/-- The source's `converged`.  The two lines that test `switched()` are commented out in
the source, so the body is the single statement `return ParentType::converged();`. -/
def converged (self : PvsNewtonMethod) : Bool :=
  self.parentConverged

/-- The source's `endIteration_`: the parent's `endIteration_`, then the model's
`switchPrimaryVars_`.  Both are declared outside this file of the source and are taken as
state transformers. -/
def endIteration_ (parentEndIteration_ switchPrimaryVars_ : PvsNewtonMethod → PvsNewtonMethod)
    (self : PvsNewtonMethod) : PvsNewtonMethod :=
  switchPrimaryVars_ (parentEndIteration_ self)

end PvsNewtonMethod

/-! ## The black-oil volume variables (`dumux/boxmodels/blackoil/blackoilvolumevariables.hh`) -/

/-- The assignment `a[i] = v` on an array embedded as an index function. -/
def setAt (a : Nat → Scalar) (i : Nat) (v : Scalar) : Nat → Scalar :=
  fun k => if k = i then v else a k

/-- The compositional fluid state the volume variables own. -/
structure FluidState where
  temperature : Scalar
  saturation : Nat → Scalar
  pressure : Nat → Scalar
  moleFraction : Nat → Nat → Scalar
  viscosity : Nat → Scalar
  density : Nat → Scalar

namespace FluidState

def setTemperature (fs : FluidState) (v : Scalar) : FluidState :=
  { fs with temperature := v }

def setSaturation (fs : FluidState) (phaseIdx : Nat) (v : Scalar) : FluidState :=
  { fs with saturation := setAt fs.saturation phaseIdx v }

def setPressure (fs : FluidState) (phaseIdx : Nat) (v : Scalar) : FluidState :=
  { fs with pressure := setAt fs.pressure phaseIdx v }

def setMoleFraction (fs : FluidState) (phaseIdx compIdx : Nat) (v : Scalar) : FluidState :=
  { fs with moleFraction :=
      fun p c => if p = phaseIdx ∧ c = compIdx then v else fs.moleFraction p c }

def setViscosity (fs : FluidState) (phaseIdx : Nat) (v : Scalar) : FluidState :=
  { fs with viscosity := setAt fs.viscosity phaseIdx v }

def setDensity (fs : FluidState) (phaseIdx : Nat) (v : Scalar) : FluidState :=
  { fs with density := setAt fs.density phaseIdx v }

/-- The sum of the saturations of the first `numPhases` phases. -/
def sumSaturations (fs : FluidState) (numPhases : Nat) : Scalar :=
  (List.range numPhases).foldl (fun acc phaseIdx => acc + fs.saturation phaseIdx)
    (Scalar.fin 0)

/-- The sum of the mole fractions of the first `numComponents` components in a phase. -/
def sumMoleFractions (fs : FluidState) (numComponents phaseIdx : Nat) : Scalar :=
  (List.range numComponents).foldl (fun acc c => acc + fs.moleFraction phaseIdx c)
    (Scalar.fin 0)

end FluidState

/-- The black-oil fluid system, the `Indices` and the compile-time sizes `update` refers
to; all of them are declared outside this file of the source.  `viscosity` and `density`
take the fluid state at the time of the call and the parameter cache; the cache is
represented by the fluid state it was built from by `updateAll`. -/
structure FluidSystem where
  numPhases : Nat
  numComponents : Nat
  saturation0Idx : Nat
  wPhaseIdx : Nat
  oPhaseIdx : Nat
  gPhaseIdx : Nat
  wCompIdx : Nat
  oCompIdx : Nat
  gCompIdx : Nat
  bubblePressure : Scalar
  gasFormationVolumeFactor : Scalar → Scalar
  oilFormationVolumeFactor : Scalar → Scalar
  gasFormationFactor : Scalar → Scalar
  surfaceDensity : Nat → Scalar
  molarMass : Nat → Scalar
  oilCompressibility : Scalar
  viscosity : FluidState → FluidState → Nat → Scalar
  density : FluidState → FluidState → Nat → Scalar

/-- What `update` reads from the element context for the sub-control volume and time index
it is called with: the problem's temperature, porosity and intrinsic permeability, the
primary variables, and the material law already applied to the problem's material-law
parameters. -/
structure ElementContext where
  temperature : Scalar
  primaryVars : Nat → Scalar
  capillaryPressures : FluidState → Nat → Scalar
  relativePermeabilities : FluidState → Nat → Scalar
  porosity : Scalar
  intrinsicPermeability : Nat → Nat → Scalar

/-- The data members of `BlackOilVolumeVariables`. -/
structure BlackOilVolumeVariables where
  fluidState_ : FluidState
  porosity_ : Scalar
  intrinsicPerm_ : Nat → Nat → Scalar
  relativePermeability_ : Nat → Scalar

namespace BlackOilVolumeVariables

open Scalar

/-- The saturation part of `update`: the first `numPhases - 1` saturations are copied from
the primary variables, the last one is one minus their sum.  The model has at least one
phase, so `numPhases - 1` is taken in the natural numbers. -/
def updateSaturations_ (FS : FluidSystem) (priVars : Nat → Scalar) (fs : FluidState) :
    FluidState :=
  let r := (List.range (FS.numPhases - 1)).foldl
    (fun (acc : FluidState × Scalar) phaseIdx =>
      (acc.1.setSaturation phaseIdx (priVars (FS.saturation0Idx + phaseIdx)),
       acc.2 + priVars (FS.saturation0Idx + phaseIdx)))
    (fs, fin 0)
  r.1.setSaturation (FS.numPhases - 1) (fin 1 - r.2)

/-- The pressure part of `update`. -/
def updatePressures_ (FS : FluidSystem) (p0 : Scalar) (pC : Nat → Scalar) (fs : FluidState) :
    FluidState :=
  (List.range FS.numPhases).foldl
    (fun acc phaseIdx => acc.setPressure phaseIdx (p0 + (pC phaseIdx - pC 0))) fs

/-- The loop of `update` that sets every mole fraction to zero. -/
def zeroMoleFractions_ (FS : FluidSystem) (fs : FluidState) : FluidState :=
  (List.range FS.numPhases).foldl
    (fun acc phaseIdx =>
      (List.range FS.numComponents).foldl
        (fun acc2 compIdx => acc2.setMoleFraction phaseIdx compIdx (fin 0)) acc)
    fs

/-- The viscosity loop of `update`. -/
def updateViscosities_ (FS : FluidSystem) (paramCache : FluidState) (fs : FluidState) :
    FluidState :=
  (List.range FS.numPhases).foldl
    (fun acc phaseIdx => acc.setViscosity phaseIdx (FS.viscosity acc paramCache phaseIdx)) fs

/-- The source's `update`.  The result is `none` when the `assert` of the source fails.
The calls to the parent class's `update` and to the velocity module's `update_` touch none
of the members below and are left out. -/
def update (FS : FluidSystem) (self : BlackOilVolumeVariables) (elemCtx : ElementContext) :
    Option BlackOilVolumeVariables :=
  let fs := self.fluidState_.setTemperature elemCtx.temperature
  let priVars := elemCtx.primaryVars
  -- update the saturations
  let fs := updateSaturations_ FS priVars fs
  -- update the pressures
  let p0 := priVars 0
  let pC := elemCtx.capillaryPressures fs
  let fs := updatePressures_ FS p0 pC fs
  -- update phase compositions
  let fs := zeroMoleFractions_ FS fs
  let fs := fs.setMoleFraction FS.gPhaseIdx FS.gCompIdx (fin 1)
  let fs := fs.setMoleFraction FS.wPhaseIdx FS.wCompIdx (fin 1)
  -- retrieve the relevant black-oil parameters from the fluid system
  let pBub := FS.bubblePressure
  let p := if gt (fs.pressure FS.oPhaseIdx) pBub then pBub else fs.pressure FS.oPhaseIdx
  let Bg := FS.gasFormationVolumeFactor p
  let Bo := FS.oilFormationVolumeFactor p
  let Rs := FS.gasFormationFactor p
  let rhoo := FS.surfaceDensity FS.oPhaseIdx / Bo
  let rhorefg := FS.surfaceDensity FS.gPhaseIdx
  let MG := FS.molarMass FS.gPhaseIdx
  let MO := FS.molarMass FS.oPhaseIdx
  -- calculate composition of oil phase in terms of mass fractions
  let XoG := Rs * rhorefg / rhoo
  let XoO := fin 1 - XoG
  if !(ge XoG (fin 0) && ge XoO (fin 0)) then none
  else
    -- convert to mole fractions
    let avgMolarMass := MO * MG / (MG + XoO * (MO - MG))
    let xoG := XoG * avgMolarMass / MG
    let xoO := fin 1 - XoG
    -- finally set the oil-phase composition
    let fs := fs.setMoleFraction FS.oPhaseIdx FS.gCompIdx xoG
    let fs := fs.setMoleFraction FS.oPhaseIdx FS.oCompIdx xoO
    -- handle undersaturated oil
    let rhoo := if gt (fs.pressure FS.oPhaseIdx) pBub then
      rhoo + FS.oilCompressibility * (fs.pressure FS.oPhaseIdx - pBub) else rhoo
    let paramCache := fs
    let fs := updateViscosities_ FS paramCache fs
    -- set the phase densities
    let fs := fs.setDensity FS.oPhaseIdx rhoo
    let fs := fs.setDensity FS.wPhaseIdx (FS.density fs paramCache FS.wPhaseIdx)
    let fs := fs.setDensity FS.gPhaseIdx (rhorefg / Bg)
    some
      { fluidState_ := fs,
        relativePermeability_ := elemCtx.relativePermeabilities fs,
        porosity_ := elemCtx.porosity,
        intrinsicPerm_ := elemCtx.intrinsicPermeability }

/-- The fluid state of `update` when its pressure loop is done. -/
def pressureState_ (FS : FluidSystem) (self : BlackOilVolumeVariables)
    (elemCtx : ElementContext) : FluidState :=
  let fs := self.fluidState_.setTemperature elemCtx.temperature
  let fs := updateSaturations_ FS elemCtx.primaryVars fs
  updatePressures_ FS (elemCtx.primaryVars 0) (elemCtx.capillaryPressures fs) fs

/-- The local `p` of `update` for the oil-phase pressure `po`: the pressure clipped at the
bubble pressure. -/
def clippedPressure_ (FS : FluidSystem) (po : Scalar) : Scalar :=
  if gt po FS.bubblePressure then FS.bubblePressure else po

/-- The local `rhoo` of `update` before the compressibility correction, for the clipped
pressure `p`. -/
def rhoo_ (FS : FluidSystem) (p : Scalar) : Scalar :=
  FS.surfaceDensity FS.oPhaseIdx / FS.oilFormationVolumeFactor p

/-- The local `XoG` of `update` for the clipped pressure `p`. -/
def XoG_ (FS : FluidSystem) (p : Scalar) : Scalar :=
  FS.gasFormationFactor p * FS.surfaceDensity FS.gPhaseIdx / rhoo_ FS p

/-- The local `xoG` of `update` for the clipped pressure `p`. -/
def xoG_ (FS : FluidSystem) (p : Scalar) : Scalar :=
  let MG := FS.molarMass FS.gPhaseIdx
  let MO := FS.molarMass FS.oPhaseIdx
  let XoG := XoG_ FS p
  let XoO := fin 1 - XoG
  let avgMolarMass := MO * MG / (MG + XoO * (MO - MG))
  XoG * avgMolarMass / MG

/-- The local `xoO` of `update` for the clipped pressure `p`. -/
def xoO_ (FS : FluidSystem) (p : Scalar) : Scalar :=
  fin 1 - XoG_ FS p

end BlackOilVolumeVariables

/-! ## The compositional pressure model (`dumux/decoupled/2p2c/fvpressurecompositional.hh`) -/

namespace Scalar

/-- The C `fabs`. -/
def fabs : Scalar → Scalar
  | fin a => fin |a|
  | posInf => posInf
  | negInf => posInf
  | nan => nan

/-- The C `isnan`. -/
def isnan : Scalar → Bool
  | nan => true
  | _ => false

/-- The C `isinf`. -/
def isinf : Scalar → Bool
  | posInf => true
  | negInf => true
  | _ => false

end Scalar

/-- The Dune exceptions the pressure model raises. -/
inductive DuneException where
  | MathError (msg : String)
  | NotImplemented (msg : String)
  deriving DecidableEq

/-- The fluid state of the decoupled two-phase two-component model, as far as the pressure
model reads it.  The class is declared outside this file of the source. -/
structure DecFluidState where
  saturation : Nat → Scalar
  phaseMassFraction : Nat → Scalar
  density : Nat → Scalar

/-- The cell data of the decoupled model, as far as `volumeDerivatives` touches it.  The
class is declared outside this file of the source; `dv_dp()` and `dv(k)` return references
that the source assigns to, so an assignment is a write to the cell data.
`volumeDerivativesAvailable_` records that `confirmVolumeDerivatives` was called. -/
structure CellData where
  pressure : Nat → Scalar
  massConcentration : Nat → Scalar
  phaseMassFraction : Nat → Scalar
  density : Nat → Scalar
  dv_dp : Scalar
  dv : Nat → Scalar
  volumeDerivativesAvailable_ : Bool

namespace CellData

/-- Modelled from the spec: the source of `CellData::confirmVolumeDerivatives` is not part
of these files; the call marks the derivatives held by the cell data as confirmed. -/
def confirmVolumeDerivatives (cellData : CellData) : CellData :=
  { cellData with volumeDerivativesAvailable_ := true }

end CellData

/-- The state of an `FVPressureCompositional` object and of its problem as far as
`volumeDerivatives` reads it.  `temperatureAtPos` and `porosity` are the problem's
temperature and the spatial parameters' porosity at the cell with the given index;
`fluidStateDefault` is a default-constructed fluid state and `fluidStateUpdate` is the
flash `FluidState::update(Z1, pressure, porosity, temperature)`, applied to the state of
the object it is called on; both are declared outside this file of the source. -/
structure FVPressureCompositional where
  numPhases : Nat
  numComponents : Nat
  updateEstimate_ : Nat → Nat → Scalar
  temperatureAtPos : Nat → Scalar
  porosity : Nat → Scalar
  fluidStateDefault : DecFluidState
  fluidStateUpdate : DecFluidState → Scalar → (Nat → Scalar) → Scalar → Scalar → DecFluidState

/-- What `volumeDerivatives` leaves behind: the exception it raised, if any, and the cell
data. -/
structure VolumeDerivativesResult where
  thrown : Option DuneException
  cellData : CellData

namespace FVPressureCompositional

open Scalar

/-- Dune's `one_norm` of a vector of `n` entries: the sum of their absolute values. -/
def one_norm (n : Nat) (v : Nat → Scalar) : Scalar :=
  (List.range n).foldl (fun acc k => acc + fabs (v k)) (fin 0)

/-- The loop of `volumeDerivatives` that sums `phaseMassFraction / density` over the
phases. -/
def specificVolume_ (numPhases : Nat) (phaseMassFraction density : Nat → Scalar) : Scalar :=
  (List.range numPhases).foldl
    (fun acc phaseIdx => acc + phaseMassFraction phaseIdx / density phaseIdx) (fin 0)

/-- The vector `pressure` of `volumeDerivatives`: zero-initialised, then filled from the
cell data. -/
def pressure_ (self : FVPressureCompositional) (cellData : CellData) : Nat → Scalar :=
  fun phaseIdx => if phaseIdx < self.numPhases then cellData.pressure phaseIdx else fin 0

/-- The vector `mass` of `volumeDerivatives`: zero-initialised, then filled from the cell
data. -/
def mass_ (self : FVPressureCompositional) (cellData : CellData) : Nat → Scalar :=
  fun compIdx =>
    if compIdx < self.numComponents then cellData.massConcentration compIdx else fin 0

/-- The local `volalt` of `volumeDerivatives`: the actual fluid volume. -/
def volalt_ (self : FVPressureCompositional) (cellData : CellData) : Scalar :=
  one_norm self.numComponents (mass_ self cellData) *
    specificVolume_ self.numPhases cellData.phaseMassFraction cellData.density

/-- The vector `massIncrement` of `volumeDerivatives`: zero-initialised, then filled with
the update estimate, floored at `1e-8 * density`. -/
def massIncrement_ (self : FVPressureCompositional) (globalIdx : Nat) (cellData : CellData) :
    Nat → Scalar :=
  fun compIdx =>
    if compIdx < self.numComponents then
      let inc := self.updateEstimate_ compIdx globalIdx
      if lt (fabs inc) (fin (1/100000000) * cellData.density compIdx) then
        fin (1/100000000) * cellData.density compIdx
      else inc
    else fin 0

/-- The fluid volume `mass.one_norm() * specificVolume` of a flashed fluid state. -/
def volume_ (self : FVPressureCompositional) (mass : Nat → Scalar)
    (updFluidState : DecFluidState) : Scalar :=
  one_norm self.numComponents mass *
    specificVolume_ self.numPhases updFluidState.phaseMassFraction updFluidState.density

/-- The variables the component loop of `volumeDerivatives` changes. -/
structure CompLoopState where
  mass : Nat → Scalar
  updFluidState : DecFluidState
  cellData : CellData
  thrown : Option DuneException

/-- The body of the component loop of `volumeDerivatives`; once the exception is raised the
remaining iterations do not run. -/
def volumeDerivativesComp_ (self : FVPressureCompositional) (globalIdx : Nat)
    (pressure massIncrement : Nat → Scalar) (volalt : Scalar) (s : CompLoopState)
    (comp : Nat) : CompLoopState :=
  if s.thrown.isSome then s
  else
    let mass := setAt s.mass comp (s.mass comp + massIncrement comp)
    let Z1 := mass 0 / one_norm self.numComponents mass
    let updFluidState := self.fluidStateUpdate s.updFluidState Z1 pressure
      (self.porosity globalIdx) (self.temperatureAtPos globalIdx)
    let cellData := { s.cellData with
      dv := setAt s.cellData.dv comp
        ((volume_ self mass updFluidState - volalt) / massIncrement comp) }
    let mass := setAt mass comp (mass comp - massIncrement comp)
    { mass := mass, updFluidState := updFluidState, cellData := cellData,
      thrown :=
        if isnan (cellData.dv comp) || isinf (cellData.dv comp) then
          some (DuneException.MathError
            "NAN/inf of dV_dm. If that happens in first timestep, try smaller firstDt!")
        else none }

/-- The local `Z1` of the pressure part of `volumeDerivatives`: the feed fraction
`mass[0] / mass.one_norm()` of the unperturbed masses. -/
def Z1_ (self : FVPressureCompositional) (cellData : CellData) : Scalar :=
  mass_ self cellData 0 / one_norm self.numComponents (mass_ self cellData)

/-- The vector `p_` of `volumeDerivatives` before the retry: `incp` in every entry, then
the pressures added. -/
def pForward_ (self : FVPressureCompositional) (cellData : CellData) : Nat → Scalar :=
  fun phaseIdx => fin (1/100) + pressure_ self cellData phaseIdx

/-- The vector `p_` of `volumeDerivatives` in the retry: `p_ -= 2*incp`. -/
def pBackward_ (self : FVPressureCompositional) (cellData : CellData) : Nat → Scalar :=
  fun phaseIdx => pForward_ self cellData phaseIdx - fin 2 * fin (1/100)

/-- The fluid state `updFluidState` after the first flash of `volumeDerivatives`, at the
raised pressures. -/
def flashForward_ (self : FVPressureCompositional) (globalIdx : Nat) (cellData : CellData) :
    DecFluidState :=
  self.fluidStateUpdate self.fluidStateDefault (Z1_ self cellData) (pForward_ self cellData)
    (self.porosity globalIdx) (self.temperatureAtPos globalIdx)

/-- The fluid state `updFluidState` after the flash of the retry, at the lowered
pressures. -/
def flashBackward_ (self : FVPressureCompositional) (globalIdx : Nat) (cellData : CellData) :
    DecFluidState :=
  self.fluidStateUpdate (flashForward_ self globalIdx cellData) (Z1_ self cellData)
    (pBackward_ self cellData) (self.porosity globalIdx) (self.temperatureAtPos globalIdx)

/-- The pressure part of `volumeDerivatives`: the forward secant and, when it is positive,
the retry with the pressures lowered by `2 * incp`.  The result is the fluid state
`updFluidState` and the cell data.  The messages written to `Dune::dinfo` are left out. -/
def volumeDerivativesPressure_ (self : FVPressureCompositional) (globalIdx : Nat)
    (cellData : CellData) : DecFluidState × CellData :=
  let mass := mass_ self cellData
  let volalt := volalt_ self cellData
  let incp := fin (1/100)
  let updFluidState := flashForward_ self globalIdx cellData
  let cellData1 := { cellData with
    dv_dp := (volume_ self mass updFluidState - volalt) / incp }
  if gt cellData1.dv_dp (fin 0) then
    let updFluidState := flashBackward_ self globalIdx cellData
    (updFluidState,
      { cellData1 with dv_dp := (volume_ self mass updFluidState - volalt) / incp })
  else (updFluidState, cellData1)

/-- The component loop of `volumeDerivatives` after its first `m` iterations. -/
def compLoop_ (self : FVPressureCompositional) (globalIdx : Nat) (cellData : CellData)
    (m : Nat) : CompLoopState :=
  (List.range m).foldl
    (volumeDerivativesComp_ self globalIdx (pressure_ self cellData)
      (massIncrement_ self globalIdx cellData) (volalt_ self cellData))
    { mass := mass_ self cellData,
      updFluidState := (volumeDerivativesPressure_ self globalIdx cellData).1,
      cellData := (volumeDerivativesPressure_ self globalIdx cellData).2,
      thrown := none }

/-- The vector `mass` of `volumeDerivatives` with the mass of the component `comp` raised
by its increment, all other masses unchanged. -/
def massPerturbed_ (self : FVPressureCompositional) (globalIdx : Nat) (cellData : CellData)
    (comp : Nat) : Nat → Scalar :=
  setAt (mass_ self cellData) comp
    (mass_ self cellData comp + massIncrement_ self globalIdx cellData comp)

/-- The fluid state `updFluidState` after the flash of the iteration `comp` of the
component loop: the flash at the unperturbed pressures for the masses `massPerturbed_`,
applied to the fluid state the earlier iterations left. -/
def flashComp_ (self : FVPressureCompositional) (globalIdx : Nat) (cellData : CellData)
    (comp : Nat) : DecFluidState :=
  self.fluidStateUpdate (compLoop_ self globalIdx cellData comp).updFluidState
    (massPerturbed_ self globalIdx cellData comp 0
      / one_norm self.numComponents (massPerturbed_ self globalIdx cellData comp))
    (pressure_ self cellData) (self.porosity globalIdx) (self.temperatureAtPos globalIdx)

/-- The source's `volumeDerivatives` for the cell with the index `globalIdx` and the cell
data `cellData`: the pressure part, the component loop and, unless the loop raised the
exception, the confirmation. -/
def volumeDerivatives (self : FVPressureCompositional) (globalIdx : Nat)
    (cellData : CellData) : VolumeDerivativesResult :=
  let s := compLoop_ self globalIdx cellData self.numComponents
  match s.thrown with
  | some e => { thrown := some e, cellData := s.cellData }
  | none => { thrown := none, cellData := s.cellData.confirmVolumeDerivatives }

end FVPressureCompositional

/-! ## The black-oil volume variables: the stages of `update` -/

namespace FluidState

/-- Two fluid states hold the same temperature and the same saturations of the phases of
the model. -/
def agreeSaturations (numPhases : Nat) (a b : FluidState) : Prop :=
  a.temperature = b.temperature ∧
    ∀ phaseIdx, phaseIdx < numPhases → a.saturation phaseIdx = b.saturation phaseIdx

/-- Two fluid states hold the same temperature, saturations, pressures and mole fractions
of the phases and components of the model. -/
def agreeThermodynamic (numPhases numComponents : Nat) (a b : FluidState) : Prop :=
  agreeSaturations numPhases a b ∧
    (∀ phaseIdx, phaseIdx < numPhases → a.pressure phaseIdx = b.pressure phaseIdx) ∧
    ∀ phaseIdx compIdx, phaseIdx < numPhases → compIdx < numComponents →
      a.moleFraction phaseIdx compIdx = b.moleFraction phaseIdx compIdx

/-- Two fluid states hold the same values in every field of the phases and components of
the model. -/
def agree (numPhases numComponents : Nat) (a b : FluidState) : Prop :=
  agreeThermodynamic numPhases numComponents a b ∧
    (∀ phaseIdx, phaseIdx < numPhases → a.viscosity phaseIdx = b.viscosity phaseIdx) ∧
    ∀ phaseIdx, phaseIdx < numPhases → a.density phaseIdx = b.density phaseIdx

end FluidState

namespace BlackOilVolumeVariables

open Scalar

/-- The fluid state of `update` when the composition of the oil phase is set; the
parameter cache is built from it. -/
def compositionState_ (FS : FluidSystem) (self : BlackOilVolumeVariables)
    (elemCtx : ElementContext) : FluidState :=
  let fs := zeroMoleFractions_ FS (pressureState_ FS self elemCtx)
  let fs := fs.setMoleFraction FS.gPhaseIdx FS.gCompIdx (fin 1)
  let fs := fs.setMoleFraction FS.wPhaseIdx FS.wCompIdx (fin 1)
  let p := clippedPressure_ FS (fs.pressure FS.oPhaseIdx)
  let fs := fs.setMoleFraction FS.oPhaseIdx FS.gCompIdx (xoG_ FS p)
  fs.setMoleFraction FS.oPhaseIdx FS.oCompIdx (xoO_ FS p)

/-- The local `rhoo` of `update` after the correction for undersaturated oil, for the
oil-phase pressure `po`. -/
def rhooUndersaturated_ (FS : FluidSystem) (po : Scalar) : Scalar :=
  if gt po FS.bubblePressure then
    rhoo_ FS (clippedPressure_ FS po) + FS.oilCompressibility * (po - FS.bubblePressure)
  else rhoo_ FS (clippedPressure_ FS po)

/-- The fluid state of `update` when the viscosities and densities are set. -/
def finalState_ (FS : FluidSystem) (self : BlackOilVolumeVariables)
    (elemCtx : ElementContext) : FluidState :=
  let paramCache := compositionState_ FS self elemCtx
  let fs := updateViscosities_ FS paramCache paramCache
  let fs := fs.setDensity FS.oPhaseIdx
    (rhooUndersaturated_ FS (paramCache.pressure FS.oPhaseIdx))
  let fs := fs.setDensity FS.wPhaseIdx (FS.density fs paramCache FS.wPhaseIdx)
  fs.setDensity FS.gPhaseIdx
    (FS.surfaceDensity FS.gPhaseIdx
      / FS.gasFormationVolumeFactor (clippedPressure_ FS (paramCache.pressure FS.oPhaseIdx)))

/-- The gas mole fraction that belongs to the mass fractions `(XoG, 1 - XoG)` of a mixture
of gas and oil with the molar masses `MG` and `MO`, as the specification states it. -/
def moleFractionGasSpec (XoG MG MO : ℚ) : ℚ :=
  (XoG / MG) / (XoG / MG + (1 - XoG) / MO)

/-- The oil mole fraction that belongs to the mass fractions `(XoG, 1 - XoG)` of a mixture
of gas and oil with the molar masses `MG` and `MO`, as the specification states it. -/
def moleFractionOilSpec (XoG MG MO : ℚ) : ℚ :=
  ((1 - XoG) / MO) / (XoG / MG + (1 - XoG) / MO)

end BlackOilVolumeVariables

/-! ## The Richards volume variables (`ewoms/models/richards/richardsvolumevariables.hh`) -/

/-- What `RichardsVolumeVariables::update` reads: the indices `pressureWIdx` and
`wPhaseIdx` (the property `LiquidPhaseIndex`, `0` or `1`), the fluid system, the material
law already applied to the problem's material-law parameters, and the problem's
temperature, reference pressure, porosity and intrinsic permeability at the degree of
freedom.  All of them are declared outside this file of the source.  `viscosity` and
`density` take the fluid state and the parameter cache, which is represented by the fluid
state it was built from. -/
structure RichardsContext where
  pressureWIdx : Nat
  wPhaseIdx : Nat
  isLiquid : Nat → Bool
  temperature : Scalar
  primaryVars : Nat → Scalar
  referencePressure : Scalar
  capillaryPressures : FluidState → Nat → Scalar
  saturations : FluidState → Nat → Scalar
  relativePermeabilities : FluidState → Nat → Scalar
  viscosity : FluidState → FluidState → Nat → Scalar
  density : FluidState → FluidState → Nat → Scalar
  porosity : Scalar
  intrinsicPermeability : Nat → Nat → Scalar

/-- The data members of `RichardsVolumeVariables`.  The immiscible fluid state is held in
a `FluidState` whose mole fractions `update` does not touch. -/
structure RichardsVolumeVariables where
  fluidState_ : FluidState
  intrinsicPerm_ : Nat → Nat → Scalar
  relativePermeability_ : Nat → Scalar
  porosity_ : Scalar

namespace RichardsVolumeVariables

open Scalar

/-- The constant `nonWettingPhaseIdx = 1 - wPhaseIdx`. -/
def nonWettingPhaseIdx (ctx : RichardsContext) : Nat := 1 - ctx.wPhaseIdx

/-- The fluid state the capillary pressures of `update` are computed for: the temperature
is set and the medium is fully saturated by the wetting phase. -/
def saturatedState_ (ctx : RichardsContext) (self : RichardsVolumeVariables) : FluidState :=
  let fs := self.fluidState_.setTemperature ctx.temperature
  let fs := fs.setSaturation ctx.wPhaseIdx (fin 1)
  fs.setSaturation (nonWettingPhaseIdx ctx) (fin 0)

/-- The local `pN` of `update`. -/
def pN_ (ctx : RichardsContext) (self : RichardsVolumeVariables) : Scalar :=
  let pC := ctx.capillaryPressures (saturatedState_ ctx self)
  let pW := ctx.primaryVars ctx.pressureWIdx
  stdMax ctx.referencePressure (pW + (pC (nonWettingPhaseIdx ctx) - pC ctx.wPhaseIdx))

/-- The fluid state the saturations of `update` are computed for: the state
`saturatedState_` with the two pressures set. -/
def pressureState_ (ctx : RichardsContext) (self : RichardsVolumeVariables) : FluidState :=
  let fs := (saturatedState_ ctx self).setPressure ctx.wPhaseIdx
    (ctx.primaryVars ctx.pressureWIdx)
  fs.setPressure (nonWettingPhaseIdx ctx) (pN_ ctx self)

/-- The source's `update`.  The result is `none` when the `assert` of the source fails.
The calls to the parent class's `update` and to the velocity module's `update_` touch none
of the members below and are left out. -/
def update (ctx : RichardsContext) (self : RichardsVolumeVariables) :
    Option RichardsVolumeVariables :=
  if ctx.isLiquid (nonWettingPhaseIdx ctx) then none
  else
    let fs := self.fluidState_.setTemperature ctx.temperature
    let priVars := ctx.primaryVars
    -- calculate the pressures
    let fs := fs.setSaturation ctx.wPhaseIdx (fin 1)
    let fs := fs.setSaturation (nonWettingPhaseIdx ctx) (fin 0)
    let pC := ctx.capillaryPressures fs
    let pW := priVars ctx.pressureWIdx
    let pN := stdMax ctx.referencePressure
      (pW + (pC (nonWettingPhaseIdx ctx) - pC ctx.wPhaseIdx))
    -- calculate the saturations
    let fs := fs.setPressure ctx.wPhaseIdx pW
    let fs := fs.setPressure (nonWettingPhaseIdx ctx) pN
    let sat := ctx.saturations fs
    let fs := fs.setSaturation ctx.wPhaseIdx (sat ctx.wPhaseIdx)
    let fs := fs.setSaturation (nonWettingPhaseIdx ctx) (fin 1 - sat ctx.wPhaseIdx)
    let paramCache := fs
    -- compute and set the wetting phase viscosity
    let mu := ctx.viscosity fs paramCache ctx.wPhaseIdx
    let fs := fs.setViscosity ctx.wPhaseIdx mu
    let fs := fs.setViscosity (nonWettingPhaseIdx ctx) (fin (1/100000000000000000000))
    -- compute and set the wetting phase density
    let rho := ctx.density fs paramCache ctx.wPhaseIdx
    let fs := fs.setDensity ctx.wPhaseIdx rho
    let fs := fs.setDensity (nonWettingPhaseIdx ctx) (fin (1/100000000000000000000))
    some
      { fluidState_ := fs,
        relativePermeability_ := ctx.relativePermeabilities fs,
        porosity_ := ctx.porosity,
        intrinsicPerm_ := ctx.intrinsicPermeability }

end RichardsVolumeVariables

/-! ## The compositional pressure model: construction and initialisation -/

/-- What the constructor of `FVPressureCompositional` reads: the compile-time constants
`NumPhases` and `pressureType` (the property `PressureFormulation`), the constants
`pw = Indices::pressureW` and `pn = Indices::pressureNW`, the number `gridSize` of cells
of the grid view and the run-time parameters read with `GET_PARAM`.  All of them are
declared outside this file of the source. -/
structure ConstructorInput where
  NumPhases : Nat
  pressureType : Int
  pw : Int
  pn : Int
  gridSize : Nat
  ErrorTermFactor : Scalar
  ErrorTermLowerBound : Scalar
  ErrorTermUpperBound : Scalar

/-- The members the constructor of `FVPressureCompositional` sets; of `updateEstimate_`
only the sizes of its vectors are recorded, since `resize` leaves their entries
unspecified. -/
structure ConstructedMembers where
  updateEstimate_ : List Nat
  ErrorTermFactor_ : Scalar
  ErrorTermLowerBound_ : Scalar
  ErrorTermUpperBound_ : Scalar

/-- What the concentration branch of `initialMaterialLaws` reads for a cell: the constants
of the class, the pressure `this->pressure()[globalIdx]`, the problem's initial
concentration, porosity and temperature, the capillary pressure law
`MaterialLaw::pC(materialLawParams, Sw)` of the cell, the flash `FluidState::update` and
`FluidState::calculateMassConcentration`.  All of them are declared outside this file of
the source. -/
structure InitialMaterialLaws where
  pressureType : Int
  pw : Int
  pn : Int
  wPhaseIdx : Nat
  nPhaseIdx : Nat
  pressure : Nat → Scalar
  initConcentration : Nat → Scalar
  porosity : Nat → Scalar
  temperatureAtPos : Nat → Scalar
  pC : Nat → Scalar → Scalar
  fluidStateUpdate : DecFluidState → Scalar → (Nat → Scalar) → Scalar → Scalar → DecFluidState
  calculateMassConcentration : DecFluidState → Scalar → DecFluidState

/-- One call of `fluidState.update` in the capillarity loop of `initialMaterialLaws`: the
phase pressures passed to it, the local `oldPc`, the fluid state after the call and the
capillary pressure `pc` computed from it. -/
structure FlashCall where
  pressure : Nat → Scalar
  oldPc : Scalar
  fluidState : DecFluidState
  pc : Scalar

/-- The variables the capillarity loop of `initialMaterialLaws` changes, and the calls of
`fluidState.update` made so far, oldest first. -/
structure FlashLoopState where
  iter : Int
  pc : Scalar
  pressure : Nat → Scalar
  fluidState : DecFluidState
  updates : List FlashCall

namespace FlashCall

/-- The convergence criterion `abs(oldPc - pc) < 10` of the capillarity loop, with `abs`
taken as the absolute value of a `Scalar`.  (The integer `abs` of C truncates its argument
first; compared with `10` that gives the same outcome for the numbers an `int` holds.) -/
def converged (c : FlashCall) : Bool :=
  Scalar.lt (Scalar.fabs (c.oldPc - c.pc)) (Scalar.fin 10)

end FlashCall

namespace FVPressureCompositional

open Scalar

/-- The constructor `FVPressureCompositional(Problem&)`.  The constructors of the parent
class and of the output writer are declared outside this file of the source and are left
out. -/
def construct (input : ConstructorInput) : Except DuneException ConstructedMembers :=
  let updateEstimate_ := List.replicate input.NumPhases input.gridSize
  if input.pressureType ≠ input.pw ∧ input.pressureType ≠ input.pn then
    Except.error (DuneException.NotImplemented "Pressure type not supported!")
  else
    Except.ok
      { updateEstimate_ := updateEstimate_,
        ErrorTermFactor_ := input.ErrorTermFactor,
        ErrorTermLowerBound_ := input.ErrorTermLowerBound,
        ErrorTermUpperBound_ := input.ErrorTermUpperBound }

/-- The `switch (pressureType)` of the capillarity loop: the phase pressures determined
from the primary pressure variable and the capillary pressure `pc`. -/
def phasePressures_ (self : InitialMaterialLaws) (globalIdx : Nat) (pc : Scalar)
    (pressure : Nat → Scalar) : Nat → Scalar :=
  if self.pressureType = self.pw then
    setAt (setAt pressure self.wPhaseIdx (self.pressure globalIdx)) self.nPhaseIdx
      (self.pressure globalIdx + pc)
  else if self.pressureType = self.pn then
    setAt (setAt pressure self.wPhaseIdx (self.pressure globalIdx - pc)) self.nPhaseIdx
      (self.pressure globalIdx)
  else pressure

/-- The body of the capillarity loop of `initialMaterialLaws`, with the increment
`iter++` of the loop header. -/
def flashLoopBody_ (self : InitialMaterialLaws) (globalIdx : Nat) (maxiter : Int)
    (s : FlashLoopState) : FlashLoopState :=
  let pressure := phasePressures_ self globalIdx s.pc s.pressure
  let oldPc := s.pc
  let fluidState := self.fluidStateUpdate s.fluidState (self.initConcentration globalIdx)
    pressure (self.porosity globalIdx) (self.temperatureAtPos globalIdx)
  let pc := self.pC globalIdx (fluidState.saturation self.wPhaseIdx)
  let iter := if lt (fabs (oldPc - pc)) (fin 10) then maxiter else s.iter
  let pc2 := self.pC globalIdx (fluidState.saturation self.wPhaseIdx)
  { iter := iter + 1, pc := pc2, pressure := pressure, fluidState := fluidState,
    updates := s.updates ++
      [{ pressure := pressure, oldPc := oldPc, fluidState := fluidState, pc := pc }] }

/-- The loop `for (int iter = 0; iter < maxiter; iter++)` of `initialMaterialLaws`, run
for at most `fuel` iterations. -/
def flashLoop_ (self : InitialMaterialLaws) (globalIdx : Nat) (maxiter : Int) :
    Nat → FlashLoopState → FlashLoopState
  | 0, s => s
  | fuel + 1, s =>
    if s.iter < maxiter then
      flashLoop_ self globalIdx maxiter fuel (flashLoopBody_ self globalIdx maxiter s)
    else s

/-- The variables of the capillarity loop when it is entered: `pc` starts from the
capillary pressure `capillaryPressure` of the cell data, `pressure` is zero-initialised,
`fluidState` is the fluid state of the cell data, `iter` is `0`. -/
def flashLoopStart_ (capillaryPressure : Scalar) (fluidState : DecFluidState) :
    FlashLoopState :=
  { iter := 0, pc := capillaryPressure, pressure := fun _ => fin 0,
    fluidState := fluidState, updates := [] }

/-- The capillarity loop of `initialMaterialLaws` for the cell `globalIdx` from its start,
with `maxiter = 3`. -/
def capillarityLoop_ (self : InitialMaterialLaws) (globalIdx : Nat)
    (capillaryPressure : Scalar) (fluidState : DecFluidState) (fuel : Nat) :
    FlashLoopState :=
  flashLoop_ self globalIdx 3 fuel (flashLoopStart_ capillaryPressure fluidState)

/-- The fluid state the concentration branch of `initialMaterialLaws` keeps for the cell
when capillarity is enabled: the one the capillarity loop leaves, with
`calculateMassConcentration` applied. -/
def initialFluidState_ (self : InitialMaterialLaws) (globalIdx : Nat)
    (capillaryPressure : Scalar) (fluidState : DecFluidState) (fuel : Nat) :
    DecFluidState :=
  self.calculateMassConcentration
    (capillarityLoop_ self globalIdx capillaryPressure fluidState fuel).fluidState
    (self.porosity globalIdx)

end FVPressureCompositional

/-! ## The chopping of one block -/

namespace NcpNewtonMethod

open Scalar

/-- The body of the outer loop of `chopUpdate_` for the degree of freedom `i`, written on
the block `uCurrentIter[i]` alone: `cur` is that block, `old` is the block `uLastIter[i]`. -/
def chopRow_ (self : NcpNewtonMethod) (i : Nat) (cur old : Nat → Scalar) : Nat → Scalar :=
  let r1 := (List.range (self.numPhases - 1)).foldl
    (fun r phaseIdx =>
      setAt r (self.saturation0Idx + phaseIdx)
        (saturationChop_ (r (self.saturation0Idx + phaseIdx))
          (old (self.saturation0Idx + phaseIdx))))
    cur
  let r2 := setAt r1 self.pressure0Idx
    (pressureChop_ (r1 self.pressure0Idx) (old self.pressure0Idx))
  (List.range self.numComponents).foldl
    (fun r compIdx =>
      setAt r (self.fugacity0Idx + compIdx)
        (fugacityChop_ (r (self.fugacity0Idx + compIdx)) (old (self.fugacity0Idx + compIdx))
          (self.minActivityCoeff i compIdx)))
    r2

end NcpNewtonMethod

/-! ## Concrete inputs -/

namespace NcpNewtonMethod

open Scalar

/-- A line search that accepts the step damped by the factor `1/8`. -/
def dampedStep (_uCurrentIter uLastIter : SolutionVector) (deltaU : GlobalEqVector) :
    SolutionVector :=
  { size := uLastIter.size, val := fun i j => uLastIter.val i j - fin (1/8) * deltaU.val i j }

/-- A Newton method for two phases and two components: entries 0 and 1 of a block are the
fugacities, entry 2 is the saturation, entry 3 is the pressure.  It is in its first
iteration, chops three iterations, and has partial reassembly and line search disabled. -/
def sample : NcpNewtonMethod :=
  { numEq := 4, numPhases := 2, numComponents := 2,
    fugacity0Idx := 0, saturation0Idx := 2, pressure0Idx := 3,
    choppedIterations_ := 3, numIterations_ := 0,
    relError_ := fin 1, relTolerance_ := fin (1/100000000),
    enablePartialReassemble_ := false, enableLineSearch_ := false,
    minActivityCoeff := fun _ _ => fin 1,
    lineSearchUpdate_ := dampedStep }

/-- The method `sample` with line search enabled. -/
def sampleLineSearch : NcpNewtonMethod :=
  { sample with enableLineSearch_ := true }

/-- The method `sample` with partial reassembly enabled. -/
def sampleReassemble : NcpNewtonMethod :=
  { sample with enablePartialReassemble_ := true }

/-- The method `sample` after its chopped iterations. -/
def sampleLate : NcpNewtonMethod :=
  { sample with numIterations_ := 3 }

/-- A vector of one block with the entries `a`, `b`, `c`, `d`. -/
def block4 (a b c d : Scalar) : BlockVector :=
  { size := 1,
    val := fun _ j => if j = 0 then a else if j = 1 then b else if j = 2 then c else d }

end NcpNewtonMethod

namespace BlackOilVolumeVariables

open Scalar

/-- A three-phase, three-component black-oil fluid system: water, oil and gas have the
indices 0, 1 and 2, both as phases and as components.  The bubble pressure is `50`, the
surface densities are `1000`, `800` and `1`, the molar masses of oil and gas are `0.16` and
`0.016`; `Bo = 1`, `Bg = 1/100` and `Rs = 100` at every pressure. -/
def sampleFluidSystem : FluidSystem :=
  { numPhases := 3, numComponents := 3, saturation0Idx := 1,
    wPhaseIdx := 0, oPhaseIdx := 1, gPhaseIdx := 2,
    wCompIdx := 0, oCompIdx := 1, gCompIdx := 2,
    bubblePressure := fin 50,
    gasFormationVolumeFactor := fun _ => fin (1/100),
    oilFormationVolumeFactor := fun _ => fin 1,
    gasFormationFactor := fun _ => fin 100,
    surfaceDensity := fun phaseIdx =>
      if phaseIdx = 0 then fin 1000 else if phaseIdx = 1 then fin 800 else fin 1,
    molarMass := fun phaseIdx =>
      if phaseIdx = 0 then fin (18/1000) else if phaseIdx = 1 then fin (4/25)
      else fin (2/125),
    oilCompressibility := fin 0,
    viscosity := fun _ _ _ => fin (1/1000),
    density := fun _ _ _ => fin 1000 }

/-- A sub-control volume with the primary variables pressure `80`, water saturation `1/5`
and oil saturation `1/2`, and without capillary pressure. -/
def sampleContext : ElementContext :=
  { temperature := fin 300,
    primaryVars := fun k => if k = 0 then fin 80 else if k = 1 then fin (1/5) else fin (1/2),
    capillaryPressures := fun _ _ => fin 0,
    relativePermeabilities := fun fs phaseIdx => fs.saturation phaseIdx,
    porosity := fin (1/5),
    intrinsicPermeability := fun i j => if i = j then fin 1 else fin 0 }

/-- Volume variables all of whose members are zero. -/
def zero : BlackOilVolumeVariables :=
  { fluidState_ :=
      { temperature := fin 0, saturation := fun _ => fin 0, pressure := fun _ => fin 0,
        moleFraction := fun _ _ => fin 0, viscosity := fun _ => fin 0,
        density := fun _ => fin 0 },
    porosity_ := fin 0,
    intrinsicPerm_ := fun _ _ => fin 0,
    relativePermeability_ := fun _ => fin 0 }

/-- The fluid system `sampleFluidSystem` with `Rs = 1000` at every pressure, so that
`XoG = 1000 * 1 / 800 = 5/4`. -/
def oversaturatedFluidSystem : FluidSystem :=
  { sampleFluidSystem with gasFormationFactor := fun _ => fin 1000 }

end BlackOilVolumeVariables

namespace BlackOilVolumeVariables

open Scalar

/-- Volume variables all of whose members hold `7`. -/
def stale : BlackOilVolumeVariables :=
  { fluidState_ :=
      { temperature := fin 7, saturation := fun _ => fin 7, pressure := fun _ => fin 7,
        moleFraction := fun _ _ => fin 7, viscosity := fun _ => fin 7,
        density := fun _ => fin 7 },
    porosity_ := fin 7,
    intrinsicPerm_ := fun _ _ => fin 7,
    relativePermeability_ := fun _ => fin 7 }

end BlackOilVolumeVariables

namespace RichardsVolumeVariables

open Scalar

/-- A Richards problem with the wetting phase `0`, the wetting pressure `90000` and the
reference pressure `100000`; the capillary pressure of the non-wetting phase is
`10000 * (1 - Sw)` and the material law's wetting saturation is
`1 - (pN - pW) / 100000`. -/
def sampleContext : RichardsContext :=
  { pressureWIdx := 0, wPhaseIdx := 0,
    isLiquid := fun phaseIdx => decide (phaseIdx = 0),
    temperature := fin 300,
    primaryVars := fun _ => fin 90000,
    referencePressure := fin 100000,
    capillaryPressures := fun fs phaseIdx =>
      if phaseIdx = 0 then fin 0 else fin 10000 * (fin 1 - fs.saturation 0),
    saturations := fun fs phaseIdx =>
      if phaseIdx = 0 then fin 1 - (fs.pressure 1 - fs.pressure 0) / fin 100000
      else (fs.pressure 1 - fs.pressure 0) / fin 100000,
    relativePermeabilities := fun fs phaseIdx => fs.saturation phaseIdx,
    viscosity := fun _ _ _ => fin (1/1000),
    density := fun _ _ _ => fin 1000,
    porosity := fin (1/5),
    intrinsicPermeability := fun i j => if i = j then fin 1 else fin 0 }

/-- Volume variables all of whose members are zero. -/
def zero : RichardsVolumeVariables :=
  { fluidState_ :=
      { temperature := fin 0, saturation := fun _ => fin 0, pressure := fun _ => fin 0,
        moleFraction := fun _ _ => fin 0, viscosity := fun _ => fin 0,
        density := fun _ => fin 0 },
    porosity_ := fin 0,
    intrinsicPerm_ := fun _ _ => fin 0,
    relativePermeability_ := fun _ => fin 0 }

end RichardsVolumeVariables

namespace FVPressureCompositional

open Scalar

/-- A flash for a fluid all of whose mass is in phase `0`, with the density of phase `0`
equal to its pressure and the density `1` for the other phases. -/
def sampleFlash (_prev : DecFluidState) (_Z1 : Scalar) (pressure : Nat → Scalar)
    (_porosity _temperature : Scalar) : DecFluidState :=
  { saturation := fun phaseIdx => if phaseIdx = 0 then fin 1 else fin 0,
    phaseMassFraction := fun phaseIdx => if phaseIdx = 0 then fin 1 else fin 0,
    density := fun phaseIdx => if phaseIdx = 0 then pressure 0 else fin 1 }

/-- A pressure model for two phases and two components with the flash `sampleFlash` and
the update estimate `0` for the first and `1/2` for the second component. -/
def sampleModel : FVPressureCompositional :=
  { numPhases := 2, numComponents := 2,
    updateEstimate_ := fun compIdx _ => if compIdx = 0 then fin 0 else fin (1/2),
    temperatureAtPos := fun _ => fin 300,
    porosity := fun _ => fin (1/5),
    fluidStateDefault :=
      { saturation := fun _ => fin 0, phaseMassFraction := fun _ => fin 0,
        density := fun _ => fin 0 },
    fluidStateUpdate := sampleFlash }

/-- The masses of the components in the cells `sampleCell`, which are also the mass
fractions of the phases there and in the fluid states of `sampleFlash`: `1` and `0`. -/
def sampleMass (k : Nat) : ℚ := if k = 0 then 1 else 0

/-- The densities of the phases in the cell `sampleCell (fin 100)`: `100` and `1`. -/
def sampleDensity (phaseIdx : Nat) : ℚ := if phaseIdx = 0 then 100 else 1

/-- The densities `sampleFlash` gives at the pressures `100.01`: `100.01` and `1`. -/
def sampleForwardDensity (phaseIdx : Nat) : ℚ := if phaseIdx = 0 then 10001/100 else 1

/-- The update estimates of `sampleModel`: `0` and `1/2`. -/
def sampleEstimate (k : Nat) : ℚ := if k = 0 then 0 else 1/2

/-- The mass increments of `sampleModel` in the cell `sampleCell (fin 100)`: the floor
`1e-8 * 100` and the update estimate `1/2`. -/
def sampleIncrement (k : Nat) : ℚ := if k = 0 then 1/1000000 else 1/2

/-- Cell data with the pressure `100` in both phases, the masses `1` and `0`, all mass in
phase `0`, and the densities `rho0` and `1`. -/
def sampleCell (rho0 : Scalar) : CellData :=
  { pressure := fun _ => fin 100,
    massConcentration := fun compIdx => if compIdx = 0 then fin 1 else fin 0,
    phaseMassFraction := fun phaseIdx => if phaseIdx = 0 then fin 1 else fin 0,
    density := fun phaseIdx => if phaseIdx = 0 then rho0 else fin 1,
    dv_dp := fin 0,
    dv := fun _ => fin 0,
    volumeDerivativesAvailable_ := false }

/-- A flash like `sampleFlash` that has no solution above the pressure `100` and reports
the density `NaN` of phase `0` there. -/
def boundedFlash (_prev : DecFluidState) (_Z1 : Scalar) (pressure : Nat → Scalar)
    (_porosity _temperature : Scalar) : DecFluidState :=
  { saturation := fun phaseIdx => if phaseIdx = 0 then fin 1 else fin 0,
    phaseMassFraction := fun phaseIdx => if phaseIdx = 0 then fin 1 else fin 0,
    density := fun phaseIdx =>
      if phaseIdx = 0 then (if lt (fin 100) (pressure 0) then nan else pressure 0)
      else fin 1 }

/-- The model `sampleModel` with the flash `boundedFlash`. -/
def boundedModel : FVPressureCompositional :=
  { sampleModel with fluidStateUpdate := boundedFlash }

/-- A flash that puts the feed fraction `Z1` of the mass into phase `0` and the rest into
phase `1`, with the density of phase `0` equal to its pressure and the density `1` for
phase `1`. -/
def feedFlash (_prev : DecFluidState) (Z1 : Scalar) (pressure : Nat → Scalar)
    (_porosity _temperature : Scalar) : DecFluidState :=
  { saturation := fun phaseIdx => if phaseIdx = 0 then fin 1 else fin 0,
    phaseMassFraction := fun phaseIdx => if phaseIdx = 0 then Z1 else fin 1 - Z1,
    density := fun phaseIdx => if phaseIdx = 0 then pressure 0 else fin 1 }

/-- A pressure model with the flash `feedFlash` whose update estimate takes the whole mass
`1` of the first component out of the cell. -/
def drainingModel : FVPressureCompositional :=
  { sampleModel with
    updateEstimate_ := fun compIdx _ => if compIdx = 0 then fin (-1) else fin (1/2),
    fluidStateUpdate := feedFlash }

end FVPressureCompositional

/-! ## Lemmas on scalars -/

namespace Scalar

@[simp] theorem fin_add_fin (a b : ℚ) : fin a + fin b = fin (a + b) := rfl

@[simp] theorem fin_sub_fin (a b : ℚ) : fin a - fin b = fin (a - b) := by
  show add (fin a) (neg (fin b)) = fin (a - b)
  simp [add, neg, sub_eq_add_neg]

@[simp] theorem fin_mul_fin (a b : ℚ) : fin a * fin b = fin (a * b) := rfl

theorem fin_div_fin (a b : ℚ) (hb : b ≠ 0) : fin a / fin b = fin (a / b) := by
  show div (fin a) (fin b) = fin (a / b)
  simp [div, hb]

theorem fin_div_fin_eq (a b : ℚ) :
    fin a / fin b = if b = 0 then signedInf a else fin (a / b) := rfl

@[simp] theorem lt_fin_fin (a b : ℚ) : lt (fin a) (fin b) = decide (a < b) := rfl

@[simp] theorem ge_fin_fin (a b : ℚ) : ge (fin a) (fin b) = decide (b ≤ a) := rfl

@[simp] theorem isfinite_fin (a : ℚ) : isfinite (fin a) = true := rfl

@[simp] theorem stdMax_fin_fin (a b : ℚ) : stdMax (fin a) (fin b) = fin (max a b) := by
  unfold stdMax
  by_cases h : a < b
  · simp [h, max_eq_right h.le]
  · simp [h, max_eq_left (not_lt.mp h)]

@[simp] theorem stdMin_fin_fin (a b : ℚ) : stdMin (fin a) (fin b) = fin (min a b) := by
  unfold stdMin
  by_cases h : b < a
  · simp [h, min_eq_right h.le]
  · simp [h, min_eq_left (not_lt.mp h)]

theorem add_fin_zero (x : Scalar) : x + fin 0 = x := by
  cases x with
  | fin a => rw [fin_add_fin, add_zero]
  | posInf => rfl
  | negInf => rfl
  | nan => rfl

/-- Both comparisons `x >= 0` and `1 - x >= 0` hold only for a finite `x` of `[0, 1]`. -/
theorem ge_zero_and_one_sub (x : Scalar) (h1 : ge x (fin 0) = true)
    (h2 : ge (fin 1 - x) (fin 0) = true) : ∃ q : ℚ, x = fin q ∧ 0 ≤ q ∧ q ≤ 1 := by
  cases x with
  | fin a =>
    rw [fin_sub_fin] at h2
    simp only [ge_fin_fin, decide_eq_true_eq] at h1 h2
    exact ⟨a, rfl, h1, by linarith⟩
  | posInf => exact absurd h2 (by decide)
  | negInf => exact absurd h1 (by decide)
  | nan => exact absurd h1 (by decide)

@[simp] theorem fabs_fin (a : ℚ) : fabs (fin a) = fin |a| := rfl

@[simp] theorem gt_fin_fin (a b : ℚ) : gt (fin a) (fin b) = decide (b < a) := rfl

theorem isfinite_iff (x : Scalar) : isfinite x = true ↔ ∃ q, x = fin q := by
  cases x <;> simp [isfinite]

/-- A finite sum has finite summands. -/
theorem isfinite_add {x y : Scalar} (h : isfinite (x + y) = true) :
    isfinite x = true ∧ isfinite y = true := by
  revert h
  cases x <;> cases y <;> simp [HAdd.hAdd, Add.add, add, isfinite]

/-- A finite square has a finite root. -/
theorem isfinite_mul_self {x : Scalar} (h : isfinite (x * x) = true) : isfinite x = true := by
  revert h
  cases x <;> simp [HMul.hMul, Mul.mul, mul, isfinite]

/-- With finite bounds `lo ≤ hi`, `std::max(lo, std::min(val, hi))` is a finite number of
`[lo, hi]` whatever `val` is, and it is `val` when `val` lies in the interval. -/
theorem stdMax_stdMin_bounds (val : Scalar) (lo hi : ℚ) (h : lo ≤ hi) :
    ∃ r, stdMax (fin lo) (stdMin val (fin hi)) = fin r ∧ lo ≤ r ∧ r ≤ hi := by
  cases val with
  | fin v => exact ⟨max lo (min v hi), by simp, le_max_left _ _, max_le h (min_le_right _ _)⟩
  | posInf => exact ⟨hi, by simp [stdMin, lt, max_eq_right h], h, le_refl _⟩
  | negInf => exact ⟨lo, by simp [stdMax, stdMin, lt], le_refl _, h⟩
  | nan => exact ⟨lo, by simp [stdMax, stdMin, lt], le_refl _, h⟩

end Scalar

/-- For an interval that is not empty, `max lo (min x hi)` is the clamp of `x`. -/
theorem max_min_eq_clamp (x lo hi : ℚ) (h : lo ≤ hi) : max lo (min x hi) = clamp x lo hi := by
  unfold clamp
  by_cases h1 : x < lo
  · rw [if_pos h1, min_eq_left (h1.le.trans h), max_eq_left h1.le]
  · rw [if_neg h1]
    by_cases h2 : hi < x
    · rw [if_pos h2, min_eq_right h2.le, max_eq_right h]
    · rw [if_neg h2, min_eq_left (not_lt.mp h2), max_eq_right (not_lt.mp h1)]

/-! ## Lemmas on loops -/

/-- A property that every step of a loop preserves holds after the loop if it held before. -/
theorem foldl_preserves {α β : Type} (Q : β → Prop) (step : β → α → β) (l : List α)
    (hpres : ∀ k ∈ l, ∀ u, Q u → Q (step u k)) (u0 : β) (h0 : Q u0) :
    Q (l.foldl step u0) := by
  induction l generalizing u0 with
  | nil => exact h0
  | cons k l ih =>
    exact ih (fun k2 hk2 => hpres k2 (List.mem_cons_of_mem _ hk2)) _
      (hpres k (List.mem_cons_self _ _) u0 h0)

/-- A property that every step of a loop preserves and that one step of the loop
establishes holds after the loop. -/
theorem foldl_establishes {α β : Type} (Q : β → Prop) (step : β → α → β) (l : List α)
    (hpres : ∀ k ∈ l, ∀ u, Q u → Q (step u k)) (k0 : α) (hk0 : k0 ∈ l)
    (hest : ∀ u, Q (step u k0)) (u0 : β) :
    Q (l.foldl step u0) := by
  induction l generalizing u0 with
  | nil => exact absurd hk0 (List.not_mem_nil _)
  | cons k l ih =>
    rcases List.mem_cons.mp hk0 with h | h
    · subst h
      exact foldl_preserves Q step l (fun k2 hk2 => hpres k2 (List.mem_cons_of_mem _ hk2)) _
        (hest u0)
    · exact ih (fun k2 hk2 => hpres k2 (List.mem_cons_of_mem _ hk2)) h _

/-- A loop that adds up finite numbers computes their sum. -/
theorem foldl_add_fin (f : Nat → ℚ) (g : Nat → Scalar) (m : Nat)
    (h : ∀ k, k < m → g k = Scalar.fin (f k)) :
    (List.range m).foldl (fun acc k => acc + g k) (Scalar.fin 0)
      = Scalar.fin ((Finset.range m).sum f) := by
  induction m with
  | zero => simp
  | succ m ih =>
    rw [List.range_succ, List.foldl_append, ih (fun k hk => h k (Nat.lt_succ_of_lt hk))]
    simp only [List.foldl_cons, List.foldl_nil]
    rw [h m (Nat.lt_succ_self m), Scalar.fin_add_fin, Finset.sum_range_succ]

namespace BlockVector

@[simp] theorem set_size (u : BlockVector) (i j : Nat) (v : Scalar) :
    (u.set i j v).size = u.size := rfl

@[simp] theorem set_val_same (u : BlockVector) (i j : Nat) (v : Scalar) :
    (u.set i j v).val i j = v := by
  simp [set]

theorem set_val_other (u : BlockVector) (i j a b : Nat) (v : Scalar) (h : ¬ (a = i ∧ b = j)) :
    (u.set i j v).val a b = u.val a b := by
  simp [set, h]

/-- A finite sum of squares over a loop has a finite start value and finite summands. -/
theorem isfinite_foldl_add (f : Nat → Scalar) (l : List Nat) (acc : Scalar)
    (h : Scalar.isfinite (l.foldl (fun a k => a + f k) acc) = true) :
    Scalar.isfinite acc = true ∧ ∀ k ∈ l, Scalar.isfinite (f k) = true := by
  induction l generalizing acc with
  | nil => exact ⟨h, fun k hk => absurd hk (List.not_mem_nil _)⟩
  | cons k l ih =>
    have h1 := ih (acc + f k) h
    have h2 := Scalar.isfinite_add h1.1
    refine ⟨h2.1, fun k2 hk2 => ?_⟩
    rcases List.mem_cons.mp hk2 with e | e
    · rw [e]; exact h2.2
    · exact h1.2 k2 e

/-- When the squared two-norm is finite, so is every entry it sums over. -/
theorem isfinite_of_two_norm2 (numEq : Nat) (u : BlockVector)
    (h : Scalar.isfinite (u.two_norm2 numEq) = true) (i j : Nat) (hi : i < u.size)
    (hj : j < numEq) : Scalar.isfinite (u.val i j) = true := by
  have h1 := (isfinite_foldl_add (fun i => blockNorm2 numEq u i) _ _ h).2 i
    (List.mem_range.mpr hi)
  have h2 := (isfinite_foldl_add (fun j => u.val i j * u.val i j) _ _ h1).2 j
    (List.mem_range.mpr hj)
  exact Scalar.isfinite_mul_self h2

end BlockVector

/-! ## The NCP Newton method: the update and its chopping -/

namespace NcpNewtonMethod

open Scalar

theorem saturationChop_fin (x s : ℚ) :
    saturationChop_ (fin x) (fin s) = fin (max (s - 1/5) (min x (s + 1/5))) := by
  simp only [saturationChop_, clampValue_, fin_sub_fin, fin_add_fin, stdMin_fin_fin,
    stdMax_fin_fin]

theorem pressureChop_fin (x p : ℚ) :
    pressureChop_ (fin x) (fin p) = fin (max (p * (4/5)) (min x (p * (6/5)))) := by
  simp only [pressureChop_, clampValue_, fin_mul_fin, stdMin_fin_fin, stdMax_fin_fin]

/-- The chopping of the degree of freedom `i` writes into block `i` only. -/
theorem chopUpdateDof_val_other_block (self : NcpNewtonMethod) (uLastIter u : SolutionVector)
    (i a b : Nat) (h : a ≠ i) : (chopUpdateDof_ self uLastIter u i).val a b = u.val a b := by
  have hset : ∀ (w : BlockVector) (j : Nat) (v : Scalar),
      w.val a b = u.val a b → (w.set i j v).val a b = u.val a b := by
    intro w j v hw
    rw [BlockVector.set_val_other w i j a b v (fun hc => h hc.1), hw]
  unfold chopUpdateDof_
  apply foldl_preserves (fun w : BlockVector => w.val a b = u.val a b)
  · intro k _ w hw
    exact hset w _ _ hw
  · apply hset
    apply foldl_preserves (fun w : BlockVector => w.val a b = u.val a b)
    · intro k _ w hw
      exact hset w _ _ hw
    · rfl

/-- An entry of block `i` has after `chopUpdate_` every property that the chopping of the
degree of freedom `i` establishes for it. -/
theorem chopUpdate_entry (P : Scalar → Prop) (self : NcpNewtonMethod)
    (uCurrentIter uLastIter : SolutionVector) (i j : Nat) (hi : i < uLastIter.size)
    (hP : ∀ u, P ((chopUpdateDof_ self uLastIter u i).val i j)) :
    P ((chopUpdate_ self uCurrentIter uLastIter).val i j) := by
  unfold chopUpdate_
  apply foldl_establishes (fun w : BlockVector => P (w.val i j)) _ _ _ i
    (List.mem_range.mpr hi)
  · exact hP
  · intro k _ u hu
    show P ((chopUpdateDof_ self uLastIter u k).val i j)
    by_cases hk : k = i
    · rw [hk]
      exact hP u
    · rw [chopUpdateDof_val_other_block self uLastIter u k i _ (fun e => hk e.symm)]
      exact hu

/-- What `chopUpdate_` stores in a fugacity entry is a result of the fugacity loop body for
that entry: a property of all these results is a property of the stored value. -/
theorem chopUpdate_fugacity_entry (P : Scalar → Prop) (self : NcpNewtonMethod)
    (uCurrentIter uLastIter : SolutionVector) (i compIdx : Nat) (hi : i < uLastIter.size)
    (hc : compIdx < self.numComponents)
    (hP : ∀ val, P (fugacityChop_ val (uLastIter.val i (self.fugacity0Idx + compIdx))
      (self.minActivityCoeff i compIdx))) :
    P ((chopUpdate_ self uCurrentIter uLastIter).val i (self.fugacity0Idx + compIdx)) := by
  apply chopUpdate_entry P self _ _ i _ hi
  intro u
  unfold chopUpdateDof_
  apply foldl_establishes (fun w : BlockVector => P (w.val i (self.fugacity0Idx + compIdx)))
    _ _ _ compIdx (List.mem_range.mpr hc)
  · intro w
    show P ((w.set i _ _).val i _)
    rw [BlockVector.set_val_same]
    exact hP _
  · intro k _ w hw
    show P ((w.set i _ _).val i _)
    by_cases hk : k = compIdx
    · subst hk
      rw [BlockVector.set_val_same]
      exact hP _
    · rw [BlockVector.set_val_other]
      · exact hw
      · intro hcon
        exact hk (by omega)

/-- What `chopUpdate_` stores in a saturation entry is a result of `saturationChop_` for that
entry, provided neither the pressure entry nor a fugacity entry has the same index. -/
theorem chopUpdate_saturation_entry (P : Scalar → Prop) (self : NcpNewtonMethod)
    (uCurrentIter uLastIter : SolutionVector) (i phaseIdx : Nat) (hi : i < uLastIter.size)
    (hph : phaseIdx < self.numPhases - 1)
    (hp : self.pressure0Idx ≠ self.saturation0Idx + phaseIdx)
    (hf : ∀ c, c < self.numComponents →
      self.fugacity0Idx + c ≠ self.saturation0Idx + phaseIdx)
    (hP : ∀ val, P (saturationChop_ val (uLastIter.val i (self.saturation0Idx + phaseIdx)))) :
    P ((chopUpdate_ self uCurrentIter uLastIter).val i (self.saturation0Idx + phaseIdx)) := by
  apply chopUpdate_entry P self _ _ i _ hi
  intro u
  unfold chopUpdateDof_
  apply foldl_preserves
    (fun w : BlockVector => P (w.val i (self.saturation0Idx + phaseIdx)))
  · intro c hc w hw
    show P ((w.set i _ _).val i _)
    rw [BlockVector.set_val_other]
    · exact hw
    · intro hcon
      exact hf c (List.mem_range.mp hc) hcon.2.symm
  · show P ((BlockVector.set _ i _ _).val i _)
    rw [BlockVector.set_val_other _ _ _ _ _ _ (fun hcon => hp hcon.2.symm)]
    apply foldl_establishes
      (fun w : BlockVector => P (w.val i (self.saturation0Idx + phaseIdx)))
      _ _ _ phaseIdx (List.mem_range.mpr hph)
    · intro w
      show P ((w.set i _ _).val i _)
      rw [BlockVector.set_val_same]
      exact hP _
    · intro k _ w hw
      show P ((w.set i _ _).val i _)
      by_cases hk : k = phaseIdx
      · subst hk
        rw [BlockVector.set_val_same]
        exact hP _
      · rw [BlockVector.set_val_other]
        · exact hw
        · intro hcon
          exact hk (by omega)

/-- What `chopUpdate_` stores in the pressure entry is a result of `pressureChop_` for that
entry, provided no fugacity entry has the same index. -/
theorem chopUpdate_pressure_entry (P : Scalar → Prop) (self : NcpNewtonMethod)
    (uCurrentIter uLastIter : SolutionVector) (i : Nat) (hi : i < uLastIter.size)
    (hf : ∀ c, c < self.numComponents → self.fugacity0Idx + c ≠ self.pressure0Idx)
    (hP : ∀ val, P (pressureChop_ val (uLastIter.val i self.pressure0Idx))) :
    P ((chopUpdate_ self uCurrentIter uLastIter).val i self.pressure0Idx) := by
  apply chopUpdate_entry P self _ _ i _ hi
  intro u
  unfold chopUpdateDof_
  apply foldl_preserves (fun w : BlockVector => P (w.val i self.pressure0Idx))
  · intro c hc w hw
    show P ((w.set i _ _).val i _)
    rw [BlockVector.set_val_other]
    · exact hw
    · intro hcon
      exact hf c (List.mem_range.mp hc) hcon.2.symm
  · show P ((BlockVector.set _ i _ _).val i _)
    rw [BlockVector.set_val_same]
    exact hP _

/-- The result of `saturationChop_` for a finite old saturation is a finite number that
differs from the old one by at most `0.20`, whatever the proposed value. -/
theorem saturationChop_bound (val : Scalar) (s : ℚ) :
    ∃ r : ℚ, saturationChop_ val (fin s) = fin r ∧ |r - s| ≤ 1/5 := by
  unfold saturationChop_ clampValue_
  simp only [fin_sub_fin, fin_add_fin]
  obtain ⟨c, hc, hc1, hc2⟩ := stdMax_stdMin_bounds val (s - 1/5) (s + 1/5) (by linarith)
  exact ⟨c, hc, abs_le.mpr ⟨by linarith, by linarith⟩⟩

/-- The result of `pressureChop_` for a finite old pressure `p ≥ 0` is a finite number of
`[0.8 * p, 1.2 * p]`, whatever the proposed value. -/
theorem pressureChop_bound (val : Scalar) (p : ℚ) (hp : 0 ≤ p) :
    ∃ r : ℚ, pressureChop_ val (fin p) = fin r ∧ 4/5 * p ≤ r ∧ r ≤ 6/5 * p := by
  unfold pressureChop_ clampValue_
  simp only [fin_mul_fin]
  obtain ⟨c, hc, hc1, hc2⟩ := stdMax_stdMin_bounds val (p * (4/5)) (p * (6/5)) (by linarith)
  exact ⟨c, hc, by linarith, by linarith⟩

/-- The two loops of `fullStep_` assign `uLastIter - deltaU` to every entry `j < numEq` of
every block `i < uLastIter.size`, and leave the other entries as they were. -/
theorem fullStep_val (self : NcpNewtonMethod) (uCurrentIter uLastIter : SolutionVector)
    (deltaU : GlobalEqVector) (i j : Nat) :
    (fullStep_ self uCurrentIter uLastIter deltaU).val i j =
      if i < uLastIter.size ∧ j < self.numEq then uLastIter.val i j - deltaU.val i j
      else uCurrentIter.val i j := by
  have inner : ∀ (a : Nat) (u : BlockVector) (n : Nat),
      ((List.range n).foldl
        (fun u2 j2 => u2.set a j2 (uLastIter.val a j2 - deltaU.val a j2)) u).val i j =
      if i = a ∧ j < n then uLastIter.val i j - deltaU.val i j else u.val i j := by
    intro a u n
    induction n with
    | zero => simp
    | succ n ih =>
      rw [List.range_succ, List.foldl_append]
      simp only [List.foldl_cons, List.foldl_nil]
      by_cases h : i = a ∧ j = n
      · obtain ⟨h1, h2⟩ := h
        subst h1
        subst h2
        rw [BlockVector.set_val_same]
        simp
      · rw [BlockVector.set_val_other _ _ _ _ _ _ h, ih]
        have hiff : (i = a ∧ j < n + 1) ↔ (i = a ∧ j < n) := by omega
        rw [if_congr hiff rfl rfl]
  have outer : ∀ (m : Nat),
      ((List.range m).foldl
        (fun u a => (List.range self.numEq).foldl
          (fun u2 j2 => u2.set a j2 (uLastIter.val a j2 - deltaU.val a j2)) u)
        uCurrentIter).val i j =
      if i < m ∧ j < self.numEq then uLastIter.val i j - deltaU.val i j
      else uCurrentIter.val i j := by
    intro m
    induction m with
    | zero => simp
    | succ m ih =>
      rw [List.range_succ, List.foldl_append]
      simp only [List.foldl_cons, List.foldl_nil]
      rw [inner, ih]
      by_cases h1 : i = m
      · by_cases h3 : j < self.numEq
        · rw [if_pos ⟨h1, h3⟩, if_pos ⟨by omega, h3⟩]
        · rw [if_neg (fun hc => h3 hc.2), if_neg (fun hc => h3 hc.2), if_neg (fun hc => h3 hc.2)]
      · rw [if_neg (fun hc => h1 hc.1)]
        have hiff : (i < m + 1 ∧ j < self.numEq) ↔ (i < m ∧ j < self.numEq) := by omega
        rw [if_congr hiff rfl rfl]
  exact outer uLastIter.size

/-- The hard bound of the fugacity loop body: for a finite `minPhi ≥ 0` the result is a
finite number of `[-0.01 * minPhi, 1.01 * minPhi]`, whatever the other two arguments. -/
theorem fugacityChop_hard_bound (val oldVal : Scalar) (m : ℚ) (hm : 0 ≤ m) :
    ∃ r : ℚ, fugacityChop_ val oldVal (fin m) = fin r ∧ -1/100 * m ≤ r ∧ r ≤ 101/100 * m := by
  unfold fugacityChop_
  simp only [fin_mul_fin]
  generalize clampValue_ val (oldVal - fin (7/10 * m)) (oldVal + fin (7/10 * m)) = v1
  have hle : -1/100 * m ≤ 101/100 * m := by linarith
  cases v1 with
  | fin v =>
    refine ⟨min (101/100 * m) (max (-1/100 * m) v), by simp, ?_, min_le_left _ _⟩
    exact le_min hle (le_max_left _ _)
  | posInf => exact ⟨101/100 * m, by simp [stdMax, stdMin, lt], hle, le_refl _⟩
  | negInf => exact ⟨-1/100 * m, by simp [stdMax, lt, min_eq_right hle], le_refl _, hle⟩
  | nan => exact ⟨-1/100 * m, by simp [stdMax, lt, min_eq_right hle], le_refl _, hle⟩

/-- The step bound of the fugacity loop body: for a finite `minPhi ≥ 0` and a finite old
value whose band `old ± 0.7 * minPhi` meets the hard bound, the result differs from the old
value by at most `0.7 * minPhi`, whatever the proposed value. -/
theorem fugacityChop_step_bound (val : Scalar) (o m : ℚ) (hm : 0 ≤ m)
    (hlo : -71/100 * m ≤ o) (hhi : o ≤ 171/100 * m) :
    ∃ r : ℚ, fugacityChop_ val (fin o) (fin m) = fin r ∧ |r - o| ≤ 7/10 * m := by
  unfold fugacityChop_ clampValue_
  simp only [fin_mul_fin, fin_sub_fin, fin_add_fin]
  obtain ⟨c, hc, hc1, hc2⟩ :=
    stdMax_stdMin_bounds val (o - 7/10 * m) (o + 7/10 * m) (by linarith)
  rw [hc]
  refine ⟨min (101/100 * m) (max (-1/100 * m) c), by simp, ?_⟩
  rw [abs_le]
  constructor
  · have : o - 7/10 * m ≤ min (101/100 * m) (max (-1/100 * m) c) :=
      le_min (by linarith) (le_trans hc1 (le_max_right _ _))
    linarith
  · have : min (101/100 * m) (max (-1/100 * m) c) ≤ max (-1/100 * m) c := min_le_right _ _
    have h2 : max (-1/100 * m) c ≤ o + 7/10 * m := max_le (by linarith) hc2
    linarith

/-- With finite bounds `lo ≤ hi`, `std::max(lo, std::min(hi, x))` is a finite number of
`[lo, hi]` whatever `x` is. -/
theorem stdMax_stdMin_left_bounds (x : Scalar) (lo hi : ℚ) (h : lo ≤ hi) :
    ∃ r, stdMax (fin lo) (stdMin (fin hi) x) = fin r ∧ lo ≤ r ∧ r ≤ hi := by
  cases x with
  | fin v => exact ⟨max lo (min hi v), by simp, le_max_left _ _, max_le h (min_le_left _ _)⟩
  | posInf => exact ⟨hi, by simp [stdMin, lt, max_eq_right h], h, le_refl _⟩
  | negInf => exact ⟨lo, by simp [stdMax, stdMin, lt], le_refl _, h⟩
  | nan => exact ⟨hi, by simp [stdMin, lt, max_eq_right h], h, le_refl _⟩

/-- When `deltaU` is finite and line search is disabled, `update_` raises nothing and
leaves the full step, chopped in the first `choppedIterations_` iterations. -/
theorem update_no_line_search (self : NcpNewtonMethod)
    (uCurrentIter uLastIter : SolutionVector) (deltaU : GlobalEqVector)
    (hfin : isfinite (deltaU.two_norm2 self.numEq) = true)
    (hls : self.enableLineSearch_ = false) :
    (update_ self uCurrentIter uLastIter deltaU).thrown = none ∧
      (update_ self uCurrentIter uLastIter deltaU).uCurrentIter =
        if self.numIterations_ < self.choppedIterations_ then
          chopUpdate_ self (fullStep_ self uCurrentIter uLastIter deltaU) uLastIter
        else fullStep_ self uCurrentIter uLastIter deltaU := by
  simp [update_, hfin, hls]

/-- When `deltaU` is finite and line search is enabled, `update_` raises nothing and
leaves what the line search returns. -/
theorem update_line_search (self : NcpNewtonMethod)
    (uCurrentIter uLastIter : SolutionVector) (deltaU : GlobalEqVector)
    (hfin : isfinite (deltaU.two_norm2 self.numEq) = true)
    (hls : self.enableLineSearch_ = true) :
    (update_ self uCurrentIter uLastIter deltaU).thrown = none ∧
      (update_ self uCurrentIter uLastIter deltaU).uCurrentIter =
        self.lineSearchUpdate_ uCurrentIter uLastIter deltaU := by
  simp [update_, hfin, hls]

/-- C1: when the squared two-norm of `deltaU` is not finite, which is the case as soon as
one of its entries is `NaN` or infinite, `update_` raises `NumericalProblem`, leaves
`uCurrentIter` as it was and calls neither `updateDiscrepancy`, `computeColors` nor the
line search. -/
theorem update_nonfinite_throws (self : NcpNewtonMethod)
    (uCurrentIter uLastIter : SolutionVector) (deltaU : GlobalEqVector)
    (h : isfinite (deltaU.two_norm2 self.numEq) = false ∨
      ∃ i j, i < deltaU.size ∧ j < self.numEq ∧ isfinite (deltaU.val i j) = false) :
    (update_ self uCurrentIter uLastIter deltaU).thrown
        = some (Exception.NumericalProblem "Non-finite update!") ∧
      (update_ self uCurrentIter uLastIter deltaU).uCurrentIter = uCurrentIter ∧
      (update_ self uCurrentIter uLastIter deltaU).calls = [] := by
  have hn : isfinite (deltaU.two_norm2 self.numEq) = false := by
    rcases h with h | ⟨i, j, hi, hj, hij⟩
    · exact h
    · cases hf : isfinite (deltaU.two_norm2 self.numEq) with
      | false => rfl
      | true =>
        rw [BlockVector.isfinite_of_two_norm2 self.numEq deltaU hf i j hi hj] at hij
        exact absurd hij (by decide)
  simp [update_, hn]

/-- C1, at a concrete input: a correction whose saturation entry is `NaN`. -/
theorem update_nonfinite_throws_witness :
    (isfinite ((block4 (fin 0) (fin 0) nan (fin 0)).two_norm2 sample.numEq) = false ∨
      ∃ i j, i < (block4 (fin 0) (fin 0) nan (fin 0)).size ∧ j < sample.numEq ∧
        isfinite ((block4 (fin 0) (fin 0) nan (fin 0)).val i j) = false) ∧
    ((update_ sample (block4 (fin 0) (fin 0) (fin 0) (fin 0))
        (block4 (fin 5) (fin (1/2)) (fin (1/2)) (fin 100))
        (block4 (fin 0) (fin 0) nan (fin 0))).thrown
        = some (Exception.NumericalProblem "Non-finite update!") ∧
      (update_ sample (block4 (fin 0) (fin 0) (fin 0) (fin 0))
        (block4 (fin 5) (fin (1/2)) (fin (1/2)) (fin 100))
        (block4 (fin 0) (fin 0) nan (fin 0))).uCurrentIter
        = block4 (fin 0) (fin 0) (fin 0) (fin 0) ∧
      (update_ sample (block4 (fin 0) (fin 0) (fin 0) (fin 0))
        (block4 (fin 5) (fin (1/2)) (fin (1/2)) (fin 100))
        (block4 (fin 0) (fin 0) nan (fin 0))).calls = []) :=
  have h : isfinite ((block4 (fin 0) (fin 0) nan (fin 0)).two_norm2 sample.numEq) = false ∨
      ∃ i j, i < (block4 (fin 0) (fin 0) nan (fin 0)).size ∧ j < sample.numEq ∧
        isfinite ((block4 (fin 0) (fin 0) nan (fin 0)).val i j) = false :=
    Or.inr ⟨0, 2, by decide, by decide, by decide⟩
  ⟨h, update_nonfinite_throws sample _ _ _ h⟩

/-- C2: for finite values, `saturationChop_` returns the proposed saturation clamped to
`[s - 0.20, s + 0.20]`; the result differs from the old saturation `s` by at most `0.20`
and is the proposed saturation whenever that one differs from `s` by at most `0.20`.
Old `0.5` and proposed `0.9` give `0.70`. -/
theorem saturationChop_clamp (s s' : ℚ) :
    saturationChop_ (fin s') (fin s) = fin (clamp s' (s - 1/5) (s + 1/5)) ∧
      |clamp s' (s - 1/5) (s + 1/5) - s| ≤ 1/5 ∧
      (|s' - s| ≤ 1/5 → saturationChop_ (fin s') (fin s) = fin s') ∧
      saturationChop_ (fin (9/10)) (fin (1/2)) = fin (7/10) := by
  have e : ∀ x t : ℚ, saturationChop_ (fin x) (fin t) = fin (clamp x (t - 1/5) (t + 1/5)) := by
    intro x t
    rw [saturationChop_fin, max_min_eq_clamp x _ _ (by linarith)]
  refine ⟨e s' s, ?_, ?_, ?_⟩
  · unfold clamp
    rw [abs_le]
    split_ifs with h1 h2 <;> constructor <;> linarith
  · intro h
    rw [abs_le] at h
    rw [e s' s]
    unfold clamp
    rw [if_neg (by linarith [h.1]), if_neg (by linarith [h.2])]
  · rw [e]
    unfold clamp
    norm_num

/-- C3, refuted as stated: for the old pressure `-100` and the proposed pressure `0` the
chopped pressure is `-80`, which is not below `1.2 * (-100) = -120`. -/
theorem pressureChop_band_counterexample :
    pressureChop_ (fin 0) (fin (-100)) = fin (-80) ∧
      ¬ ∃ r : ℚ, pressureChop_ (fin 0) (fin (-100)) = fin r ∧
        4/5 * (-100) ≤ r ∧ r ≤ 6/5 * (-100) := by
  have e : pressureChop_ (fin 0) (fin (-100)) = fin (-80) := by
    rw [pressureChop_fin]
    norm_num
  refine ⟨e, ?_⟩
  rintro ⟨r, hr, _, h2⟩
  rw [e] at hr
  injection hr with hr
  rw [← hr] at h2
  norm_num at h2

/-- C3, amended: for every old pressure `p ≥ 0` and every proposed pressure `p'`, the value
`pressureChop_` returns lies in `[0.8 * p, 1.2 * p]`, and it is `p'` whenever `p'` lies in
that band.  Old `100` and proposed `200` give `120`. -/
theorem pressureChop_band (p p' : ℚ) (hp : 0 ≤ p) :
    (∃ r : ℚ, pressureChop_ (fin p') (fin p) = fin r ∧ 4/5 * p ≤ r ∧ r ≤ 6/5 * p ∧
        (4/5 * p ≤ p' → p' ≤ 6/5 * p → r = p')) ∧
      pressureChop_ (fin 200) (fin 100) = fin 120 := by
  constructor
  · refine ⟨max (p * (4/5)) (min p' (p * (6/5))), pressureChop_fin p' p, ?_, ?_, ?_⟩
    · linarith [le_max_left (p * (4/5)) (min p' (p * (6/5)))]
    · have h : max (p * (4/5)) (min p' (p * (6/5))) ≤ p * (6/5) :=
        max_le (by linarith) (min_le_right _ _)
      linarith
    · intro h1 h2
      rw [min_eq_left (by linarith), max_eq_right (by linarith)]
  · rw [pressureChop_fin]
    norm_num

/-- C3, amended, at the old pressure `100` and the proposed pressure `200`. -/
theorem pressureChop_band_witness :
    (0 : ℚ) ≤ 100 ∧
      ((∃ r : ℚ, pressureChop_ (fin 200) (fin 100) = fin r ∧ 4/5 * 100 ≤ r ∧ r ≤ 6/5 * 100 ∧
          (4/5 * 100 ≤ (200 : ℚ) → (200 : ℚ) ≤ 6/5 * 100 → r = 200)) ∧
        pressureChop_ (fin 200) (fin 100) = fin 120) :=
  ⟨by norm_num, pressureChop_band 100 200 (by norm_num)⟩

/-- C4: for every degree of freedom, every component, every old and every proposed solution
and every finite minimum activity coefficient `minPhi ≥ 0`, the fugacity value
`chopUpdate_` stores lies in `[-0.01 * minPhi, 1.01 * minPhi]`. -/
theorem chopUpdate_fugacity_hard_bound (self : NcpNewtonMethod)
    (uCurrentIter uLastIter : SolutionVector) (i compIdx : Nat) (m : ℚ)
    (hi : i < uLastIter.size) (hc : compIdx < self.numComponents)
    (hphi : self.minActivityCoeff i compIdx = fin m) (hm : 0 ≤ m) :
    ∃ r : ℚ, (chopUpdate_ self uCurrentIter uLastIter).val i (self.fugacity0Idx + compIdx)
        = fin r ∧ -1/100 * m ≤ r ∧ r ≤ 101/100 * m := by
  apply chopUpdate_fugacity_entry
    (fun x => ∃ r : ℚ, x = fin r ∧ -1/100 * m ≤ r ∧ r ≤ 101/100 * m) self _ _ i compIdx hi hc
  intro val
  rw [hphi]
  exact fugacityChop_hard_bound val _ m hm

/-- C4, at a concrete input: old fugacity `5`, proposed fugacity `0`, `minPhi = 1`. -/
theorem chopUpdate_fugacity_hard_bound_witness :
    (0 < (block4 (fin 5) (fin (1/2)) (fin (1/2)) (fin 100)).size ∧
      0 < sample.numComponents ∧ sample.minActivityCoeff 0 0 = fin 1 ∧ (0 : ℚ) ≤ 1) ∧
    ∃ r : ℚ, (chopUpdate_ sample (block4 (fin 0) (fin 0) (fin 0) (fin 0))
        (block4 (fin 5) (fin (1/2)) (fin (1/2)) (fin 100))).val 0 (sample.fugacity0Idx + 0)
        = fin r ∧ -1/100 * 1 ≤ r ∧ r ≤ 101/100 * 1 :=
  ⟨⟨by decide, by decide, rfl, by norm_num⟩,
    chopUpdate_fugacity_hard_bound sample _ _ 0 0 1 (by decide) (by decide) rfl (by norm_num)⟩

/-- C5, refuted as stated: with `minPhi = 1`, old fugacity `5` and proposed fugacity `5`,
`chopUpdate_` stores `1.01`, which differs from the old value by `3.99 > 0.7`. -/
theorem chopUpdate_fugacity_step_counterexample :
    sample.minActivityCoeff 0 0 = fin 1 ∧
      (chopUpdate_ sample (block4 (fin 5) (fin (1/2)) (fin (1/2)) (fin 100))
        (block4 (fin 5) (fin (1/2)) (fin (1/2)) (fin 100))).val 0 (sample.fugacity0Idx + 0)
        = fin (101/100) ∧
      ¬ |(101/100 : ℚ) - 5| ≤ 7/10 * 1 := by
  refine ⟨rfl, ?_, by norm_num [abs_le]⟩
  simp [chopUpdate_, chopUpdateDof_, sample, block4, List.range_succ, BlockVector.set,
    fugacityChop_, clampValue_, saturationChop_, pressureChop_]
  norm_num

/-- C5, amended: for every degree of freedom, every component, every proposed solution,
every finite minimum activity coefficient `minPhi ≥ 0` and every finite old value whose
band `old ± 0.7 * minPhi` meets the hard bound `[-0.01 * minPhi, 1.01 * minPhi]`, that is
`-0.71 * minPhi ≤ old ≤ 1.71 * minPhi`, the fugacity value `chopUpdate_` stores differs from
the old value by at most `0.7 * minPhi`. -/
theorem chopUpdate_fugacity_step_bound (self : NcpNewtonMethod)
    (uCurrentIter uLastIter : SolutionVector) (i compIdx : Nat) (o m : ℚ)
    (hi : i < uLastIter.size) (hc : compIdx < self.numComponents)
    (hphi : self.minActivityCoeff i compIdx = fin m)
    (hold : uLastIter.val i (self.fugacity0Idx + compIdx) = fin o) (hm : 0 ≤ m)
    (hlo : -71/100 * m ≤ o) (hhi : o ≤ 171/100 * m) :
    ∃ r : ℚ, (chopUpdate_ self uCurrentIter uLastIter).val i (self.fugacity0Idx + compIdx)
        = fin r ∧ |r - o| ≤ 7/10 * m := by
  apply chopUpdate_fugacity_entry
    (fun x => ∃ r : ℚ, x = fin r ∧ |r - o| ≤ 7/10 * m) self _ _ i compIdx hi hc
  intro val
  rw [hphi, hold]
  exact fugacityChop_step_bound val o m hm hlo hhi

/-- C5, amended, at a concrete input: old fugacity `1/2`, proposed fugacity `3`,
`minPhi = 1`. -/
theorem chopUpdate_fugacity_step_bound_witness :
    (0 < (block4 (fin 5) (fin (1/2)) (fin (1/2)) (fin 100)).size ∧
      1 < sample.numComponents ∧ sample.minActivityCoeff 0 1 = fin 1 ∧
      (block4 (fin 5) (fin (1/2)) (fin (1/2)) (fin 100)).val 0 (sample.fugacity0Idx + 1)
        = fin (1/2) ∧
      (0 : ℚ) ≤ 1 ∧ (-71/100 * 1 : ℚ) ≤ 1/2 ∧ (1/2 : ℚ) ≤ 171/100 * 1) ∧
    ∃ r : ℚ, (chopUpdate_ sample (block4 (fin 0) (fin 3) (fin 0) (fin 0))
        (block4 (fin 5) (fin (1/2)) (fin (1/2)) (fin 100))).val 0 (sample.fugacity0Idx + 1)
        = fin r ∧ |r - 1/2| ≤ 7/10 * 1 :=
  ⟨⟨by decide, by decide, rfl, rfl, by norm_num, by norm_num, by norm_num⟩,
    chopUpdate_fugacity_step_bound sample _ _ 0 1 (1/2) 1 (by decide) (by decide) rfl rfl
      (by norm_num) (by norm_num) (by norm_num)⟩

/-- C6, refuted as stated: in the first iteration of a method that chops three iterations
and has line search enabled, the line search accepts the step damped by `1/8`; for the old
saturation `1/2` and the correction `-4` the new saturation is `1`, which differs from the
old one by `1/2 > 0.20`. -/
theorem update_chop_counterexample :
    sampleLineSearch.numIterations_ < sampleLineSearch.choppedIterations_ ∧
      (update_ sampleLineSearch (block4 (fin 0) (fin 0) (fin 0) (fin 0))
        (block4 (fin 5) (fin (1/2)) (fin (1/2)) (fin 100))
        (block4 (fin 0) (fin 0) (fin (-4)) (fin 0))).thrown = none ∧
      (block4 (fin 5) (fin (1/2)) (fin (1/2)) (fin 100)).val 0
        (sampleLineSearch.saturation0Idx + 0) = fin (1/2) ∧
      (update_ sampleLineSearch (block4 (fin 0) (fin 0) (fin 0) (fin 0))
        (block4 (fin 5) (fin (1/2)) (fin (1/2)) (fin 100))
        (block4 (fin 0) (fin 0) (fin (-4)) (fin 0))).uCurrentIter.val 0
        (sampleLineSearch.saturation0Idx + 0) = fin 1 ∧
      ¬ |(1 : ℚ) - 1/2| ≤ 1/5 := by
  have hfin : isfinite ((block4 (fin 0) (fin 0) (fin (-4)) (fin 0)).two_norm2
      sampleLineSearch.numEq) = true := by
    simp [BlockVector.two_norm2, BlockVector.blockNorm2, block4, sampleLineSearch, sample,
      List.range_succ]
  refine ⟨by decide, (update_line_search _ _ _ _ hfin rfl).1,
    by simp [block4, sampleLineSearch, sample], ?_, by norm_num [abs_le]⟩
  rw [(update_line_search _ _ _ _ hfin rfl).2]
  simp [sampleLineSearch, sample, dampedStep, block4]
  norm_num

/-- C6, amended: in every Newton iteration with `numIterations_ < choppedIterations_` in
which line search is disabled and `deltaU` is finite, and for an index layout in which the
saturation, pressure and fugacity entries are distinct, `update_` raises nothing and the
`uCurrentIter` it produces is clamped against `uLastIter`: every saturation entry with a
finite old value differs from it by at most `0.20`, and every pressure entry with a finite
old value `p ≥ 0` lies in `[0.8 * p, 1.2 * p]`. -/
theorem update_chops (self : NcpNewtonMethod) (uCurrentIter uLastIter : SolutionVector)
    (deltaU : GlobalEqVector) (i : Nat)
    (hfin : isfinite (deltaU.two_norm2 self.numEq) = true)
    (hls : self.enableLineSearch_ = false)
    (hit : self.numIterations_ < self.choppedIterations_)
    (hi : i < uLastIter.size)
    (hfp : ∀ c, c < self.numComponents → self.fugacity0Idx + c ≠ self.pressure0Idx)
    (hfs : ∀ c phaseIdx, c < self.numComponents → phaseIdx < self.numPhases - 1 →
      self.fugacity0Idx + c ≠ self.saturation0Idx + phaseIdx)
    (hps : ∀ phaseIdx, phaseIdx < self.numPhases - 1 →
      self.pressure0Idx ≠ self.saturation0Idx + phaseIdx) :
    (update_ self uCurrentIter uLastIter deltaU).thrown = none ∧
      (∀ phaseIdx s, phaseIdx < self.numPhases - 1 →
        uLastIter.val i (self.saturation0Idx + phaseIdx) = fin s →
        ∃ r : ℚ, (update_ self uCurrentIter uLastIter deltaU).uCurrentIter.val i
          (self.saturation0Idx + phaseIdx) = fin r ∧ |r - s| ≤ 1/5) ∧
      (∀ p, uLastIter.val i self.pressure0Idx = fin p → 0 ≤ p →
        ∃ r : ℚ, (update_ self uCurrentIter uLastIter deltaU).uCurrentIter.val i
          self.pressure0Idx = fin r ∧ 4/5 * p ≤ r ∧ r ≤ 6/5 * p) := by
  obtain ⟨h1, h2⟩ := update_no_line_search self uCurrentIter uLastIter deltaU hfin hls
  rw [h2, if_pos hit]
  refine ⟨h1, ?_, ?_⟩
  · intro phaseIdx s hph hs
    apply chopUpdate_saturation_entry (fun x => ∃ r : ℚ, x = fin r ∧ |r - s| ≤ 1/5) self _ _
      i phaseIdx hi hph (hps phaseIdx hph) (fun c hc => hfs c phaseIdx hc hph)
    intro val
    rw [hs]
    exact saturationChop_bound val s
  · intro p hp h0
    apply chopUpdate_pressure_entry (fun x => ∃ r : ℚ, x = fin r ∧ 4/5 * p ≤ r ∧ r ≤ 6/5 * p)
      self _ _ i hi hfp
    intro val
    rw [hp]
    exact pressureChop_bound val p h0

/-- C6, amended, at a concrete input: the first iteration of `sample`, old saturation
`1/2`, old pressure `100`, correction `-4` for the saturation and `-100` for the
pressure. -/
theorem update_chops_witness :
    (isfinite ((block4 (fin 0) (fin 0) (fin (-4)) (fin (-100))).two_norm2 sample.numEq) = true ∧
      sample.enableLineSearch_ = false ∧
      sample.numIterations_ < sample.choppedIterations_ ∧
      0 < (block4 (fin 5) (fin (1/2)) (fin (1/2)) (fin 100)).size ∧
      (∀ c, c < sample.numComponents → sample.fugacity0Idx + c ≠ sample.pressure0Idx) ∧
      (∀ c phaseIdx, c < sample.numComponents → phaseIdx < sample.numPhases - 1 →
        sample.fugacity0Idx + c ≠ sample.saturation0Idx + phaseIdx) ∧
      (∀ phaseIdx, phaseIdx < sample.numPhases - 1 →
        sample.pressure0Idx ≠ sample.saturation0Idx + phaseIdx)) ∧
    ((update_ sample (block4 (fin 0) (fin 0) (fin 0) (fin 0))
        (block4 (fin 5) (fin (1/2)) (fin (1/2)) (fin 100))
        (block4 (fin 0) (fin 0) (fin (-4)) (fin (-100)))).thrown = none ∧
      (∀ phaseIdx s, phaseIdx < sample.numPhases - 1 →
        (block4 (fin 5) (fin (1/2)) (fin (1/2)) (fin 100)).val 0
          (sample.saturation0Idx + phaseIdx) = fin s →
        ∃ r : ℚ, (update_ sample (block4 (fin 0) (fin 0) (fin 0) (fin 0))
          (block4 (fin 5) (fin (1/2)) (fin (1/2)) (fin 100))
          (block4 (fin 0) (fin 0) (fin (-4)) (fin (-100)))).uCurrentIter.val 0
          (sample.saturation0Idx + phaseIdx) = fin r ∧ |r - s| ≤ 1/5) ∧
      (∀ p, (block4 (fin 5) (fin (1/2)) (fin (1/2)) (fin 100)).val 0 sample.pressure0Idx
          = fin p → 0 ≤ p →
        ∃ r : ℚ, (update_ sample (block4 (fin 0) (fin 0) (fin 0) (fin 0))
          (block4 (fin 5) (fin (1/2)) (fin (1/2)) (fin 100))
          (block4 (fin 0) (fin 0) (fin (-4)) (fin (-100)))).uCurrentIter.val 0
          sample.pressure0Idx = fin r ∧ 4/5 * p ≤ r ∧ r ≤ 6/5 * p)) :=
  have hfin : isfinite ((block4 (fin 0) (fin 0) (fin (-4)) (fin (-100))).two_norm2
      sample.numEq) = true := by
    simp [BlockVector.two_norm2, BlockVector.blockNorm2, block4, sample, List.range_succ]
  have hfp : ∀ c, c < sample.numComponents →
      sample.fugacity0Idx + c ≠ sample.pressure0Idx := by
    intro c hc
    simp only [sample] at hc ⊢
    omega
  have hfs : ∀ c phaseIdx, c < sample.numComponents → phaseIdx < sample.numPhases - 1 →
      sample.fugacity0Idx + c ≠ sample.saturation0Idx + phaseIdx := by
    intro c phaseIdx hc hph
    simp only [sample] at hc hph ⊢
    omega
  have hps : ∀ phaseIdx, phaseIdx < sample.numPhases - 1 →
      sample.pressure0Idx ≠ sample.saturation0Idx + phaseIdx := by
    intro phaseIdx hph
    simp only [sample] at hph ⊢
    omega
  ⟨⟨hfin, rfl, by decide, by decide, hfp, hfs, hps⟩,
    update_chops sample _ _ _ 0 hfin rfl (by decide) (by decide) hfp hfs hps⟩

/-- C7: when line search is disabled, `deltaU` is finite and
`numIterations_ ≥ choppedIterations_`, `update_` raises nothing and sets
`uCurrentIter[i][j] = uLastIter[i][j] - deltaU[i][j]` for every degree of freedom `i` and
every equation index `j`; no clamping is applied, and the remaining entries of
`uCurrentIter` are left as they were. -/
theorem update_full_step (self : NcpNewtonMethod) (uCurrentIter uLastIter : SolutionVector)
    (deltaU : GlobalEqVector)
    (hfin : isfinite (deltaU.two_norm2 self.numEq) = true)
    (hls : self.enableLineSearch_ = false)
    (hit : self.choppedIterations_ ≤ self.numIterations_) :
    (update_ self uCurrentIter uLastIter deltaU).thrown = none ∧
      (∀ i j, i < uLastIter.size → j < self.numEq →
        (update_ self uCurrentIter uLastIter deltaU).uCurrentIter.val i j
          = uLastIter.val i j - deltaU.val i j) ∧
      (∀ i j, ¬ (i < uLastIter.size ∧ j < self.numEq) →
        (update_ self uCurrentIter uLastIter deltaU).uCurrentIter.val i j
          = uCurrentIter.val i j) := by
  obtain ⟨h1, h2⟩ := update_no_line_search self uCurrentIter uLastIter deltaU hfin hls
  rw [h2, if_neg (not_lt.mpr hit)]
  refine ⟨h1, ?_, ?_⟩
  · intro i j hi hj
    rw [fullStep_val, if_pos ⟨hi, hj⟩]
  · intro i j hij
    rw [fullStep_val, if_neg hij]

/-- C7, at a concrete input: the fourth iteration of a method that chops three, with the
correction `-100` for the old pressure `100`. -/
theorem update_full_step_witness :
    (isfinite ((block4 (fin 0) (fin 0) (fin (-4)) (fin (-100))).two_norm2 sampleLate.numEq)
        = true ∧
      sampleLate.enableLineSearch_ = false ∧
      sampleLate.choppedIterations_ ≤ sampleLate.numIterations_) ∧
    ((update_ sampleLate (block4 (fin 0) (fin 0) (fin 0) (fin 0))
        (block4 (fin 5) (fin (1/2)) (fin (1/2)) (fin 100))
        (block4 (fin 0) (fin 0) (fin (-4)) (fin (-100)))).thrown = none ∧
      (∀ i j, i < (block4 (fin 5) (fin (1/2)) (fin (1/2)) (fin 100)).size →
        j < sampleLate.numEq →
        (update_ sampleLate (block4 (fin 0) (fin 0) (fin 0) (fin 0))
          (block4 (fin 5) (fin (1/2)) (fin (1/2)) (fin 100))
          (block4 (fin 0) (fin 0) (fin (-4)) (fin (-100)))).uCurrentIter.val i j
          = (block4 (fin 5) (fin (1/2)) (fin (1/2)) (fin 100)).val i j
            - (block4 (fin 0) (fin 0) (fin (-4)) (fin (-100))).val i j) ∧
      (∀ i j, ¬ (i < (block4 (fin 5) (fin (1/2)) (fin (1/2)) (fin 100)).size ∧
          j < sampleLate.numEq) →
        (update_ sampleLate (block4 (fin 0) (fin 0) (fin 0) (fin 0))
          (block4 (fin 5) (fin (1/2)) (fin (1/2)) (fin 100))
          (block4 (fin 0) (fin 0) (fin (-4)) (fin (-100)))).uCurrentIter.val i j
          = (block4 (fin 0) (fin 0) (fin 0) (fin 0)).val i j)) :=
  have hfin : isfinite ((block4 (fin 0) (fin 0) (fin (-4)) (fin (-100))).two_norm2
      sampleLate.numEq) = true := by
    simp [BlockVector.two_norm2, BlockVector.blockNorm2, block4, sampleLate, sample,
      List.range_succ]
  ⟨⟨hfin, rfl, by decide⟩, update_full_step sampleLate _ _ _ hfin rfl (by decide)⟩

/-- C8: when partial reassembly is enabled (and `deltaU` is finite, so that `update_` gets
that far), `update_` first calls `updateDiscrepancy(uLastIter, deltaU)` and then
`computeColors` with the reassembly tolerance.  For a finite `relTolerance ≥ 0` that
tolerance lies in `[minReasmTol, maxReasmTol] = [1e-2 * relTolerance, 1e1 * relTolerance]`
for every `relError`, and for a finite `relError` it is
`clamp(relError / 1e4, minReasmTol, maxReasmTol)`. -/
theorem update_reassembleTol (self : NcpNewtonMethod)
    (uCurrentIter uLastIter : SolutionVector) (deltaU : GlobalEqVector) (t : ℚ)
    (hfin : isfinite (deltaU.two_norm2 self.numEq) = true)
    (hpr : self.enablePartialReassemble_ = true)
    (ht : self.relTolerance_ = fin t) (h0 : 0 ≤ t) :
    (update_ self uCurrentIter uLastIter deltaU).calls =
        Call.updateDiscrepancy uLastIter deltaU :: Call.computeColors (reassembleTol self) ::
          (if self.enableLineSearch_ then
            [Call.lineSearchUpdate_ uCurrentIter uLastIter deltaU] else []) ∧
      (∃ r : ℚ, reassembleTol self = fin r ∧ 1/100 * t ≤ r ∧ r ≤ 10 * t) ∧
      (∀ e : ℚ, self.relError_ = fin e →
        reassembleTol self = fin (clamp (e / 10000) (1/100 * t) (10 * t))) := by
  have hle : 1/100 * t ≤ 10 * t := by linarith
  refine ⟨?_, ?_, ?_⟩
  · cases hl : self.enableLineSearch_ <;> simp [update_, hfin, hpr, hl]
  · unfold reassembleTol
    simp only [ht, fin_mul_fin]
    exact stdMax_stdMin_left_bounds _ _ _ hle
  · intro e he
    unfold reassembleTol
    simp only [ht, he, fin_mul_fin, fin_div_fin e 10000 (by norm_num), stdMin_fin_fin,
      stdMax_fin_fin]
    rw [min_comm, max_min_eq_clamp _ _ _ hle]

/-- C8, at a concrete input: `relTolerance = 1e-8` and `relError = 1` give the tolerance
`1e-7`, the upper end of the interval. -/
theorem update_reassembleTol_witness :
    (isfinite ((block4 (fin 0) (fin 0) (fin (-4)) (fin (-100))).two_norm2
        sampleReassemble.numEq) = true ∧
      sampleReassemble.enablePartialReassemble_ = true ∧
      sampleReassemble.relTolerance_ = fin (1/100000000) ∧ (0 : ℚ) ≤ 1/100000000) ∧
    ((update_ sampleReassemble (block4 (fin 0) (fin 0) (fin 0) (fin 0))
        (block4 (fin 5) (fin (1/2)) (fin (1/2)) (fin 100))
        (block4 (fin 0) (fin 0) (fin (-4)) (fin (-100)))).calls =
        Call.updateDiscrepancy (block4 (fin 5) (fin (1/2)) (fin (1/2)) (fin 100))
            (block4 (fin 0) (fin 0) (fin (-4)) (fin (-100))) ::
          Call.computeColors (reassembleTol sampleReassemble) ::
          (if sampleReassemble.enableLineSearch_ then
            [Call.lineSearchUpdate_ (block4 (fin 0) (fin 0) (fin 0) (fin 0))
              (block4 (fin 5) (fin (1/2)) (fin (1/2)) (fin 100))
              (block4 (fin 0) (fin 0) (fin (-4)) (fin (-100)))] else []) ∧
      (∃ r : ℚ, reassembleTol sampleReassemble = fin r ∧
        1/100 * (1/100000000) ≤ r ∧ r ≤ 10 * (1/100000000)) ∧
      (∀ e : ℚ, sampleReassemble.relError_ = fin e →
        reassembleTol sampleReassemble
          = fin (clamp (e / 10000) (1/100 * (1/100000000)) (10 * (1/100000000))))) :=
  have hfin : isfinite ((block4 (fin 0) (fin 0) (fin (-4)) (fin (-100))).two_norm2
      sampleReassemble.numEq) = true := by
    simp [BlockVector.two_norm2, BlockVector.blockNorm2, block4, sampleReassemble, sample,
      List.range_succ]
  ⟨⟨hfin, rfl, rfl, by norm_num⟩,
    update_reassembleTol sampleReassemble _ _ _ (1/100000000) hfin rfl rfl (by norm_num)⟩

end NcpNewtonMethod

/-! ## The PVS Newton method: convergence -/

namespace PvsNewtonMethod

/-- C9, refuted as stated: in a state in which a primary-variable switch occurred and the
base criterion holds, `converged` returns `true`. -/
theorem converged_switched_counterexample :
    ({ parentConverged := true, switched := true } : PvsNewtonMethod).switched = true ∧
      converged { parentConverged := true, switched := true } = true :=
  ⟨rfl, rfl⟩

/-- C9, amended: `converged` returns what the base Newton method's `converged` returns,
whether or not a primary-variable switch occurred in the current iteration; so it returns
`true` exactly if the base criterion holds.  The switch itself is made by `endIteration_`,
after the parent's `endIteration_`. -/
theorem converged_eq_parent (self : PvsNewtonMethod) :
    converged self = self.parentConverged ∧
      (converged self = true ↔ self.parentConverged = true) ∧
      converged { self with switched := true } = converged { self with switched := false } ∧
      ∀ parentEndIteration_ switchPrimaryVars_ : PvsNewtonMethod → PvsNewtonMethod,
        endIteration_ parentEndIteration_ switchPrimaryVars_ self
          = switchPrimaryVars_ (parentEndIteration_ self) :=
  ⟨rfl, Iff.rfl, rfl, fun _ _ => rfl⟩

end PvsNewtonMethod

/-! ## The black-oil volume variables: composition -/

namespace BlackOilVolumeVariables

open Scalar

/-- C10, evaluated at an admissible input (`XoG = 1/8`, `MG = 0.016`, `MO = 0.16`): `update`
passes its assertion and stores the oil-phase mole fractions `xoG = 10/71` and
`xoO = 1 - XoG = 7/8`, which sum to `577/568` and not to `1`; the mole fractions of the
water and of the gas phase sum to `1`. -/
theorem update_moleFractions_sum_sample :
    (update sampleFluidSystem zero sampleContext).map
        (fun vv => vv.fluidState_.moleFraction 1 2) = some (fin (10/71)) ∧
      (update sampleFluidSystem zero sampleContext).map
        (fun vv => vv.fluidState_.moleFraction 1 1) = some (fin (7/8)) ∧
      (update sampleFluidSystem zero sampleContext).map
        (fun vv => vv.fluidState_.sumMoleFractions 3 1) = some (fin (577/568)) ∧
      (update sampleFluidSystem zero sampleContext).map
        (fun vv => vv.fluidState_.sumMoleFractions 3 0) = some (fin 1) ∧
      (update sampleFluidSystem zero sampleContext).map
        (fun vv => vv.fluidState_.sumMoleFractions 3 2) = some (fin 1) ∧
      fin (577/568) ≠ fin 1 := by
  refine ⟨?_, ?_, ?_, ?_, ?_, ?_⟩ <;>
    norm_num [update, sampleFluidSystem, sampleContext, zero, updateSaturations_,
      updatePressures_, zeroMoleFractions_, updateViscosities_, List.range_succ,
      FluidState.setTemperature, FluidState.setSaturation, FluidState.setPressure,
      FluidState.setMoleFraction, FluidState.setViscosity, FluidState.setDensity, setAt,
      gt, FluidState.sumMoleFractions, fin_div_fin_eq]

end BlackOilVolumeVariables

/-! ## The black-oil volume variables: saturations, pressures and the oil phase -/

namespace BlackOilVolumeVariables

open Scalar

/-- The viscosity loop changes the viscosities only. -/
theorem updateViscosities_fields (FS : FluidSystem) (paramCache fs : FluidState) :
    (updateViscosities_ FS paramCache fs).saturation = fs.saturation ∧
      (updateViscosities_ FS paramCache fs).pressure = fs.pressure ∧
      (updateViscosities_ FS paramCache fs).moleFraction = fs.moleFraction ∧
      (updateViscosities_ FS paramCache fs).density = fs.density ∧
      (updateViscosities_ FS paramCache fs).temperature = fs.temperature := by
  unfold updateViscosities_
  apply foldl_preserves (fun acc : FluidState =>
    acc.saturation = fs.saturation ∧ acc.pressure = fs.pressure ∧
      acc.moleFraction = fs.moleFraction ∧ acc.density = fs.density ∧
      acc.temperature = fs.temperature)
  · intro k _ u hu
    exact hu
  · exact ⟨rfl, rfl, rfl, rfl, rfl⟩

/-- The loop that zeroes the mole fractions changes the mole fractions only. -/
theorem zeroMoleFractions_fields (FS : FluidSystem) (fs : FluidState) :
    (zeroMoleFractions_ FS fs).saturation = fs.saturation ∧
      (zeroMoleFractions_ FS fs).pressure = fs.pressure ∧
      (zeroMoleFractions_ FS fs).temperature = fs.temperature := by
  unfold zeroMoleFractions_
  apply foldl_preserves (fun acc : FluidState =>
    acc.saturation = fs.saturation ∧ acc.pressure = fs.pressure ∧
      acc.temperature = fs.temperature)
  · intro k _ u hu
    apply foldl_preserves (fun acc : FluidState =>
      acc.saturation = fs.saturation ∧ acc.pressure = fs.pressure ∧
        acc.temperature = fs.temperature)
    · intro c _ w hw
      exact hw
    · exact hu
  · exact ⟨rfl, rfl, rfl⟩

/-- The loop that zeroes the mole fractions leaves `0` in every entry of a phase and a
component of the model. -/
theorem zeroMoleFractions_val (FS : FluidSystem) (fs : FluidState) (phaseIdx compIdx : Nat)
    (hp : phaseIdx < FS.numPhases) (hc : compIdx < FS.numComponents) :
    (zeroMoleFractions_ FS fs).moleFraction phaseIdx compIdx = fin 0 := by
  have inner : ∀ (k : Nat) (u : FluidState),
      (u.moleFraction phaseIdx compIdx = fin 0 ∨ k = phaseIdx) →
      ((List.range FS.numComponents).foldl
        (fun acc2 c => acc2.setMoleFraction k c (fin 0)) u).moleFraction phaseIdx compIdx
        = fin 0 := by
    intro k u hu
    rcases hu with hu | hk
    · apply foldl_preserves (fun acc : FluidState => acc.moleFraction phaseIdx compIdx = fin 0)
      · intro c _ w hw
        show (if phaseIdx = k ∧ compIdx = c then fin 0 else w.moleFraction phaseIdx compIdx)
          = fin 0
        split
        · rfl
        · exact hw
      · exact hu
    · apply foldl_establishes
        (fun acc : FluidState => acc.moleFraction phaseIdx compIdx = fin 0)
        _ _ _ compIdx (List.mem_range.mpr hc)
      · intro w
        show (if phaseIdx = k ∧ compIdx = compIdx then fin 0
          else w.moleFraction phaseIdx compIdx) = fin 0
        rw [if_pos ⟨hk.symm, rfl⟩]
      · intro c _ w hw
        show (if phaseIdx = k ∧ compIdx = c then fin 0 else w.moleFraction phaseIdx compIdx)
          = fin 0
        split
        · rfl
        · exact hw
  unfold zeroMoleFractions_
  apply foldl_establishes (fun acc : FluidState => acc.moleFraction phaseIdx compIdx = fin 0)
    _ _ _ phaseIdx (List.mem_range.mpr hp)
  · intro u
    exact inner phaseIdx u (Or.inr rfl)
  · intro k _ u hu
    exact inner k u (Or.inl hu)

/-- The pressure loop changes the pressures only. -/
theorem updatePressures_fields (FS : FluidSystem) (p0 : Scalar) (pC : Nat → Scalar)
    (fs : FluidState) :
    (updatePressures_ FS p0 pC fs).saturation = fs.saturation ∧
      (updatePressures_ FS p0 pC fs).temperature = fs.temperature := by
  unfold updatePressures_
  apply foldl_preserves (fun acc : FluidState =>
    acc.saturation = fs.saturation ∧ acc.temperature = fs.temperature)
  · intro k _ u hu
    exact hu
  · exact ⟨rfl, rfl⟩

/-- The pressure loop stores `p0 + (pC[phaseIdx] - pC[0])` for every phase of the model. -/
theorem updatePressures_val (FS : FluidSystem) (p0 : Scalar) (pC : Nat → Scalar)
    (fs : FluidState) (phaseIdx : Nat) (hp : phaseIdx < FS.numPhases) :
    (updatePressures_ FS p0 pC fs).pressure phaseIdx = p0 + (pC phaseIdx - pC 0) := by
  unfold updatePressures_
  apply foldl_establishes
    (fun acc : FluidState => acc.pressure phaseIdx = p0 + (pC phaseIdx - pC 0))
    _ _ _ phaseIdx (List.mem_range.mpr hp)
  · intro u
    show (if phaseIdx = phaseIdx then p0 + (pC phaseIdx - pC 0) else u.pressure phaseIdx) = _
    rw [if_pos rfl]
  · intro k _ u hu
    show (if phaseIdx = k then p0 + (pC k - pC 0) else u.pressure phaseIdx) = _
    split
    · rename_i hk
      rw [hk]
    · exact hu

/-- The sample input passes the assertion of `update`. -/
theorem sample_update_isSome :
    (update sampleFluidSystem zero sampleContext).isSome = true := by
  norm_num [update, sampleFluidSystem, sampleContext, zero, updateSaturations_,
    updatePressures_, zeroMoleFractions_, updateViscosities_, List.range_succ,
    FluidState.setTemperature, FluidState.setSaturation, FluidState.setPressure,
    FluidState.setMoleFraction, FluidState.setViscosity, FluidState.setDensity, setAt,
    gt, fin_div_fin_eq]

/-- What `update` stores when its assertion holds: the saturations of the saturation loop,
the pressures of the pressure loop, the oil-phase composition and the oil density computed
for the clipped oil pressure; and the assertion holds. -/
theorem update_some_fields (FS : FluidSystem) (self : BlackOilVolumeVariables)
    (elemCtx : ElementContext) (vv : BlackOilVolumeVariables)
    (h : update FS self elemCtx = some vv) :
    vv.fluidState_.saturation =
        (updateSaturations_ FS elemCtx.primaryVars
          (self.fluidState_.setTemperature elemCtx.temperature)).saturation ∧
      vv.fluidState_.pressure = (pressureState_ FS self elemCtx).pressure ∧
      (ge (XoG_ FS (clippedPressure_ FS
          ((pressureState_ FS self elemCtx).pressure FS.oPhaseIdx))) (fin 0) = true ∧
        ge (fin 1 - XoG_ FS (clippedPressure_ FS
          ((pressureState_ FS self elemCtx).pressure FS.oPhaseIdx))) (fin 0) = true) ∧
      (∀ phaseIdx compIdx, vv.fluidState_.moleFraction phaseIdx compIdx =
        if phaseIdx = FS.oPhaseIdx ∧ compIdx = FS.oCompIdx then
          xoO_ FS (clippedPressure_ FS
            ((pressureState_ FS self elemCtx).pressure FS.oPhaseIdx))
        else if phaseIdx = FS.oPhaseIdx ∧ compIdx = FS.gCompIdx then
          xoG_ FS (clippedPressure_ FS
            ((pressureState_ FS self elemCtx).pressure FS.oPhaseIdx))
        else if phaseIdx = FS.wPhaseIdx ∧ compIdx = FS.wCompIdx then fin 1
        else if phaseIdx = FS.gPhaseIdx ∧ compIdx = FS.gCompIdx then fin 1
        else (zeroMoleFractions_ FS (pressureState_ FS self elemCtx)).moleFraction
          phaseIdx compIdx) ∧
      (FS.oPhaseIdx ≠ FS.wPhaseIdx → FS.oPhaseIdx ≠ FS.gPhaseIdx →
        vv.fluidState_.density FS.oPhaseIdx =
          if gt ((pressureState_ FS self elemCtx).pressure FS.oPhaseIdx) FS.bubblePressure
          then
            rhoo_ FS (clippedPressure_ FS
              ((pressureState_ FS self elemCtx).pressure FS.oPhaseIdx))
            + FS.oilCompressibility *
              ((pressureState_ FS self elemCtx).pressure FS.oPhaseIdx - FS.bubblePressure)
          else rhoo_ FS (clippedPressure_ FS
            ((pressureState_ FS self elemCtx).pressure FS.oPhaseIdx))) := by
  have hz := zeroMoleFractions_fields FS (pressureState_ FS self elemCtx)
  have hv := fun pc fs => updateViscosities_fields FS pc fs
  simp only [pressureState_] at hz
  simp only [update, FluidState.setMoleFraction, FluidState.setDensity, hz.2.1,
    Option.ite_none_left_eq_some, Option.some.injEq] at h
  obtain ⟨hassert, h⟩ := h
  subst h
  simp only [pressureState_, clippedPressure_, XoG_, rhoo_, xoG_, xoO_]
  refine ⟨?_, ?_, ?_, ?_, ?_⟩
  · simp only [(hv _ _).1, hz.1, (updatePressures_fields FS _ _ _).1]
  · simp only [(hv _ _).2.1, hz.2.1]
  · simpa using hassert
  · intro phaseIdx compIdx
    simp only [(hv _ _).2.2.1]
  · intro how hog
    simp only [(hv _ _).2.2.2.1, setAt, if_neg hog, if_neg how, if_true]

theorem setSaturation_saturation (fs : FluidState) (phaseIdx j : Nat) (v : Scalar) :
    (fs.setSaturation phaseIdx v).saturation j
      = if j = phaseIdx then v else fs.saturation j := rfl

/-- The saturation loop over the first `m` phases, for finite saturation variables: the
sum it accumulates and the saturations it stores. -/
theorem updateSaturations_fold (FS : FluidSystem) (priVars : Nat → Scalar) (fs : FluidState)
    (q : Nat → ℚ) (m : Nat)
    (hq : ∀ k, k < m → priVars (FS.saturation0Idx + k) = fin (q k)) :
    ((List.range m).foldl
        (fun (acc : FluidState × Scalar) phaseIdx =>
          (acc.1.setSaturation phaseIdx (priVars (FS.saturation0Idx + phaseIdx)),
           acc.2 + priVars (FS.saturation0Idx + phaseIdx)))
        (fs, fin 0)).2 = fin ((Finset.range m).sum q) ∧
      ∀ j, ((List.range m).foldl
        (fun (acc : FluidState × Scalar) phaseIdx =>
          (acc.1.setSaturation phaseIdx (priVars (FS.saturation0Idx + phaseIdx)),
           acc.2 + priVars (FS.saturation0Idx + phaseIdx)))
        (fs, fin 0)).1.saturation j =
        if j < m then priVars (FS.saturation0Idx + j) else fs.saturation j := by
  induction m with
  | zero => simp
  | succ m ih =>
    obtain ⟨ih1, ih2⟩ := ih (fun k hk => hq k (Nat.lt_succ_of_lt hk))
    rw [List.range_succ, List.foldl_append]
    simp only [List.foldl_cons, List.foldl_nil]
    refine ⟨?_, ?_⟩
    · rw [ih1, hq m (Nat.lt_succ_self m), fin_add_fin, Finset.sum_range_succ]
    · intro j
      rw [setSaturation_saturation]
      by_cases hj : j = m
      · subst hj
        rw [if_pos rfl, if_pos (Nat.lt_succ_self j)]
      · rw [if_neg hj, ih2 j]
        have hiff : j < m + 1 ↔ j < m := by omega
        rw [if_congr hiff rfl rfl]

/-- C11: when `update` passes its assertion, for a model with at least one phase and finite
saturation variables, the first `numPhases - 1` saturations it stores are the saturation
primary variables, the last one is one minus their sum, and the stored saturations of all
`numPhases` phases sum to `1`. -/
theorem update_saturations_sum (FS : FluidSystem) (self : BlackOilVolumeVariables)
    (elemCtx : ElementContext) (vv : BlackOilVolumeVariables) (q : Nat → ℚ)
    (hn : 0 < FS.numPhases)
    (hq : ∀ k, k < FS.numPhases - 1 →
      elemCtx.primaryVars (FS.saturation0Idx + k) = fin (q k))
    (h : update FS self elemCtx = some vv) :
    (∀ k, k < FS.numPhases - 1 →
        vv.fluidState_.saturation k = elemCtx.primaryVars (FS.saturation0Idx + k)) ∧
      vv.fluidState_.saturation (FS.numPhases - 1)
        = fin (1 - (Finset.range (FS.numPhases - 1)).sum q) ∧
      vv.fluidState_.sumSaturations FS.numPhases = fin 1 := by
  obtain ⟨hs, -⟩ := update_some_fields FS self elemCtx vv h
  obtain ⟨f1, f2⟩ := updateSaturations_fold FS elemCtx.primaryVars
    (self.fluidState_.setTemperature elemCtx.temperature) q (FS.numPhases - 1) hq
  have hlast : vv.fluidState_.saturation (FS.numPhases - 1)
      = fin (1 - (Finset.range (FS.numPhases - 1)).sum q) := by
    rw [hs]
    unfold updateSaturations_
    simp only []
    rw [setSaturation_saturation, if_pos rfl, f1, fin_sub_fin]
  have hfirst : ∀ k, k < FS.numPhases - 1 →
      vv.fluidState_.saturation k = elemCtx.primaryVars (FS.saturation0Idx + k) := by
    intro k hk
    rw [hs]
    unfold updateSaturations_
    simp only []
    rw [setSaturation_saturation, if_neg (by omega), f2 k, if_pos hk]
  refine ⟨hfirst, hlast, ?_⟩
  obtain ⟨n1, hn1⟩ : ∃ n1, FS.numPhases = n1 + 1 := ⟨FS.numPhases - 1, by omega⟩
  have hsub : FS.numPhases - 1 = n1 := by omega
  rw [hsub] at hlast hfirst hq
  have hsum := foldl_add_fin
    (fun k => if k < n1 then q k else 1 - (Finset.range n1).sum q)
    vv.fluidState_.saturation (n1 + 1) (by
      intro k hk
      show vv.fluidState_.saturation k
        = fin (if k < n1 then q k else 1 - (Finset.range n1).sum q)
      by_cases hk2 : k < n1
      · rw [hfirst k hk2, hq k hk2, if_pos hk2]
      · have hk3 : k = n1 := by omega
        rw [if_neg hk2, hk3, hlast])
  unfold FluidState.sumSaturations
  rw [hn1, hsum, Finset.sum_range_succ]
  have hrest : (Finset.range n1).sum
      (fun k => if k < n1 then q k else 1 - (Finset.range n1).sum q)
      = (Finset.range n1).sum q := by
    apply Finset.sum_congr rfl
    intro k hk
    rw [if_pos (Finset.mem_range.mp hk)]
  rw [hrest, if_neg (lt_irrefl n1)]
  congr 1
  ring

/-- C11, at a concrete input: water saturation `1/5` and oil saturation `1/2`. -/
theorem update_saturations_sum_witness :
    ((update sampleFluidSystem zero sampleContext).isSome = true ∧
      0 < sampleFluidSystem.numPhases ∧
      ∀ k, k < sampleFluidSystem.numPhases - 1 →
        sampleContext.primaryVars (sampleFluidSystem.saturation0Idx + k)
          = fin ((fun k => if k = 0 then (1/5 : ℚ) else 1/2) k)) ∧
    ∀ vv, update sampleFluidSystem zero sampleContext = some vv →
      (∀ k, k < sampleFluidSystem.numPhases - 1 →
        vv.fluidState_.saturation k
          = sampleContext.primaryVars (sampleFluidSystem.saturation0Idx + k)) ∧
      vv.fluidState_.saturation (sampleFluidSystem.numPhases - 1)
        = fin (1 - (Finset.range (sampleFluidSystem.numPhases - 1)).sum
          (fun k => if k = 0 then (1/5 : ℚ) else 1/2)) ∧
      vv.fluidState_.sumSaturations sampleFluidSystem.numPhases = fin 1 :=
  have hq : ∀ k, k < sampleFluidSystem.numPhases - 1 →
      sampleContext.primaryVars (sampleFluidSystem.saturation0Idx + k)
        = fin ((fun k => if k = 0 then (1/5 : ℚ) else 1/2) k) := by
    intro k hk
    have hk2 : k = 0 ∨ k = 1 := by
      simp only [sampleFluidSystem] at hk
      omega
    rcases hk2 with e | e <;> subst e <;> simp [sampleContext, sampleFluidSystem]
  ⟨⟨sample_update_isSome, by decide, hq⟩,
    fun vv h => update_saturations_sum sampleFluidSystem zero sampleContext vv _
      (by decide) hq h⟩

/-- An oil pressure at or above a finite bubble pressure is clipped to the bubble
pressure. -/
theorem clippedPressure_of_ge (FS : FluidSystem) (b po : ℚ) (hb : FS.bubblePressure = fin b)
    (hge : b ≤ po) : clippedPressure_ FS (fin po) = FS.bubblePressure := by
  unfold clippedPressure_
  rw [hb]
  by_cases hgt : b < po
  · simp [gt, hgt]
  · have e : po = b := le_antisymm (not_lt.mp hgt) hge
    simp [gt, e]

/-- C12: when `update` passes its assertion with a finite oil-phase pressure `p_o` at or
above a finite bubble pressure (finite oil compressibility, the oil phase distinct from the
water and the gas phase), the oil-phase composition it stores is the one computed for the
bubble pressure, hence the one any `update` stores whose oil-phase pressure is the bubble
pressure, and the oil density is
`surfaceDensity(oil) / Bo(bubblePressure) + oilCompressibility * (p_o - bubblePressure)`;
at `p_o = bubblePressure` this is `surfaceDensity(oil) / Bo(bubblePressure)`, the value of
the saturated branch. -/
theorem update_bubble_point (FS : FluidSystem) (self : BlackOilVolumeVariables)
    (elemCtx : ElementContext) (vv : BlackOilVolumeVariables) (b c po : ℚ)
    (hb : FS.bubblePressure = fin b) (hc : FS.oilCompressibility = fin c)
    (how : FS.oPhaseIdx ≠ FS.wPhaseIdx) (hog : FS.oPhaseIdx ≠ FS.gPhaseIdx)
    (h : update FS self elemCtx = some vv)
    (hpo : vv.fluidState_.pressure FS.oPhaseIdx = fin po) (hge : b ≤ po) :
    (vv.fluidState_.moleFraction FS.oPhaseIdx FS.oCompIdx = xoO_ FS FS.bubblePressure ∧
        (FS.gCompIdx ≠ FS.oCompIdx →
          vv.fluidState_.moleFraction FS.oPhaseIdx FS.gCompIdx
            = xoG_ FS FS.bubblePressure)) ∧
      (∀ self2 elemCtx2 vv2, update FS self2 elemCtx2 = some vv2 →
        vv2.fluidState_.pressure FS.oPhaseIdx = FS.bubblePressure →
        vv.fluidState_.moleFraction FS.oPhaseIdx FS.oCompIdx
            = vv2.fluidState_.moleFraction FS.oPhaseIdx FS.oCompIdx ∧
          vv.fluidState_.moleFraction FS.oPhaseIdx FS.gCompIdx
            = vv2.fluidState_.moleFraction FS.oPhaseIdx FS.gCompIdx ∧
          (po = b → vv.fluidState_.density FS.oPhaseIdx
            = vv2.fluidState_.density FS.oPhaseIdx)) ∧
      vv.fluidState_.density FS.oPhaseIdx
        = FS.surfaceDensity FS.oPhaseIdx / FS.oilFormationVolumeFactor FS.bubblePressure
          + FS.oilCompressibility * (fin po - FS.bubblePressure) ∧
      (po = b → vv.fluidState_.density FS.oPhaseIdx
        = FS.surfaceDensity FS.oPhaseIdx / FS.oilFormationVolumeFactor FS.bubblePressure) := by
  obtain ⟨-, hp, -, hx, hd⟩ := update_some_fields FS self elemCtx vv h
  have hpo2 : (pressureState_ FS self elemCtx).pressure FS.oPhaseIdx = fin po := by
    rw [← hp]
    exact hpo
  rw [hpo2] at hx hd
  rw [clippedPressure_of_ge FS b po hb hge] at hx hd
  have hden : vv.fluidState_.density FS.oPhaseIdx
      = FS.surfaceDensity FS.oPhaseIdx / FS.oilFormationVolumeFactor FS.bubblePressure
        + FS.oilCompressibility * (fin po - FS.bubblePressure) := by
    rw [hd how hog]
    by_cases hgt : b < po
    · rw [if_pos (by simp [gt, hb, hgt])]
      rfl
    · have e : po = b := le_antisymm (not_lt.mp hgt) hge
      rw [if_neg (by simp [gt, hb, e])]
      rw [hb, hc, e, fin_sub_fin, fin_mul_fin, sub_self, mul_zero, add_fin_zero]
      rfl
  have hden0 : po = b → vv.fluidState_.density FS.oPhaseIdx
      = FS.surfaceDensity FS.oPhaseIdx / FS.oilFormationVolumeFactor FS.bubblePressure := by
    intro e
    rw [hden, hb, hc, e, fin_sub_fin, fin_mul_fin, sub_self, mul_zero, add_fin_zero]
  have hoo : vv.fluidState_.moleFraction FS.oPhaseIdx FS.oCompIdx
      = xoO_ FS FS.bubblePressure := by
    rw [hx, if_pos ⟨rfl, rfl⟩]
  have hogc : vv.fluidState_.moleFraction FS.oPhaseIdx FS.gCompIdx
      = if FS.gCompIdx = FS.oCompIdx then xoO_ FS FS.bubblePressure
        else xoG_ FS FS.bubblePressure := by
    rw [hx]
    by_cases e : FS.gCompIdx = FS.oCompIdx
    · rw [if_pos ⟨rfl, e⟩, if_pos e]
    · rw [if_neg (fun hcon => e hcon.2), if_pos ⟨rfl, rfl⟩, if_neg e]
  refine ⟨⟨hoo, fun e => by rw [hogc, if_neg e]⟩, ?_, hden, hden0⟩
  intro self2 elemCtx2 vv2 h2 hp2
  obtain ⟨-, hp', -, hx', hd'⟩ := update_some_fields FS self2 elemCtx2 vv2 h2
  have hpb : (pressureState_ FS self2 elemCtx2).pressure FS.oPhaseIdx = fin b := by
    rw [← hp', hp2, hb]
  rw [hpb] at hx' hd'
  rw [clippedPressure_of_ge FS b b hb (le_refl b)] at hx' hd'
  refine ⟨?_, ?_, ?_⟩
  · rw [hoo, hx', if_pos ⟨rfl, rfl⟩]
  · rw [hogc, hx']
    by_cases e : FS.gCompIdx = FS.oCompIdx
    · simp [e]
    · simp [e]
  · intro e
    rw [hden0 e, hd' how hog, if_neg (by simp [gt, hb])]
    rfl

/-- The oil-phase pressure `update` stores for the sample input is `80`. -/
theorem sample_update_oil_pressure :
    (update sampleFluidSystem zero sampleContext).map
      (fun vv => vv.fluidState_.pressure sampleFluidSystem.oPhaseIdx) = some (fin 80) := by
  norm_num [update, sampleFluidSystem, sampleContext, zero, updateSaturations_,
    updatePressures_, zeroMoleFractions_, updateViscosities_, List.range_succ,
    FluidState.setTemperature, FluidState.setSaturation, FluidState.setPressure,
    FluidState.setMoleFraction, FluidState.setViscosity, FluidState.setDensity, setAt,
    gt, fin_div_fin_eq]

/-- C12, at a concrete input: bubble pressure `50`, oil-phase pressure `80`. -/
theorem update_bubble_point_witness :
    ((update sampleFluidSystem zero sampleContext).isSome = true ∧
      sampleFluidSystem.bubblePressure = fin 50 ∧
      sampleFluidSystem.oilCompressibility = fin 0 ∧
      sampleFluidSystem.oPhaseIdx ≠ sampleFluidSystem.wPhaseIdx ∧
      sampleFluidSystem.oPhaseIdx ≠ sampleFluidSystem.gPhaseIdx ∧
      (update sampleFluidSystem zero sampleContext).map
        (fun vv => vv.fluidState_.pressure sampleFluidSystem.oPhaseIdx) = some (fin 80) ∧
      (50 : ℚ) ≤ 80) ∧
    ∀ vv, update sampleFluidSystem zero sampleContext = some vv →
      (vv.fluidState_.moleFraction sampleFluidSystem.oPhaseIdx sampleFluidSystem.oCompIdx
          = xoO_ sampleFluidSystem sampleFluidSystem.bubblePressure ∧
        (sampleFluidSystem.gCompIdx ≠ sampleFluidSystem.oCompIdx →
          vv.fluidState_.moleFraction sampleFluidSystem.oPhaseIdx sampleFluidSystem.gCompIdx
            = xoG_ sampleFluidSystem sampleFluidSystem.bubblePressure)) ∧
      (∀ self2 elemCtx2 vv2, update sampleFluidSystem self2 elemCtx2 = some vv2 →
        vv2.fluidState_.pressure sampleFluidSystem.oPhaseIdx
          = sampleFluidSystem.bubblePressure →
        vv.fluidState_.moleFraction sampleFluidSystem.oPhaseIdx sampleFluidSystem.oCompIdx
            = vv2.fluidState_.moleFraction sampleFluidSystem.oPhaseIdx
              sampleFluidSystem.oCompIdx ∧
          vv.fluidState_.moleFraction sampleFluidSystem.oPhaseIdx sampleFluidSystem.gCompIdx
            = vv2.fluidState_.moleFraction sampleFluidSystem.oPhaseIdx
              sampleFluidSystem.gCompIdx ∧
          ((80 : ℚ) = 50 → vv.fluidState_.density sampleFluidSystem.oPhaseIdx
            = vv2.fluidState_.density sampleFluidSystem.oPhaseIdx)) ∧
      vv.fluidState_.density sampleFluidSystem.oPhaseIdx
        = sampleFluidSystem.surfaceDensity sampleFluidSystem.oPhaseIdx
            / sampleFluidSystem.oilFormationVolumeFactor sampleFluidSystem.bubblePressure
          + sampleFluidSystem.oilCompressibility
            * (fin 80 - sampleFluidSystem.bubblePressure) ∧
      ((80 : ℚ) = 50 → vv.fluidState_.density sampleFluidSystem.oPhaseIdx
        = sampleFluidSystem.surfaceDensity sampleFluidSystem.oPhaseIdx
          / sampleFluidSystem.oilFormationVolumeFactor sampleFluidSystem.bubblePressure) :=
  ⟨⟨sample_update_isSome, rfl, rfl, by decide, by decide, sample_update_oil_pressure,
      by norm_num⟩,
    fun vv h => update_bubble_point sampleFluidSystem zero sampleContext vv 50 0 80 rfl rfl
      (by decide) (by decide) h
      (by
        have hm := sample_update_oil_pressure
        rw [h] at hm
        exact Option.some.inj hm)
      (by norm_num)⟩

/-- C13: whenever the oil-phase gas mass fraction `XoG` that `update` computes for the
clipped oil pressure is a number below `0` or above `1`, the assertion of `update` fails
and nothing is stored. -/
theorem update_oversaturated_fails (FS : FluidSystem) (self : BlackOilVolumeVariables)
    (elemCtx : ElementContext) (x : ℚ)
    (hx : XoG_ FS (clippedPressure_ FS
      ((pressureState_ FS self elemCtx).pressure FS.oPhaseIdx)) = fin x)
    (hbad : x < 0 ∨ 1 < x) :
    update FS self elemCtx = none := by
  cases hu : update FS self elemCtx with
  | none => rfl
  | some vv =>
    obtain ⟨-, -, ⟨h1, h2⟩, -⟩ := update_some_fields FS self elemCtx vv hu
    obtain ⟨q, hq, hq0, hq1⟩ := ge_zero_and_one_sub _ h1 h2
    rw [hx] at hq
    injection hq with hq
    subst hq
    rcases hbad with hneg | hbig
    · exact absurd hq0 (not_le.mpr hneg)
    · exact absurd hq1 (not_le.mpr hbig)

/-- C13, at a concrete input: `Rs = 1000` gives `XoG = 5/4`. -/
theorem update_oversaturated_fails_witness :
    (XoG_ oversaturatedFluidSystem (clippedPressure_ oversaturatedFluidSystem
        ((pressureState_ oversaturatedFluidSystem zero sampleContext).pressure
          oversaturatedFluidSystem.oPhaseIdx)) = fin (5/4) ∧
      ((5/4 : ℚ) < 0 ∨ (1 : ℚ) < 5/4)) ∧
    update oversaturatedFluidSystem zero sampleContext = none :=
  have hx : XoG_ oversaturatedFluidSystem (clippedPressure_ oversaturatedFluidSystem
      ((pressureState_ oversaturatedFluidSystem zero sampleContext).pressure
        oversaturatedFluidSystem.oPhaseIdx)) = fin (5/4) := by
    norm_num [XoG_, rhoo_, clippedPressure_, pressureState_, oversaturatedFluidSystem,
      sampleFluidSystem, sampleContext, zero, updateSaturations_, updatePressures_,
      List.range_succ, FluidState.setTemperature, FluidState.setSaturation,
      FluidState.setPressure, setAt, gt, fin_div_fin_eq]
  ⟨⟨hx, Or.inr (by norm_num)⟩,
    update_oversaturated_fails oversaturatedFluidSystem zero sampleContext (5/4) hx
      (Or.inr (by norm_num))⟩

/-- For a gas mass fraction in `[0, 1]` and positive molar masses the local `xoG` of
`update` is a non-negative number. -/
theorem xoG_nonneg (FS : FluidSystem) (p : Scalar) (x mg mo : ℚ)
    (hx : XoG_ FS p = fin x) (hx0 : 0 ≤ x) (hx1 : x ≤ 1)
    (hmg : FS.molarMass FS.gPhaseIdx = fin mg) (hmo : FS.molarMass FS.oPhaseIdx = fin mo)
    (hg : 0 < mg) (ho : 0 < mo) :
    ∃ r : ℚ, xoG_ FS p = fin r ∧ 0 ≤ r := by
  have hd : 0 < mg + (1 - x) * (mo - mg) := by
    have e : mg + (1 - x) * (mo - mg) = x * mg + (1 - x) * mo := by ring
    rw [e]
    by_cases hh : x ≤ 1/2
    · have h1 : 0 ≤ x * mg := mul_nonneg hx0 hg.le
      have h2 : 0 < (1 - x) * mo := mul_pos (by linarith) ho
      linarith
    · have h1 : 0 < x * mg := mul_pos (by linarith) hg
      have h2 : 0 ≤ (1 - x) * mo := mul_nonneg (by linarith) ho.le
      linarith
  refine ⟨x * (mo * mg / (mg + (1 - x) * (mo - mg))) / mg, ?_, ?_⟩
  · unfold xoG_
    simp only [hx, hmg, hmo, fin_sub_fin, fin_mul_fin, fin_add_fin]
    rw [fin_div_fin _ _ hd.ne', fin_mul_fin, fin_div_fin _ _ hg.ne']
  · exact div_nonneg (mul_nonneg hx0 (div_nonneg (mul_nonneg ho.le hg.le) hd.le)) hg.le

/-- C14: when `update` passes its assertion, with positive molar masses of oil and gas and
with the water, oil and gas phases distinct phases of the model, every mole fraction it
stores for a phase and a component of the model is a non-negative number; the gas phase
consists of the gas component only and the water phase of the water component only (mole
fraction `1`, all other components `0`). -/
theorem update_moleFractions_nonneg (FS : FluidSystem) (self : BlackOilVolumeVariables)
    (elemCtx : ElementContext) (vv : BlackOilVolumeVariables) (mg mo : ℚ)
    (hmg : FS.molarMass FS.gPhaseIdx = fin mg) (hmo : FS.molarMass FS.oPhaseIdx = fin mo)
    (hg : 0 < mg) (ho : 0 < mo)
    (hwo : FS.wPhaseIdx ≠ FS.oPhaseIdx) (hgo : FS.gPhaseIdx ≠ FS.oPhaseIdx)
    (hwg : FS.wPhaseIdx ≠ FS.gPhaseIdx)
    (hwn : FS.wPhaseIdx < FS.numPhases) (hgn : FS.gPhaseIdx < FS.numPhases)
    (h : update FS self elemCtx = some vv) :
    (∀ phaseIdx compIdx, phaseIdx < FS.numPhases → compIdx < FS.numComponents →
        ∃ r : ℚ, vv.fluidState_.moleFraction phaseIdx compIdx = fin r ∧ 0 ≤ r) ∧
      (vv.fluidState_.moleFraction FS.gPhaseIdx FS.gCompIdx = fin 1 ∧
        ∀ compIdx, compIdx < FS.numComponents → compIdx ≠ FS.gCompIdx →
          vv.fluidState_.moleFraction FS.gPhaseIdx compIdx = fin 0) ∧
      (vv.fluidState_.moleFraction FS.wPhaseIdx FS.wCompIdx = fin 1 ∧
        ∀ compIdx, compIdx < FS.numComponents → compIdx ≠ FS.wCompIdx →
          vv.fluidState_.moleFraction FS.wPhaseIdx compIdx = fin 0) := by
  obtain ⟨-, -, ⟨h1, h2⟩, hx, -⟩ := update_some_fields FS self elemCtx vv h
  obtain ⟨x, hxe, hx0, hx1⟩ := ge_zero_and_one_sub _ h1 h2
  obtain ⟨r, hr, hr0⟩ := xoG_nonneg FS _ x mg mo hxe hx0 hx1 hmg hmo hg ho
  have hxoO : xoO_ FS (clippedPressure_ FS
      ((pressureState_ FS self elemCtx).pressure FS.oPhaseIdx)) = fin (1 - x) := by
    unfold xoO_
    rw [hxe, fin_sub_fin]
  have hz := zeroMoleFractions_val FS (pressureState_ FS self elemCtx)
  refine ⟨?_, ⟨?_, ?_⟩, ⟨?_, ?_⟩⟩
  · intro phaseIdx compIdx hp hc
    rw [hx]
    split
    · exact ⟨1 - x, hxoO, by linarith⟩
    · split
      · exact ⟨r, hr, hr0⟩
      · split
        · exact ⟨1, rfl, by norm_num⟩
        · split
          · exact ⟨1, rfl, by norm_num⟩
          · exact ⟨0, hz phaseIdx compIdx hp hc, le_refl 0⟩
  · rw [hx, if_neg (fun hc => hgo hc.1), if_neg (fun hc => hgo hc.1)]
    by_cases e : FS.gPhaseIdx = FS.wPhaseIdx ∧ FS.gCompIdx = FS.wCompIdx
    · rw [if_pos e]
    · rw [if_neg e, if_pos ⟨rfl, rfl⟩]
  · intro compIdx hc hne
    rw [hx, if_neg (fun hc => hgo hc.1), if_neg (fun hc => hgo hc.1),
      if_neg (fun hc => hwg hc.1.symm), if_neg (fun hc => hne hc.2)]
    exact hz _ _ hgn hc
  · rw [hx, if_neg (fun hc => hwo hc.1), if_neg (fun hc => hwo hc.1), if_pos ⟨rfl, rfl⟩]
  · intro compIdx hc hne
    rw [hx, if_neg (fun hc => hwo hc.1), if_neg (fun hc => hwo hc.1),
      if_neg (fun hc => hne hc.2), if_neg (fun hc => hwg hc.1)]
    exact hz _ _ hwn hc

/-- C14, at a concrete input: the sample fluid system with `XoG = 1/8`. -/
theorem update_moleFractions_nonneg_witness :
    ((update sampleFluidSystem zero sampleContext).isSome = true ∧
      sampleFluidSystem.molarMass sampleFluidSystem.gPhaseIdx = fin (2/125) ∧
      sampleFluidSystem.molarMass sampleFluidSystem.oPhaseIdx = fin (4/25) ∧
      (0 : ℚ) < 2/125 ∧ (0 : ℚ) < 4/25 ∧
      sampleFluidSystem.wPhaseIdx ≠ sampleFluidSystem.oPhaseIdx ∧
      sampleFluidSystem.gPhaseIdx ≠ sampleFluidSystem.oPhaseIdx ∧
      sampleFluidSystem.wPhaseIdx ≠ sampleFluidSystem.gPhaseIdx ∧
      sampleFluidSystem.wPhaseIdx < sampleFluidSystem.numPhases ∧
      sampleFluidSystem.gPhaseIdx < sampleFluidSystem.numPhases) ∧
    ∀ vv, update sampleFluidSystem zero sampleContext = some vv →
      (∀ phaseIdx compIdx, phaseIdx < sampleFluidSystem.numPhases →
        compIdx < sampleFluidSystem.numComponents →
        ∃ r : ℚ, vv.fluidState_.moleFraction phaseIdx compIdx = fin r ∧ 0 ≤ r) ∧
      (vv.fluidState_.moleFraction sampleFluidSystem.gPhaseIdx sampleFluidSystem.gCompIdx
          = fin 1 ∧
        ∀ compIdx, compIdx < sampleFluidSystem.numComponents →
          compIdx ≠ sampleFluidSystem.gCompIdx →
          vv.fluidState_.moleFraction sampleFluidSystem.gPhaseIdx compIdx = fin 0) ∧
      (vv.fluidState_.moleFraction sampleFluidSystem.wPhaseIdx sampleFluidSystem.wCompIdx
          = fin 1 ∧
        ∀ compIdx, compIdx < sampleFluidSystem.numComponents →
          compIdx ≠ sampleFluidSystem.wCompIdx →
          vv.fluidState_.moleFraction sampleFluidSystem.wPhaseIdx compIdx = fin 0) :=
  ⟨⟨sample_update_isSome, by simp [sampleFluidSystem], by simp [sampleFluidSystem],
      by norm_num, by norm_num, by decide, by decide, by decide, by decide, by decide⟩,
    fun vv h => update_moleFractions_nonneg sampleFluidSystem zero sampleContext vv
      (2/125) (4/25) (by simp [sampleFluidSystem]) (by simp [sampleFluidSystem])
      (by norm_num) (by norm_num) (by decide) (by decide) (by decide) (by decide)
      (by decide) h⟩

/-- C15: when `update` passes its assertion, for a model with at least one phase, a finite
pressure primary variable and finite capillary pressures, the stored pressures satisfy
`pressure[i] - pressure[j] = pC[i] - pC[j]` for every pair of phases and `pressure[0]` is
primary variable `0`.  Here `pC` is the capillary-pressure vector the material law returns
for the fluid state that holds the saturations stored by this `update`; for a material law
that reads the saturations only it is the vector the law returns for the stored fluid
state. -/
theorem update_capillary_consistency (FS : FluidSystem) (self : BlackOilVolumeVariables)
    (elemCtx : ElementContext) (vv : BlackOilVolumeVariables) (p0 : ℚ) (c : Nat → ℚ)
    (hn : 0 < FS.numPhases)
    (hp0 : elemCtx.primaryVars 0 = fin p0)
    (hc : ∀ k, k < FS.numPhases →
      elemCtx.capillaryPressures
        (updateSaturations_ FS elemCtx.primaryVars
          (self.fluidState_.setTemperature elemCtx.temperature)) k = fin (c k))
    (h : update FS self elemCtx = some vv) :
    (updateSaturations_ FS elemCtx.primaryVars
        (self.fluidState_.setTemperature elemCtx.temperature)).saturation
        = vv.fluidState_.saturation ∧
      (∀ i j, i < FS.numPhases → j < FS.numPhases →
        vv.fluidState_.pressure i - vv.fluidState_.pressure j
          = elemCtx.capillaryPressures
              (updateSaturations_ FS elemCtx.primaryVars
                (self.fluidState_.setTemperature elemCtx.temperature)) i
            - elemCtx.capillaryPressures
              (updateSaturations_ FS elemCtx.primaryVars
                (self.fluidState_.setTemperature elemCtx.temperature)) j) ∧
      vv.fluidState_.pressure 0 = elemCtx.primaryVars 0 ∧
      ((∀ fs fs2 : FluidState, fs.saturation = fs2.saturation →
          elemCtx.capillaryPressures fs = elemCtx.capillaryPressures fs2) →
        ∀ i j, i < FS.numPhases → j < FS.numPhases →
          vv.fluidState_.pressure i - vv.fluidState_.pressure j
            = elemCtx.capillaryPressures vv.fluidState_ i
              - elemCtx.capillaryPressures vv.fluidState_ j) := by
  obtain ⟨hs, hp, -⟩ := update_some_fields FS self elemCtx vv h
  have hval : ∀ k, k < FS.numPhases →
      vv.fluidState_.pressure k = fin (p0 + (c k - c 0)) := by
    intro k hk
    rw [hp]
    unfold pressureState_
    simp only []
    rw [updatePressures_val FS _ _ _ k hk, hp0, hc k hk, hc 0 hn, fin_sub_fin, fin_add_fin]
  have hdiff : ∀ i j, i < FS.numPhases → j < FS.numPhases →
      vv.fluidState_.pressure i - vv.fluidState_.pressure j
        = elemCtx.capillaryPressures
            (updateSaturations_ FS elemCtx.primaryVars
              (self.fluidState_.setTemperature elemCtx.temperature)) i
          - elemCtx.capillaryPressures
            (updateSaturations_ FS elemCtx.primaryVars
              (self.fluidState_.setTemperature elemCtx.temperature)) j := by
    intro i j hi hj
    rw [hval i hi, hval j hj, hc i hi, hc j hj, fin_sub_fin, fin_sub_fin]
    congr 1
    ring
  refine ⟨hs.symm, hdiff, ?_, ?_⟩
  · rw [hval 0 hn, hp0]
    congr 1
    ring
  · intro hsat i j hi hj
    rw [hdiff i j hi hj, hsat _ vv.fluidState_ hs.symm]

/-- C15, at a concrete input: the sample input, whose capillary pressures are `0`. -/
theorem update_capillary_consistency_witness :
    ((update sampleFluidSystem zero sampleContext).isSome = true ∧
      0 < sampleFluidSystem.numPhases ∧
      sampleContext.primaryVars 0 = fin 80 ∧
      ∀ k, k < sampleFluidSystem.numPhases →
        sampleContext.capillaryPressures
          (updateSaturations_ sampleFluidSystem sampleContext.primaryVars
            (zero.fluidState_.setTemperature sampleContext.temperature)) k
          = fin ((fun _ => (0 : ℚ)) k)) ∧
    ∀ vv, update sampleFluidSystem zero sampleContext = some vv →
      (updateSaturations_ sampleFluidSystem sampleContext.primaryVars
          (zero.fluidState_.setTemperature sampleContext.temperature)).saturation
          = vv.fluidState_.saturation ∧
      (∀ i j, i < sampleFluidSystem.numPhases → j < sampleFluidSystem.numPhases →
        vv.fluidState_.pressure i - vv.fluidState_.pressure j
          = sampleContext.capillaryPressures
              (updateSaturations_ sampleFluidSystem sampleContext.primaryVars
                (zero.fluidState_.setTemperature sampleContext.temperature)) i
            - sampleContext.capillaryPressures
              (updateSaturations_ sampleFluidSystem sampleContext.primaryVars
                (zero.fluidState_.setTemperature sampleContext.temperature)) j) ∧
      vv.fluidState_.pressure 0 = sampleContext.primaryVars 0 ∧
      ((∀ fs fs2 : FluidState, fs.saturation = fs2.saturation →
          sampleContext.capillaryPressures fs = sampleContext.capillaryPressures fs2) →
        ∀ i j, i < sampleFluidSystem.numPhases → j < sampleFluidSystem.numPhases →
          vv.fluidState_.pressure i - vv.fluidState_.pressure j
            = sampleContext.capillaryPressures vv.fluidState_ i
              - sampleContext.capillaryPressures vv.fluidState_ j) :=
  ⟨⟨sample_update_isSome, by decide, by simp [sampleContext], fun _ _ => rfl⟩,
    fun vv h => update_capillary_consistency sampleFluidSystem zero sampleContext vv 80
      (fun _ => 0) (by decide) (by simp [sampleContext]) (fun _ _ => rfl) h⟩

end BlackOilVolumeVariables

/-! ## The compositional pressure model: the volume derivatives -/

namespace FVPressureCompositional

open Scalar

/-- An iteration of the component loop writes to `dv` only. -/
theorem volumeDerivativesComp_frame (self : FVPressureCompositional) (globalIdx : Nat)
    (pressure massIncrement : Nat → Scalar) (volalt : Scalar) (s : CompLoopState)
    (comp : Nat) :
    (volumeDerivativesComp_ self globalIdx pressure massIncrement volalt s comp).cellData.dv_dp
        = s.cellData.dv_dp ∧
      (volumeDerivativesComp_ self globalIdx pressure massIncrement volalt s
        comp).cellData.volumeDerivativesAvailable_ = s.cellData.volumeDerivativesAvailable_ := by
  unfold volumeDerivativesComp_
  split
  · exact ⟨rfl, rfl⟩
  · exact ⟨rfl, rfl⟩

/-- The component loop leaves `dv_dp` as the pressure part left it. -/
theorem compLoop_dv_dp (self : FVPressureCompositional) (globalIdx : Nat)
    (cellData : CellData) (m : Nat) :
    (compLoop_ self globalIdx cellData m).cellData.dv_dp
      = (volumeDerivativesPressure_ self globalIdx cellData).2.dv_dp := by
  unfold compLoop_
  apply foldl_preserves (fun s : CompLoopState =>
    s.cellData.dv_dp = (volumeDerivativesPressure_ self globalIdx cellData).2.dv_dp)
  · intro k _ u hu
    show (volumeDerivativesComp_ self globalIdx _ _ _ u k).cellData.dv_dp = _
    rw [(volumeDerivativesComp_frame self globalIdx _ _ _ u k).1]
    exact hu
  · rfl

/-- The result of `volumeDerivatives` in terms of the component loop. -/
theorem volumeDerivatives_result (self : FVPressureCompositional) (globalIdx : Nat)
    (cellData : CellData) :
    (volumeDerivatives self globalIdx cellData).thrown
        = (compLoop_ self globalIdx cellData self.numComponents).thrown ∧
      (volumeDerivatives self globalIdx cellData).cellData.dv_dp
        = (volumeDerivativesPressure_ self globalIdx cellData).2.dv_dp ∧
      (volumeDerivatives self globalIdx cellData).cellData.dv
        = (compLoop_ self globalIdx cellData self.numComponents).cellData.dv := by
  unfold volumeDerivatives
  simp only []
  cases h : (compLoop_ self globalIdx cellData self.numComponents).thrown with
  | none => exact ⟨rfl, compLoop_dv_dp self globalIdx cellData _, rfl⟩
  | some e => exact ⟨rfl, compLoop_dv_dp self globalIdx cellData _, rfl⟩

/-- The one-norm of a vector of finite numbers is the sum of their absolute values. -/
theorem one_norm_fin (n : Nat) (v : Nat → Scalar) (μ : Nat → ℚ)
    (h : ∀ k, k < n → v k = fin (μ k)) :
    one_norm n v = fin ((Finset.range n).sum (fun k => |μ k|)) := by
  unfold one_norm
  apply foldl_add_fin (fun k => |μ k|) (fun k => fabs (v k)) n
  intro k hk
  show fabs (v k) = fin |μ k|
  rw [h k hk, fabs_fin]

/-- The value `dv_dp` holds after the pressure part: the forward secant, unless that is
positive, and the secant of the retry otherwise. -/
theorem volumeDerivativesPressure_dv_dp (self : FVPressureCompositional) (globalIdx : Nat)
    (cellData : CellData) :
    (volumeDerivativesPressure_ self globalIdx cellData).2.dv_dp =
      if gt ((volume_ self (mass_ self cellData) (flashForward_ self globalIdx cellData)
          - volalt_ self cellData) / fin (1/100)) (fin 0) then
        (volume_ self (mass_ self cellData) (flashBackward_ self globalIdx cellData)
          - volalt_ self cellData) / fin (1/100)
      else
        (volume_ self (mass_ self cellData) (flashForward_ self globalIdx cellData)
          - volalt_ self cellData) / fin (1/100) := by
  unfold volumeDerivativesPressure_
  simp only []
  split
  · rfl
  · rfl

/-- One more iteration of the component loop. -/
theorem compLoop_succ (self : FVPressureCompositional) (globalIdx : Nat)
    (cellData : CellData) (m : Nat) :
    compLoop_ self globalIdx cellData (m + 1)
      = volumeDerivativesComp_ self globalIdx (pressure_ self cellData)
          (massIncrement_ self globalIdx cellData) (volalt_ self cellData)
          (compLoop_ self globalIdx cellData m) m := by
  unfold compLoop_
  rw [List.range_succ, List.foldl_append]
  rfl

/-- Once the component loop has raised its exception, it changes nothing any more. -/
theorem compLoop_thrown_none (self : FVPressureCompositional) (globalIdx : Nat)
    (cellData : CellData) (m n : Nat) (hmn : m ≤ n)
    (h : (compLoop_ self globalIdx cellData n).thrown = none) :
    (compLoop_ self globalIdx cellData m).thrown = none := by
  induction n with
  | zero =>
    have e : m = 0 := by omega
    rw [e]
    exact h
  | succ n ih =>
    by_cases hm : m = n + 1
    · rw [hm]
      exact h
    · apply ih (by omega)
      rw [compLoop_succ] at h
      unfold volumeDerivativesComp_ at h
      cases ht : (compLoop_ self globalIdx cellData n).thrown with
      | none => rfl
      | some e =>
        rw [if_pos (by rw [ht]; rfl)] at h
        rw [ht] at h
        exact absurd h (by simp)

/-- For finite masses and increments every iteration of the component loop restores the
vector `mass`. -/
theorem compLoop_mass (self : FVPressureCompositional) (globalIdx : Nat)
    (cellData : CellData) (μ ι : Nat → ℚ)
    (hμ : ∀ k, k < self.numComponents → cellData.massConcentration k = fin (μ k))
    (hι : ∀ k, k < self.numComponents →
      massIncrement_ self globalIdx cellData k = fin (ι k))
    (m : Nat) (hm : m ≤ self.numComponents) :
    (compLoop_ self globalIdx cellData m).mass = mass_ self cellData := by
  induction m with
  | zero => rfl
  | succ m ih =>
    have ih2 := ih (by omega)
    rw [compLoop_succ]
    unfold volumeDerivativesComp_
    split
    · exact ih2
    · simp only []
      rw [ih2]
      funext k
      unfold setAt
      by_cases hk : k = m
      · subst hk
        simp only [if_true]
        have hmk : mass_ self cellData k = fin (μ k) := by
          unfold mass_
          rw [if_pos (by omega), hμ k (by omega)]
        rw [hmk, hι k (by omega), fin_add_fin, fin_sub_fin]
        congr 1
        ring
      · simp only [if_neg hk]

/-- For finite masses and increments, the `dv` entry of a component whose iteration of the
component loop was reached is the secant for the masses perturbed in that component
only, and later iterations leave it alone. -/
theorem compLoop_dv (self : FVPressureCompositional) (globalIdx : Nat)
    (cellData : CellData) (μ ι : Nat → ℚ)
    (hμ : ∀ k, k < self.numComponents → cellData.massConcentration k = fin (μ k))
    (hι : ∀ k, k < self.numComponents →
      massIncrement_ self globalIdx cellData k = fin (ι k))
    (m : Nat) (hm : m ≤ self.numComponents) (k : Nat) (hk : k < m)
    (hreached : (compLoop_ self globalIdx cellData k).thrown = none) :
    (compLoop_ self globalIdx cellData m).cellData.dv k
      = (volume_ self (massPerturbed_ self globalIdx cellData k)
          (flashComp_ self globalIdx cellData k) - volalt_ self cellData)
        / massIncrement_ self globalIdx cellData k := by
  induction m with
  | zero => omega
  | succ m ih =>
    rw [compLoop_succ]
    have hmass := compLoop_mass self globalIdx cellData μ ι hμ hι m (by omega)
    unfold volumeDerivativesComp_
    by_cases hkm : k = m
    · subst hkm
      rw [if_neg (by rw [hreached]; simp)]
      simp only [setAt, if_true]
      rw [hmass]
      rfl
    · split
      · exact ih (by omega) (by omega)
      · simp only [setAt, if_neg hkm]
        exact ih (by omega) (by omega)

/-- The run of `volumeDerivatives` on the consistent sample cell: no exception, the
derivatives `dv_dp = -1/10001` and `dv = 1/100` for both components, confirmed. -/
theorem sample_volumeDerivatives :
    (volumeDerivatives sampleModel 0 (sampleCell (fin 100))).thrown = none ∧
      (volumeDerivatives sampleModel 0 (sampleCell (fin 100))).cellData.dv_dp
        = fin (-1/10001) ∧
      (volumeDerivatives sampleModel 0 (sampleCell (fin 100))).cellData.dv 0
        = fin (1/100) ∧
      (volumeDerivatives sampleModel 0 (sampleCell (fin 100))).cellData.dv 1
        = fin (1/100) := by
  refine ⟨?_, ?_, ?_, ?_⟩ <;>
    norm_num [volumeDerivatives, compLoop_, volumeDerivativesComp_,
      volumeDerivativesPressure_, flashForward_, flashBackward_, pForward_, pBackward_, Z1_,
      volume_, volalt_, mass_, pressure_, massIncrement_, one_norm, specificVolume_,
      sampleModel, sampleCell, sampleFlash, CellData.confirmVolumeDerivatives, setAt,
      List.range_succ, fin_div_fin_eq, isnan, isinf, abs_div, abs_of_nonneg]

/-- C17, evaluated at a cell whose stored density `101` of phase `0` is not the one of the
flash (the density of the flash is the pressure, `100`): the forward secant is
`9900/1010101 > 0`, so the retry is taken, with the pressures lowered to `99.99`; the value
stored in `dv_dp` is `(V(p - incp) - V0) / incp = 100/9999`, whereas the secant for the
mirrored increment is `(V(p - incp) - V0) / (-incp) = -100/9999`. -/
theorem volumeDerivatives_retry_sample :
    (volume_ sampleModel (mass_ sampleModel (sampleCell (fin 101)))
          (flashForward_ sampleModel 0 (sampleCell (fin 101)))
        - volalt_ sampleModel (sampleCell (fin 101))) / fin (1/100) = fin (9900/1010101) ∧
      pBackward_ sampleModel (sampleCell (fin 101)) 0 = fin (9999/100) ∧
      pBackward_ sampleModel (sampleCell (fin 101)) 1 = fin (9999/100) ∧
      (volumeDerivatives sampleModel 0 (sampleCell (fin 101))).thrown = none ∧
      (volumeDerivatives sampleModel 0 (sampleCell (fin 101))).cellData.dv_dp
        = fin (100/9999) ∧
      (volume_ sampleModel (mass_ sampleModel (sampleCell (fin 101)))
          (flashBackward_ sampleModel 0 (sampleCell (fin 101)))
        - volalt_ sampleModel (sampleCell (fin 101))) / fin (-(1/100)) = fin (-(100/9999)) ∧
      fin (100/9999) ≠ fin (-(100/9999)) := by
  refine ⟨?_, ?_, ?_, ?_, ?_, ?_, ?_⟩ <;>
    norm_num [volumeDerivatives, compLoop_, volumeDerivativesComp_,
      volumeDerivativesPressure_, flashForward_, flashBackward_, pForward_, pBackward_, Z1_,
      volume_, volalt_, mass_, pressure_, massIncrement_, one_norm, specificVolume_,
      sampleModel, sampleCell, sampleFlash, CellData.confirmVolumeDerivatives, setAt,
      List.range_succ, fin_div_fin_eq, isnan, isinf, abs_div, abs_of_nonneg]

end FVPressureCompositional

/-! ## The NCP Newton method: further properties of the chopping -/

namespace NcpNewtonMethod

open Scalar

/-- With finite bounds `hi < lo`, `std::max(lo, std::min(val, hi))` is `lo` whatever `val`
is. -/
theorem stdMax_stdMin_swapped (val : Scalar) (lo hi : ℚ) (h : hi < lo) :
    stdMax (fin lo) (stdMin val (fin hi)) = fin lo := by
  cases val with
  | fin v =>
    rw [stdMin_fin_fin, stdMax_fin_fin, max_eq_left]
    exact le_trans (min_le_right _ _) h.le
  | posInf => simp [stdMin, lt, max_eq_left h.le]
  | negInf => simp [stdMax, stdMin, lt]
  | nan => simp [stdMax, stdMin, lt]

/-- C28: for every finite old pressure `p < 0` and every proposed pressure, `NaN` and the
infinities included, `pressureChop_` returns `0.8 * p`, which does not satisfy
`new ≤ 1.2 * p`: the interval `0.8 * p ≤ new ≤ 1.2 * p` is empty; for the old pressure `0`
it returns `0` for every proposed pressure. -/
theorem pressureChop_negative (p : ℚ) (val : Scalar) (hp : p < 0) :
    pressureChop_ val (fin p) = fin (4/5 * p) ∧
      ¬ (4/5 * p ≤ 6/5 * p) ∧
      (¬ ∃ r : ℚ, 4/5 * p ≤ r ∧ r ≤ 6/5 * p) ∧
      pressureChop_ val (fin 0) = fin 0 := by
  have hsw : p * (6/5) < p * (4/5) := by linarith
  refine ⟨?_, by linarith, ?_, ?_⟩
  · unfold pressureChop_ clampValue_
    rw [fin_mul_fin, fin_mul_fin, stdMax_stdMin_swapped val _ _ hsw]
    congr 1
    ring
  · rintro ⟨r, h1, h2⟩
    linarith
  · unfold pressureChop_ clampValue_
    rw [fin_mul_fin, fin_mul_fin]
    obtain ⟨r, hr, h1, h2⟩ := stdMax_stdMin_bounds val (0 * (4/5)) (0 * (6/5)) (by norm_num)
    rw [hr]
    congr 1
    linarith

/-- C28, at a concrete input: old pressure `-100`, proposed pressure `-110`, which lies
between `1.2 * p` and `0.8 * p`. -/
theorem pressureChop_negative_witness :
    ((-100 : ℚ) < 0) ∧
      (pressureChop_ (fin (-110)) (fin (-100)) = fin (4/5 * (-100)) ∧
        ¬ (4/5 * (-100 : ℚ) ≤ 6/5 * (-100)) ∧
        (¬ ∃ r : ℚ, 4/5 * (-100) ≤ r ∧ r ≤ 6/5 * (-100)) ∧
        pressureChop_ (fin (-110)) (fin 0) = fin 0) :=
  ⟨by norm_num, pressureChop_negative (-100) (fin (-110)) (by norm_num)⟩

theorem setAt_apply (a : Nat → Scalar) (i k : Nat) (v : Scalar) :
    setAt a i v k = if k = i then v else a k := rfl

/-- A loop over `k < n` that rewrites the entry `base + k` of a block leaves the entries
with other indices alone. -/
theorem rangeFold_frame (F : Scalar → Nat → Scalar) (base n : Nat) (r : Nat → Scalar)
    (j : Nat) (hj : ∀ k, k < n → base + k ≠ j) :
    ((List.range n).foldl (fun r k => setAt r (base + k) (F (r (base + k)) k)) r) j = r j := by
  apply foldl_preserves (fun w : Nat → Scalar => w j = r j)
  · intro k hk w hw
    show setAt w (base + k) _ j = r j
    rw [setAt_apply, if_neg (fun e => hj k (List.mem_range.mp hk) e.symm), hw]
  · rfl

/-- A loop over `k < n` that rewrites the entry `base + k` of a block from its own content
leaves `F` of the initial content in that entry. -/
theorem rangeFold_val (F : Scalar → Nat → Scalar) (base n : Nat) (r : Nat → Scalar)
    (k : Nat) (hk : k < n) :
    ((List.range n).foldl (fun r k => setAt r (base + k) (F (r (base + k)) k)) r) (base + k)
      = F (r (base + k)) k := by
  induction n with
  | zero => omega
  | succ n ih =>
    rw [List.range_succ, List.foldl_append]
    simp only [List.foldl_cons, List.foldl_nil]
    rw [setAt_apply]
    by_cases e : k = n
    · subst e
      rw [if_pos rfl, rangeFold_frame F base k r (base + k) (fun k2 hk2 => by omega)]
    · rw [if_neg (by omega)]
      exact ih (by omega)

/-- On block `i` the chopping of the degree of freedom `i` is `chopRow_`. -/
theorem chopUpdateDof_row (self : NcpNewtonMethod) (uLastIter u : SolutionVector) (i : Nat) :
    (chopUpdateDof_ self uLastIter u i).val i = chopRow_ self i (u.val i) (uLastIter.val i) := by
  have hfold : ∀ (l : List Nat) (J : Nat → Nat) (F : Scalar → Nat → Scalar)
      (w : BlockVector),
      (l.foldl (fun w k => w.set i (J k) (F (w.val i (J k)) k)) w).val i
        = l.foldl (fun r k => setAt r (J k) (F (r (J k)) k)) (w.val i) := by
    intro l J F
    induction l with
    | nil => intro w; rfl
    | cons k l ih =>
      intro w
      simp only [List.foldl_cons]
      rw [ih]
      congr 1
      funext b
      simp [BlockVector.set, setAt]
  unfold chopUpdateDof_ chopRow_
  simp only []
  rw [hfold (List.range self.numComponents) (fun c => self.fugacity0Idx + c)
    (fun x c => fugacityChop_ x (uLastIter.val i (self.fugacity0Idx + c))
      (self.minActivityCoeff i c))]
  congr 1
  have hset : ∀ (w : BlockVector) (j : Nat) (v : Scalar),
      (w.set i j v).val i = setAt (w.val i) j v := by
    intro w j v
    funext b
    simp [BlockVector.set, setAt]
  rw [hset, hfold (List.range (self.numPhases - 1)) (fun ph => self.saturation0Idx + ph)
    (fun x ph => saturationChop_ x (uLastIter.val i (self.saturation0Idx + ph)))]

/-- The blocks `chopUpdate_` leaves: `chopRow_` of the block for a degree of freedom of
`uLastIter`, the block itself otherwise. -/
theorem chopUpdate_row (self : NcpNewtonMethod) (uCurrentIter uLastIter : SolutionVector)
    (i : Nat) :
    (chopUpdate_ self uCurrentIter uLastIter).val i
      = if i < uLastIter.size then chopRow_ self i (uCurrentIter.val i) (uLastIter.val i)
        else uCurrentIter.val i := by
  have h : ∀ n, ((List.range n).foldl (chopUpdateDof_ self uLastIter) uCurrentIter).val i
      = if i < n then chopRow_ self i (uCurrentIter.val i) (uLastIter.val i)
        else uCurrentIter.val i := by
    intro n
    induction n with
    | zero => simp
    | succ n ih =>
      rw [List.range_succ, List.foldl_append]
      simp only [List.foldl_cons, List.foldl_nil]
      by_cases e : i = n
      · subst e
        rw [chopUpdateDof_row, ih, if_neg (lt_irrefl i), if_pos (Nat.lt_succ_self i)]
      · have hrow : (chopUpdateDof_ self uLastIter
            ((List.range n).foldl (chopUpdateDof_ self uLastIter) uCurrentIter) n).val i
            = ((List.range n).foldl (chopUpdateDof_ self uLastIter) uCurrentIter).val i := by
          funext b
          exact chopUpdateDof_val_other_block self uLastIter _ n i b e
        rw [hrow, ih]
        have hiff : i < n + 1 ↔ i < n := by omega
        rw [if_congr hiff rfl rfl]
  exact h uLastIter.size

/-- An entry of a block that is neither a saturation, nor the pressure, nor a fugacity
entry is left alone by `chopRow_`. -/
theorem chopRow_frame (self : NcpNewtonMethod) (i : Nat) (cur old : Nat → Scalar) (j : Nat)
    (hs : ∀ phaseIdx, phaseIdx < self.numPhases - 1 → self.saturation0Idx + phaseIdx ≠ j)
    (hp : self.pressure0Idx ≠ j)
    (hf : ∀ c, c < self.numComponents → self.fugacity0Idx + c ≠ j) :
    chopRow_ self i cur old j = cur j := by
  unfold chopRow_
  rw [rangeFold_frame
    (fun x c => fugacityChop_ x (old (self.fugacity0Idx + c)) (self.minActivityCoeff i c))
    self.fugacity0Idx self.numComponents _ j hf,
    setAt_apply, if_neg (fun e => hp e.symm),
    rangeFold_frame (fun x ph => saturationChop_ x (old (self.saturation0Idx + ph)))
      self.saturation0Idx (self.numPhases - 1) _ j hs]

/-- In a layout with distinct entries `chopRow_` leaves `fugacityChop_` of the entry in a
fugacity entry. -/
theorem chopRow_fugacity (self : NcpNewtonMethod) (i : Nat) (cur old : Nat → Scalar)
    (c : Nat) (hc : c < self.numComponents)
    (hfp : self.fugacity0Idx + c ≠ self.pressure0Idx)
    (hfs : ∀ phaseIdx, phaseIdx < self.numPhases - 1 →
      self.saturation0Idx + phaseIdx ≠ self.fugacity0Idx + c) :
    chopRow_ self i cur old (self.fugacity0Idx + c)
      = fugacityChop_ (cur (self.fugacity0Idx + c)) (old (self.fugacity0Idx + c))
          (self.minActivityCoeff i c) := by
  unfold chopRow_
  rw [rangeFold_val
    (fun x c => fugacityChop_ x (old (self.fugacity0Idx + c)) (self.minActivityCoeff i c))
    self.fugacity0Idx self.numComponents _ c hc,
    setAt_apply, if_neg hfp,
    rangeFold_frame (fun x ph => saturationChop_ x (old (self.saturation0Idx + ph)))
      self.saturation0Idx (self.numPhases - 1) _ _ hfs]

/-- In a layout with distinct entries `chopRow_` leaves `pressureChop_` of the entry in the
pressure entry. -/
theorem chopRow_pressure (self : NcpNewtonMethod) (i : Nat) (cur old : Nat → Scalar)
    (hfp : ∀ c, c < self.numComponents → self.fugacity0Idx + c ≠ self.pressure0Idx)
    (hps : ∀ phaseIdx, phaseIdx < self.numPhases - 1 →
      self.saturation0Idx + phaseIdx ≠ self.pressure0Idx) :
    chopRow_ self i cur old self.pressure0Idx
      = pressureChop_ (cur self.pressure0Idx) (old self.pressure0Idx) := by
  unfold chopRow_
  rw [rangeFold_frame
    (fun x c => fugacityChop_ x (old (self.fugacity0Idx + c)) (self.minActivityCoeff i c))
    self.fugacity0Idx self.numComponents _ _ hfp,
    setAt_apply, if_pos rfl,
    rangeFold_frame (fun x ph => saturationChop_ x (old (self.saturation0Idx + ph)))
      self.saturation0Idx (self.numPhases - 1) _ _ hps]

/-- In a layout with distinct entries `chopRow_` leaves `saturationChop_` of the entry in a
saturation entry. -/
theorem chopRow_saturation (self : NcpNewtonMethod) (i : Nat) (cur old : Nat → Scalar)
    (phaseIdx : Nat) (hph : phaseIdx < self.numPhases - 1)
    (hsp : self.saturation0Idx + phaseIdx ≠ self.pressure0Idx)
    (hfs : ∀ c, c < self.numComponents →
      self.fugacity0Idx + c ≠ self.saturation0Idx + phaseIdx) :
    chopRow_ self i cur old (self.saturation0Idx + phaseIdx)
      = saturationChop_ (cur (self.saturation0Idx + phaseIdx))
          (old (self.saturation0Idx + phaseIdx)) := by
  unfold chopRow_
  rw [rangeFold_frame
    (fun x c => fugacityChop_ x (old (self.fugacity0Idx + c)) (self.minActivityCoeff i c))
    self.fugacity0Idx self.numComponents _ _ hfs,
    setAt_apply, if_neg hsp,
    rangeFold_val (fun x ph => saturationChop_ x (old (self.saturation0Idx + ph)))
      self.saturation0Idx (self.numPhases - 1) _ phaseIdx hph]

/-- Chopping a chopped saturation again changes nothing. -/
theorem saturationChop_idem (val : Scalar) (s : ℚ) :
    saturationChop_ (saturationChop_ val (fin s)) (fin s) = saturationChop_ val (fin s) := by
  obtain ⟨r, hr, hb⟩ := saturationChop_bound val s
  rw [hr, saturationChop_fin]
  rw [abs_le] at hb
  rw [min_eq_left (by linarith [hb.2]), max_eq_right (by linarith [hb.1])]

/-- Chopping a chopped pressure again changes nothing. -/
theorem pressureChop_idem (val : Scalar) (p : ℚ) :
    pressureChop_ (pressureChop_ val (fin p)) (fin p) = pressureChop_ val (fin p) := by
  by_cases hp : 0 ≤ p
  · obtain ⟨r, hr, h1, h2⟩ := pressureChop_bound val p hp
    rw [hr, pressureChop_fin]
    rw [min_eq_left (by linarith), max_eq_right (by linarith)]
  · have hsw : p * (6/5) < p * (4/5) := by linarith [not_le.mp hp]
    have e : ∀ x : Scalar, pressureChop_ x (fin p) = fin (p * (4/5)) := by
      intro x
      unfold pressureChop_ clampValue_
      rw [fin_mul_fin, fin_mul_fin, stdMax_stdMin_swapped x _ _ hsw]
    rw [e, e]

/-- Chopping a chopped fugacity again changes nothing, also when the band
`old ± 0.7 * minPhi` and the hard bound do not meet. -/
theorem fugacityChop_idem (val : Scalar) (o m : ℚ) (hm : 0 ≤ m) :
    fugacityChop_ (fugacityChop_ val (fin o) (fin m)) (fin o) (fin m)
      = fugacityChop_ val (fin o) (fin m) := by
  have e : ∀ x : Scalar, ∃ c : ℚ, o - 7/10 * m ≤ c ∧ c ≤ o + 7/10 * m ∧
      fugacityChop_ x (fin o) (fin m) = fin (min (101/100 * m) (max (-1/100 * m) c)) := by
    intro x
    obtain ⟨c, hc, hc1, hc2⟩ :=
      stdMax_stdMin_bounds x (o - 7/10 * m) (o + 7/10 * m) (by linarith)
    refine ⟨c, hc1, hc2, ?_⟩
    unfold fugacityChop_ clampValue_
    simp only [fin_mul_fin, fin_sub_fin, fin_add_fin]
    rw [hc]
    simp
  obtain ⟨c, hc1, hc2, hy⟩ := e val
  rw [hy]
  unfold fugacityChop_ clampValue_
  simp only [fin_mul_fin, fin_sub_fin, fin_add_fin, stdMin_fin_fin, stdMax_fin_fin]
  congr 1
  have hle : -1/100 * m ≤ 101/100 * m := by linarith
  have hd : 0 ≤ 7/10 * m := by linarith
  generalize 7/10 * m = d at hc1 hc2 hd
  generalize -1/100 * m = lo at hle
  generalize 101/100 * m = hi at hle
  simp only [max_def, min_def]
  split_ifs <;> linarith

/-- In a layout with distinct entries, for finite old values and finite minimum activity
coefficients `≥ 0`, chopping a chopped block again changes nothing. -/
theorem chopRow_idem (self : NcpNewtonMethod) (i : Nat) (cur old : Nat → Scalar)
    (hfp : ∀ c, c < self.numComponents → self.fugacity0Idx + c ≠ self.pressure0Idx)
    (hfs : ∀ c phaseIdx, c < self.numComponents → phaseIdx < self.numPhases - 1 →
      self.fugacity0Idx + c ≠ self.saturation0Idx + phaseIdx)
    (hps : ∀ phaseIdx, phaseIdx < self.numPhases - 1 →
      self.pressure0Idx ≠ self.saturation0Idx + phaseIdx)
    (hold : ∀ j, ∃ q : ℚ, old j = fin q)
    (hphi : ∀ c, c < self.numComponents → ∃ m : ℚ, self.minActivityCoeff i c = fin m ∧ 0 ≤ m)
    (j : Nat) :
    chopRow_ self i (chopRow_ self i cur old) old j = chopRow_ self i cur old j := by
  obtain ⟨q, hq⟩ := hold j
  by_cases h1 : ∃ c, c < self.numComponents ∧ self.fugacity0Idx + c = j
  · obtain ⟨c, hc, e⟩ := h1
    obtain ⟨m, hm, hm0⟩ := hphi c hc
    subst e
    have hfs2 : ∀ phaseIdx, phaseIdx < self.numPhases - 1 →
        self.saturation0Idx + phaseIdx ≠ self.fugacity0Idx + c :=
      fun ph hph e2 => hfs c ph hc hph e2.symm
    rw [chopRow_fugacity self i _ old c hc (hfp c hc) hfs2,
      chopRow_fugacity self i cur old c hc (hfp c hc) hfs2, hq, hm]
    exact fugacityChop_idem _ q m hm0
  · by_cases h2 : self.pressure0Idx = j
    · subst h2
      have hps2 : ∀ phaseIdx, phaseIdx < self.numPhases - 1 →
          self.saturation0Idx + phaseIdx ≠ self.pressure0Idx :=
        fun ph hph e2 => hps ph hph e2.symm
      rw [chopRow_pressure self i _ old hfp hps2, chopRow_pressure self i cur old hfp hps2, hq]
      exact pressureChop_idem _ q
    · by_cases h3 : ∃ phaseIdx, phaseIdx < self.numPhases - 1 ∧
          self.saturation0Idx + phaseIdx = j
      · obtain ⟨ph, hph, e⟩ := h3
        subst e
        have hsp : self.saturation0Idx + ph ≠ self.pressure0Idx :=
          fun e2 => hps ph hph e2.symm
        have hfs2 : ∀ c, c < self.numComponents →
            self.fugacity0Idx + c ≠ self.saturation0Idx + ph :=
          fun c hc => hfs c ph hc hph
        rw [chopRow_saturation self i _ old ph hph hsp hfs2,
          chopRow_saturation self i cur old ph hph hsp hfs2, hq]
        exact saturationChop_idem _ q
      · have hs : ∀ phaseIdx, phaseIdx < self.numPhases - 1 →
            self.saturation0Idx + phaseIdx ≠ j :=
          fun ph hph e => h3 ⟨ph, hph, e⟩
        have hf : ∀ c, c < self.numComponents → self.fugacity0Idx + c ≠ j :=
          fun c hc e => h1 ⟨c, hc, e⟩
        rw [chopRow_frame self i _ old j hs h2 hf]

/-- C29: for an index layout in which the saturation, pressure and fugacity entries are
distinct, finite entries of `uLastIter` and finite minimum activity coefficients `≥ 0`,
applying `chopUpdate_` twice against the same `uLastIter` gives the same solution as
applying it once, for every proposed solution; no condition relates the band
`old ± 0.7 * minPhi` to the hard bound `[-0.01 * minPhi, 1.01 * minPhi]`. -/
theorem chopUpdate_idempotent (self : NcpNewtonMethod)
    (uCurrentIter uLastIter : SolutionVector)
    (hfp : ∀ c, c < self.numComponents → self.fugacity0Idx + c ≠ self.pressure0Idx)
    (hfs : ∀ c phaseIdx, c < self.numComponents → phaseIdx < self.numPhases - 1 →
      self.fugacity0Idx + c ≠ self.saturation0Idx + phaseIdx)
    (hps : ∀ phaseIdx, phaseIdx < self.numPhases - 1 →
      self.pressure0Idx ≠ self.saturation0Idx + phaseIdx)
    (hold : ∀ i j, i < uLastIter.size → ∃ q : ℚ, uLastIter.val i j = fin q)
    (hphi : ∀ i c, i < uLastIter.size → c < self.numComponents →
      ∃ m : ℚ, self.minActivityCoeff i c = fin m ∧ 0 ≤ m) :
    ∀ i j, (chopUpdate_ self (chopUpdate_ self uCurrentIter uLastIter) uLastIter).val i j
      = (chopUpdate_ self uCurrentIter uLastIter).val i j := by
  intro i j
  rw [chopUpdate_row self (chopUpdate_ self uCurrentIter uLastIter) uLastIter i]
  by_cases hi : i < uLastIter.size
  · rw [if_pos hi, chopUpdate_row self uCurrentIter uLastIter i, if_pos hi]
    exact chopRow_idem self i _ _ hfp hfs hps (fun j => hold i j hi)
      (fun c hc => hphi i c hi hc) j
  · rw [if_neg hi]

/-- C29, at a concrete input: the method `sample` and a block whose first fugacity has the
old value `5`, so that its band `[4.3, 5.7]` does not meet the hard bound
`[-0.01, 1.01]`. -/
theorem chopUpdate_idempotent_witness :
    ((∀ c, c < sample.numComponents → sample.fugacity0Idx + c ≠ sample.pressure0Idx) ∧
      (∀ c phaseIdx, c < sample.numComponents → phaseIdx < sample.numPhases - 1 →
        sample.fugacity0Idx + c ≠ sample.saturation0Idx + phaseIdx) ∧
      (∀ phaseIdx, phaseIdx < sample.numPhases - 1 →
        sample.pressure0Idx ≠ sample.saturation0Idx + phaseIdx) ∧
      (∀ i j, i < (block4 (fin 5) (fin (1/2)) (fin (1/2)) (fin 100)).size →
        ∃ q : ℚ, (block4 (fin 5) (fin (1/2)) (fin (1/2)) (fin 100)).val i j = fin q) ∧
      (∀ i c, i < (block4 (fin 5) (fin (1/2)) (fin (1/2)) (fin 100)).size →
        c < sample.numComponents →
        ∃ m : ℚ, sample.minActivityCoeff i c = fin m ∧ 0 ≤ m)) ∧
    ∀ i j, (chopUpdate_ sample
        (chopUpdate_ sample (block4 (fin 3) (fin 3) (fin 3) (fin 300))
          (block4 (fin 5) (fin (1/2)) (fin (1/2)) (fin 100)))
        (block4 (fin 5) (fin (1/2)) (fin (1/2)) (fin 100))).val i j
      = (chopUpdate_ sample (block4 (fin 3) (fin 3) (fin 3) (fin 300))
          (block4 (fin 5) (fin (1/2)) (fin (1/2)) (fin 100))).val i j :=
  have hfp : ∀ c, c < sample.numComponents →
      sample.fugacity0Idx + c ≠ sample.pressure0Idx := by
    intro c hc
    simp only [sample] at hc ⊢
    omega
  have hfs : ∀ c phaseIdx, c < sample.numComponents → phaseIdx < sample.numPhases - 1 →
      sample.fugacity0Idx + c ≠ sample.saturation0Idx + phaseIdx := by
    intro c phaseIdx hc hph
    simp only [sample] at hc hph ⊢
    omega
  have hps : ∀ phaseIdx, phaseIdx < sample.numPhases - 1 →
      sample.pressure0Idx ≠ sample.saturation0Idx + phaseIdx := by
    intro phaseIdx hph
    simp only [sample] at hph ⊢
    omega
  have hold : ∀ i j, i < (block4 (fin 5) (fin (1/2)) (fin (1/2)) (fin 100)).size →
      ∃ q : ℚ, (block4 (fin 5) (fin (1/2)) (fin (1/2)) (fin 100)).val i j = fin q := by
    intro i j _
    simp only [block4]
    split_ifs <;> exact ⟨_, rfl⟩
  have hphi : ∀ i c, i < (block4 (fin 5) (fin (1/2)) (fin (1/2)) (fin 100)).size →
      c < sample.numComponents →
      ∃ m : ℚ, sample.minActivityCoeff i c = fin m ∧ 0 ≤ m :=
    fun _ _ _ _ => ⟨1, rfl, by norm_num⟩
  ⟨⟨hfp, hfs, hps, hold, hphi⟩,
    chopUpdate_idempotent sample _ _ hfp hfs hps hold hphi⟩

/-- C30: `chopUpdate_` changes nothing in a block that belongs to no degree of freedom of
`uLastIter`, and in the block of a degree of freedom it changes only the `numPhases - 1`
saturation entries, the pressure entry and the `numComponents` fugacity entries; applied
to the full step, every other entry `j < numEq` keeps the value `uLastIter - deltaU`.  The
block it leaves for the degree of freedom `i` is a function of the blocks `uCurrentIter[i]`
and `uLastIter[i]` and of the activity coefficients at `i`: it is the same for any other
solution vectors and any other method with the same sizes and indices that agree in these.
`uLastIter` is an argument that is only read. -/
theorem chopUpdate_frame_locality (self : NcpNewtonMethod)
    (uCurrentIter uLastIter : SolutionVector) :
    (∀ i j, ¬ i < uLastIter.size →
        (chopUpdate_ self uCurrentIter uLastIter).val i j = uCurrentIter.val i j) ∧
      (∀ i j,
        (∀ phaseIdx, phaseIdx < self.numPhases - 1 → self.saturation0Idx + phaseIdx ≠ j) →
        self.pressure0Idx ≠ j →
        (∀ c, c < self.numComponents → self.fugacity0Idx + c ≠ j) →
        (chopUpdate_ self uCurrentIter uLastIter).val i j = uCurrentIter.val i j) ∧
      (∀ (deltaU : GlobalEqVector) i j, i < uLastIter.size → j < self.numEq →
        (∀ phaseIdx, phaseIdx < self.numPhases - 1 → self.saturation0Idx + phaseIdx ≠ j) →
        self.pressure0Idx ≠ j →
        (∀ c, c < self.numComponents → self.fugacity0Idx + c ≠ j) →
        (chopUpdate_ self (fullStep_ self uCurrentIter uLastIter deltaU) uLastIter).val i j
          = uLastIter.val i j - deltaU.val i j) ∧
      (∀ (self2 : NcpNewtonMethod) (uCurrentIter2 uLastIter2 : SolutionVector) (i : Nat),
        self2.numPhases = self.numPhases → self2.numComponents = self.numComponents →
        self2.saturation0Idx = self.saturation0Idx →
        self2.pressure0Idx = self.pressure0Idx →
        self2.fugacity0Idx = self.fugacity0Idx →
        self2.minActivityCoeff i = self.minActivityCoeff i →
        i < uLastIter.size → i < uLastIter2.size →
        uCurrentIter2.val i = uCurrentIter.val i → uLastIter2.val i = uLastIter.val i →
        (chopUpdate_ self2 uCurrentIter2 uLastIter2).val i
          = (chopUpdate_ self uCurrentIter uLastIter).val i) := by
  have hframe : ∀ (u : SolutionVector) i j,
      (∀ phaseIdx, phaseIdx < self.numPhases - 1 → self.saturation0Idx + phaseIdx ≠ j) →
      self.pressure0Idx ≠ j →
      (∀ c, c < self.numComponents → self.fugacity0Idx + c ≠ j) →
      (chopUpdate_ self u uLastIter).val i j = u.val i j := by
    intro u i j hs hp hf
    rw [chopUpdate_row]
    by_cases hi : i < uLastIter.size
    · rw [if_pos hi, chopRow_frame self i _ _ j hs hp hf]
    · rw [if_neg hi]
  refine ⟨?_, hframe uCurrentIter, ?_, ?_⟩
  · intro i j hi
    rw [chopUpdate_row, if_neg hi]
  · intro deltaU i j hi hj hs hp hf
    rw [hframe _ i j hs hp hf, fullStep_val, if_pos ⟨hi, hj⟩]
  · intro self2 u2 uLast2 i h1 h2 h3 h4 h5 h6 hi hi2 hu hl
    rw [chopUpdate_row, chopUpdate_row, if_pos hi, if_pos hi2, hu, hl]
    unfold chopRow_
    rw [h1, h2, h3, h4, h5, h6]

end NcpNewtonMethod

/-! ## The compositional pressure model: errors and the confirmation -/

namespace FVPressureCompositional

open Scalar

theorem isnan_or_isinf (v : Scalar) : (isnan v || isinf v) = !isfinite v := by
  cases v <;> rfl

theorem check_eq (v : Scalar) (e : DuneException) :
    (if (isnan v || isinf v) = true then some e else none)
      = if isfinite v = true then none else some e := by
  cases v <;> rfl

theorem setAt_same (f : Nat → Scalar) (k : Nat) (v : Scalar) : setAt f k v k = v := by
  simp only [setAt, if_true]

theorem nan_add (x : Scalar) : nan + x = nan := by cases x <;> rfl

theorem add_nan (x : Scalar) : x + nan = nan := by cases x <;> rfl

theorem nan_sub (x : Scalar) : nan - x = nan := by cases x <;> rfl

theorem sub_nan (x : Scalar) : x - nan = nan := by cases x <;> rfl

theorem nan_mul (x : Scalar) : nan * x = nan := by cases x <;> rfl

theorem mul_nan (x : Scalar) : x * nan = nan := by cases x <;> rfl

theorem nan_div (x : Scalar) : nan / x = nan := by cases x <;> rfl

theorem div_nan (x : Scalar) : x / nan = nan := by cases x <;> rfl

theorem gt_nan (x : Scalar) : gt nan x = false := by cases x <;> rfl

theorem signedInf_zero : signedInf 0 = nan := rfl

/-- An iteration of the component loop that is reached writes one entry of `dv` and raises
the exception exactly when that entry is `NaN` or infinite. -/
theorem volumeDerivativesComp_reached (self : FVPressureCompositional) (globalIdx : Nat)
    (pressure massIncrement : Nat → Scalar) (volalt : Scalar) (s : CompLoopState)
    (comp : Nat) (h : s.thrown = none) :
    ∃ v : Scalar,
      (volumeDerivativesComp_ self globalIdx pressure massIncrement volalt s comp).cellData.dv
          = setAt s.cellData.dv comp v ∧
        (volumeDerivativesComp_ self globalIdx pressure massIncrement volalt s comp).thrown
          = if isfinite v then none
            else some (DuneException.MathError
              "NAN/inf of dV_dm. If that happens in first timestep, try smaller firstDt!") := by
  unfold volumeDerivativesComp_
  rw [if_neg (by rw [h]; simp)]
  refine ⟨_, rfl, ?_⟩
  simp only [setAt_same, check_eq]

/-- An iteration of the component loop after the exception does nothing. -/
theorem volumeDerivativesComp_skipped (self : FVPressureCompositional) (globalIdx : Nat)
    (pressure massIncrement : Nat → Scalar) (volalt : Scalar) (s : CompLoopState)
    (comp : Nat) (e : DuneException) (h : s.thrown = some e) :
    volumeDerivativesComp_ self globalIdx pressure massIncrement volalt s comp = s := by
  unfold volumeDerivativesComp_
  rw [if_pos (by rw [h]; rfl)]

/-- The component loop leaves the pressures, masses, mass fractions, densities and the
confirmation flag of the cell data alone. -/
theorem compLoop_frame (self : FVPressureCompositional) (globalIdx : Nat)
    (cellData : CellData) (m : Nat) :
    (compLoop_ self globalIdx cellData m).cellData.pressure = cellData.pressure ∧
      (compLoop_ self globalIdx cellData m).cellData.massConcentration
        = cellData.massConcentration ∧
      (compLoop_ self globalIdx cellData m).cellData.phaseMassFraction
        = cellData.phaseMassFraction ∧
      (compLoop_ self globalIdx cellData m).cellData.density = cellData.density ∧
      (compLoop_ self globalIdx cellData m).cellData.volumeDerivativesAvailable_
        = cellData.volumeDerivativesAvailable_ := by
  induction m with
  | zero =>
    show (volumeDerivativesPressure_ self globalIdx cellData).2.pressure = _ ∧
      (volumeDerivativesPressure_ self globalIdx cellData).2.massConcentration = _ ∧
      (volumeDerivativesPressure_ self globalIdx cellData).2.phaseMassFraction = _ ∧
      (volumeDerivativesPressure_ self globalIdx cellData).2.density = _ ∧
      (volumeDerivativesPressure_ self globalIdx cellData).2.volumeDerivativesAvailable_ = _
    unfold volumeDerivativesPressure_
    simp only []
    split
    · exact ⟨rfl, rfl, rfl, rfl, rfl⟩
    · exact ⟨rfl, rfl, rfl, rfl, rfl⟩
  | succ m ih =>
    rw [compLoop_succ]
    unfold volumeDerivativesComp_
    split
    · exact ih
    · exact ih

/-- What the checks of the component loop establish after its first `m` iterations: the
entries of `dv` from `m` on are untouched; without an exception the first `m` entries are
finite; an exception is the `MathError` of the check, raised at the first component whose
entry is `NaN` or infinite, and the entries after that component are untouched. -/
theorem compLoop_checked (self : FVPressureCompositional) (globalIdx : Nat)
    (cellData : CellData) (m : Nat) :
    (∀ j, m ≤ j → (compLoop_ self globalIdx cellData m).cellData.dv j = cellData.dv j) ∧
      ((compLoop_ self globalIdx cellData m).thrown = none →
        ∀ k, k < m → isfinite ((compLoop_ self globalIdx cellData m).cellData.dv k) = true) ∧
      (∀ e, (compLoop_ self globalIdx cellData m).thrown = some e →
        e = DuneException.MathError
            "NAN/inf of dV_dm. If that happens in first timestep, try smaller firstDt!" ∧
          ∃ k, k < m ∧
            isfinite ((compLoop_ self globalIdx cellData m).cellData.dv k) = false ∧
            (∀ j, j < k →
              isfinite ((compLoop_ self globalIdx cellData m).cellData.dv j) = true) ∧
            ∀ j, k < j →
              (compLoop_ self globalIdx cellData m).cellData.dv j = cellData.dv j) := by
  induction m with
  | zero =>
    refine ⟨?_, ?_, ?_⟩
    · intro j _
      show (volumeDerivativesPressure_ self globalIdx cellData).2.dv j = cellData.dv j
      unfold volumeDerivativesPressure_
      simp only []
      split
      · rfl
      · rfl
    · intro _ k hk
      omega
    · intro e he
      exact absurd he (by simp [compLoop_])
  | succ m ih =>
    obtain ⟨ih1, ih2, ih3⟩ := ih
    rw [compLoop_succ]
    cases ht : (compLoop_ self globalIdx cellData m).thrown with
    | some e0 =>
      rw [volumeDerivativesComp_skipped self globalIdx _ _ _ _ m e0 ht]
      refine ⟨fun j hj => ih1 j (by omega), ?_, ?_⟩
      · intro h
        rw [ht] at h
        exact absurd h (by simp)
      · intro e he
        obtain ⟨h1, k, hk, h2⟩ := ih3 e he
        exact ⟨h1, k, by omega, h2⟩
    | none =>
      obtain ⟨v, hv1, hv2⟩ := volumeDerivativesComp_reached self globalIdx
        (pressure_ self cellData) (massIncrement_ self globalIdx cellData)
        (volalt_ self cellData) (compLoop_ self globalIdx cellData m) m ht
      rw [hv1, hv2]
      have hother : ∀ j, j ≠ m →
          setAt (compLoop_ self globalIdx cellData m).cellData.dv m v j
            = (compLoop_ self globalIdx cellData m).cellData.dv j := by
        intro j hj
        simp only [setAt, if_neg hj]
      have hsame : setAt (compLoop_ self globalIdx cellData m).cellData.dv m v m = v := by
        simp only [setAt, if_true]
      refine ⟨?_, ?_, ?_⟩
      · intro j hj
        rw [hother j (by omega)]
        exact ih1 j (by omega)
      · intro h k hk
        by_cases hkm : k = m
        · rw [hkm, hsame]
          by_cases hf : isfinite v = true
          · exact hf
          · rw [if_neg hf] at h
            exact absurd h (by simp)
        · rw [hother k hkm]
          exact ih2 ht k (by omega)
      · intro e he
        by_cases hf : isfinite v = true
        · rw [if_pos hf] at he
          exact absurd he (by simp)
        · rw [if_neg hf] at he
          refine ⟨(Option.some.inj he).symm, m, by omega, ?_, ?_, ?_⟩
          · rw [hsame]
            simpa using hf
          · intro j hj
            rw [hother j (by omega)]
            exact ih2 ht j hj
          · intro j hj
            rw [hother j (by omega)]
            exact ih1 j (by omega)

/-- C21, counterexample: with a flash that has no solution at the raised pressure, the
pressure derivative `dv_dp` is `NaN`, and `volumeDerivatives` returns normally with the
cell data confirmed. -/
theorem volumeDerivatives_dv_dp_unchecked_counterexample :
    (volumeDerivatives boundedModel 0 (sampleCell (fin 100))).thrown = none ∧
      (volumeDerivatives boundedModel 0 (sampleCell (fin 100))).cellData.dv_dp = nan ∧
      isnan (volumeDerivatives boundedModel 0 (sampleCell (fin 100))).cellData.dv_dp = true ∧
      (volumeDerivatives boundedModel 0
        (sampleCell (fin 100))).cellData.volumeDerivativesAvailable_ = true := by
  refine ⟨?_, ?_, ?_, ?_⟩ <;>
    norm_num [volumeDerivatives, compLoop_, volumeDerivativesComp_,
      volumeDerivativesPressure_, flashForward_, flashBackward_, pForward_, pBackward_, Z1_,
      volume_, volalt_, mass_, pressure_, massIncrement_, one_norm, specificVolume_,
      sampleModel, boundedModel, boundedFlash, sampleCell, sampleFlash,
      CellData.confirmVolumeDerivatives, setAt,
      List.range_succ, fin_div_fin_eq, isnan, isinf, abs_div, abs_of_nonneg,
      nan_add, add_nan, nan_sub, sub_nan, nan_mul, mul_nan, nan_div, div_nan, gt_nan,
      signedInf_zero]

/-- C21, amended: `volumeDerivatives` returns normally exactly when the composition
derivative `dv(k)` it leaves for every component `k` is finite; otherwise it fails, the
exception is the `MathError` of the check in the component loop, and the entry of some
component is `NaN` or infinite.  The pressure derivative `dv_dp` is not checked. -/
theorem volumeDerivatives_throws_iff (self : FVPressureCompositional) (globalIdx : Nat)
    (cellData : CellData) :
    ((volumeDerivatives self globalIdx cellData).thrown = none ↔
        ∀ k, k < self.numComponents →
          isfinite ((volumeDerivatives self globalIdx cellData).cellData.dv k) = true) ∧
      (∀ e, (volumeDerivatives self globalIdx cellData).thrown = some e →
        e = DuneException.MathError
            "NAN/inf of dV_dm. If that happens in first timestep, try smaller firstDt!" ∧
          ∃ k, k < self.numComponents ∧
            (isnan ((volumeDerivatives self globalIdx cellData).cellData.dv k)
              || isinf ((volumeDerivatives self globalIdx cellData).cellData.dv k))
              = true) := by
  obtain ⟨hthrown, _, hdv⟩ := volumeDerivatives_result self globalIdx cellData
  obtain ⟨_, hnone, hsome⟩ := compLoop_checked self globalIdx cellData self.numComponents
  rw [hthrown, hdv]
  refine ⟨⟨hnone, ?_⟩, ?_⟩
  · intro hall
    cases ht : (compLoop_ self globalIdx cellData self.numComponents).thrown with
    | none => rfl
    | some e =>
      obtain ⟨_, k, hk, hnf, _⟩ := hsome e ht
      rw [hall k hk] at hnf
      exact absurd hnf (by simp)
  · intro e he
    obtain ⟨h1, k, hk, hnf, _⟩ := hsome e he
    refine ⟨h1, k, hk, ?_⟩
    rw [isnan_or_isinf, hnf]
    rfl

/-- C22, counterexample: the update estimate takes the whole mass out of the cell, the
feed fraction of the first component loop iteration is `0/0`, and `volumeDerivatives`
fails; the cell data, which held `dv_dp = 0` and `dv(0) = 0` before the call, holds
`dv_dp = -1/10001` and `dv(0) = NaN` afterwards. -/
theorem volumeDerivatives_partial_write_counterexample :
    (volumeDerivatives drainingModel 0 (sampleCell (fin 100))).thrown
        = some (DuneException.MathError
            "NAN/inf of dV_dm. If that happens in first timestep, try smaller firstDt!") ∧
      (sampleCell (fin 100)).dv_dp = fin 0 ∧
      (volumeDerivatives drainingModel 0 (sampleCell (fin 100))).cellData.dv_dp
        = fin (-1/10001) ∧
      (sampleCell (fin 100)).dv 0 = fin 0 ∧
      (volumeDerivatives drainingModel 0 (sampleCell (fin 100))).cellData.dv 0 = nan := by
  refine ⟨?_, rfl, ?_, rfl, ?_⟩ <;>
    norm_num [volumeDerivatives, compLoop_, volumeDerivativesComp_,
      volumeDerivativesPressure_, flashForward_, flashBackward_, pForward_, pBackward_, Z1_,
      volume_, volalt_, mass_, pressure_, massIncrement_, one_norm, specificVolume_,
      sampleModel, drainingModel, feedFlash, sampleCell, sampleFlash,
      CellData.confirmVolumeDerivatives, setAt,
      List.range_succ, fin_div_fin_eq, isnan, isinf, abs_div, abs_of_nonneg,
      nan_add, add_nan, nan_sub, sub_nan, nan_mul, mul_nan, nan_div, div_nan, gt_nan,
      signedInf_zero]

/-- C22, amended: `volumeDerivatives` applies `confirmVolumeDerivatives` exactly when the
component loop ran through without an exception, and then the entry `dv(k)` of every
component is finite.  When it fails, the cell data is not confirmed by this call and its
pressures, masses, mass fractions and densities are as before, but `dv_dp` holds the
secant of the pressure part and `dv` holds the `NaN` or infinite entry of the component
that failed; only the entries of `dv` after that component are as before the call. -/
theorem volumeDerivatives_confirm (self : FVPressureCompositional) (globalIdx : Nat)
    (cellData : CellData) :
    ((volumeDerivatives self globalIdx cellData).thrown = none →
        (volumeDerivatives self globalIdx cellData).cellData
          = (compLoop_ self globalIdx cellData
              self.numComponents).cellData.confirmVolumeDerivatives ∧
        (volumeDerivatives self globalIdx cellData).cellData.volumeDerivativesAvailable_
          = true ∧
        ∀ k, k < self.numComponents →
          isfinite ((volumeDerivatives self globalIdx cellData).cellData.dv k) = true) ∧
      (∀ e, (volumeDerivatives self globalIdx cellData).thrown = some e →
        (volumeDerivatives self globalIdx cellData).cellData
          = (compLoop_ self globalIdx cellData self.numComponents).cellData ∧
        (volumeDerivatives self globalIdx cellData).cellData.volumeDerivativesAvailable_
          = cellData.volumeDerivativesAvailable_ ∧
        (volumeDerivatives self globalIdx cellData).cellData.pressure = cellData.pressure ∧
        (volumeDerivatives self globalIdx cellData).cellData.massConcentration
          = cellData.massConcentration ∧
        (volumeDerivatives self globalIdx cellData).cellData.phaseMassFraction
          = cellData.phaseMassFraction ∧
        (volumeDerivatives self globalIdx cellData).cellData.density = cellData.density ∧
        (volumeDerivatives self globalIdx cellData).cellData.dv_dp
          = (volumeDerivativesPressure_ self globalIdx cellData).2.dv_dp ∧
        ∃ k, k < self.numComponents ∧
          isfinite ((volumeDerivatives self globalIdx cellData).cellData.dv k) = false ∧
          ∀ j, k < j →
            (volumeDerivatives self globalIdx cellData).cellData.dv j = cellData.dv j) := by
  obtain ⟨_, hnone, hsome⟩ := compLoop_checked self globalIdx cellData self.numComponents
  obtain ⟨f1, f2, f3, f4, f5⟩ := compLoop_frame self globalIdx cellData self.numComponents
  have hdp := compLoop_dv_dp self globalIdx cellData self.numComponents
  unfold volumeDerivatives
  simp only []
  cases ht : (compLoop_ self globalIdx cellData self.numComponents).thrown with
  | none =>
    refine ⟨fun _ => ⟨rfl, rfl, hnone ht⟩, ?_⟩
    intro e he
    exact absurd he (by simp)
  | some e0 =>
    refine ⟨fun h => absurd h (by simp), ?_⟩
    intro e _
    obtain ⟨_, k, hk, hnf, _, hafter⟩ := hsome e0 ht
    exact ⟨rfl, f5, f1, f2, f3, f4, hdp, k, hk, hnf, hafter⟩

/-- C23: the constructor of `FVPressureCompositional` fails with the `NotImplemented` error
if and only if the pressure formulation `pressureType` is neither `pw` nor `pn`; it raises
no other exception, and for `pw` and `pn` it returns the object. -/
theorem construct_throws_iff (input : ConstructorInput) :
    (construct input
        = Except.error (DuneException.NotImplemented "Pressure type not supported!") ↔
      (input.pressureType ≠ input.pw ∧ input.pressureType ≠ input.pn)) ∧
      (∀ e, construct input = Except.error e →
        e = DuneException.NotImplemented "Pressure type not supported!") ∧
      ((input.pressureType = input.pw ∨ input.pressureType = input.pn) →
        construct input = Except.ok
          { updateEstimate_ := List.replicate input.NumPhases input.gridSize,
            ErrorTermFactor_ := input.ErrorTermFactor,
            ErrorTermLowerBound_ := input.ErrorTermLowerBound,
            ErrorTermUpperBound_ := input.ErrorTermUpperBound }) := by
  unfold construct
  by_cases h : input.pressureType ≠ input.pw ∧ input.pressureType ≠ input.pn
  · simp only []
    rw [if_pos h]
    refine ⟨⟨fun _ => h, fun _ => rfl⟩, ?_, ?_⟩
    · intro e he
      exact (Except.error.inj he).symm
    · intro h2
      rcases h2 with h2 | h2
      · exact absurd h2 h.1
      · exact absurd h2 h.2
  · simp only []
    rw [if_neg h]
    refine ⟨⟨fun h2 => ?_, fun h2 => absurd h2 h⟩, ?_, fun _ => rfl⟩
    · exact absurd h2 (by simp)
    · intro e he
      exact absurd he (by simp)

/-- What one iteration of the capillarity loop does, in terms of the call of
`fluidState.update` it makes. -/
theorem flashLoopBody_spec (self : InitialMaterialLaws) (globalIdx : Nat) (maxiter : Int)
    (s : FlashLoopState) :
    ∃ c : FlashCall,
      (flashLoopBody_ self globalIdx maxiter s).updates = s.updates ++ [c] ∧
        (flashLoopBody_ self globalIdx maxiter s).fluidState = c.fluidState ∧
        (flashLoopBody_ self globalIdx maxiter s).pc = c.pc ∧
        (flashLoopBody_ self globalIdx maxiter s).pressure = c.pressure ∧
        (flashLoopBody_ self globalIdx maxiter s).iter
          = (if c.converged = true then maxiter else s.iter) + 1 ∧
        c.oldPc = s.pc ∧
        c.pressure = phasePressures_ self globalIdx s.pc s.pressure ∧
        c.fluidState = self.fluidStateUpdate s.fluidState (self.initConcentration globalIdx)
          c.pressure (self.porosity globalIdx) (self.temperatureAtPos globalIdx) ∧
        c.pc = self.pC globalIdx (c.fluidState.saturation self.wPhaseIdx) :=
  ⟨_, rfl, rfl, rfl, rfl, rfl, rfl, rfl, rfl, rfl⟩

/-- A loop whose condition is false does nothing, whatever the fuel. -/
theorem flashLoop_done (self : InitialMaterialLaws) (globalIdx : Nat) (maxiter : Int)
    (fuel : Nat) (s : FlashLoopState) (h : ¬ s.iter < maxiter) :
    flashLoop_ self globalIdx maxiter fuel s = s := by
  cases fuel with
  | zero => rfl
  | succ fuel =>
    show (if s.iter < maxiter then _ else s) = s
    rw [if_neg h]

theorem flashLoop_succ (self : InitialMaterialLaws) (globalIdx : Nat) (maxiter : Int)
    (fuel : Nat) (s : FlashLoopState) (h : s.iter < maxiter) :
    flashLoop_ self globalIdx maxiter (fuel + 1) s
      = flashLoop_ self globalIdx maxiter fuel (flashLoopBody_ self globalIdx maxiter s) := by
  show (if s.iter < maxiter then _ else s) = _
  rw [if_pos h]

/-- In both supported formulations the phase pressures of the capillarity loop differ by
the capillary pressure they were determined from. -/
theorem phasePressures_diff (self : InitialMaterialLaws) (globalIdx : Nat)
    (pressure : Nat → Scalar) (p q : ℚ) (hp : self.pressure globalIdx = fin p)
    (hwn : self.wPhaseIdx ≠ self.nPhaseIdx)
    (ht : self.pressureType = self.pw ∨ self.pressureType = self.pn) :
    phasePressures_ self globalIdx (fin q) pressure self.nPhaseIdx
      - phasePressures_ self globalIdx (fin q) pressure self.wPhaseIdx = fin q := by
  unfold phasePressures_
  by_cases h1 : self.pressureType = self.pw
  · rw [if_pos h1, setAt_same, NcpNewtonMethod.setAt_apply, if_neg hwn, setAt_same, hp, fin_add_fin,
      fin_sub_fin]
    congr 1
    ring
  · have h2 : self.pressureType = self.pn := by
      rcases ht with h | h
      · exact absurd h h1
      · exact h
    rw [if_neg h1, if_pos h2, setAt_same, NcpNewtonMethod.setAt_apply, if_neg hwn, setAt_same, hp,
      fin_sub_fin, fin_sub_fin]
    congr 1
    ring

/-- The capillarity loop unrolled: with fuel for three iterations or more it ends after
the first, the second or the third iteration, depending on the convergence criterion. -/
theorem capillarityLoop_unroll (self : InitialMaterialLaws) (globalIdx : Nat)
    (capillaryPressure : Scalar) (fluidState : DecFluidState) (fuel : Nat) :
    capillarityLoop_ self globalIdx capillaryPressure fluidState (fuel + 3) =
      if lt (fabs ((flashLoopStart_ capillaryPressure fluidState).pc
          - (flashLoopBody_ self globalIdx 3
              (flashLoopStart_ capillaryPressure fluidState)).pc)) (fin 10) = true then
        flashLoopBody_ self globalIdx 3 (flashLoopStart_ capillaryPressure fluidState)
      else if lt (fabs ((flashLoopBody_ self globalIdx 3
            (flashLoopStart_ capillaryPressure fluidState)).pc
          - (flashLoopBody_ self globalIdx 3 (flashLoopBody_ self globalIdx 3
              (flashLoopStart_ capillaryPressure fluidState))).pc)) (fin 10) = true then
        flashLoopBody_ self globalIdx 3 (flashLoopBody_ self globalIdx 3
          (flashLoopStart_ capillaryPressure fluidState))
      else
        flashLoopBody_ self globalIdx 3 (flashLoopBody_ self globalIdx 3
          (flashLoopBody_ self globalIdx 3 (flashLoopStart_ capillaryPressure fluidState))) := by
  have hiter : ∀ s : FlashLoopState, (flashLoopBody_ self globalIdx 3 s).iter
      = (if lt (fabs (s.pc - (flashLoopBody_ self globalIdx 3 s).pc)) (fin 10) = true
          then 3 else s.iter) + 1 := fun _ => rfl
  have i0 : (flashLoopStart_ capillaryPressure fluidState).iter = 0 := rfl
  unfold capillarityLoop_
  rw [show fuel + 3 = (fuel + 2) + 1 from rfl,
    flashLoop_succ self globalIdx 3 _ _ (by rw [i0]; norm_num)]
  by_cases h1 : lt (fabs ((flashLoopStart_ capillaryPressure fluidState).pc
      - (flashLoopBody_ self globalIdx 3
          (flashLoopStart_ capillaryPressure fluidState)).pc)) (fin 10) = true
  · rw [if_pos h1, flashLoop_done]
    rw [hiter, if_pos h1]
    norm_num
  · rw [if_neg h1]
    have e1 : (flashLoopBody_ self globalIdx 3
        (flashLoopStart_ capillaryPressure fluidState)).iter = 1 := by
      rw [hiter, if_neg h1, i0]
      norm_num
    rw [show fuel + 2 = (fuel + 1) + 1 from rfl,
      flashLoop_succ self globalIdx 3 _ _ (by rw [e1]; norm_num)]
    by_cases h2 : lt (fabs ((flashLoopBody_ self globalIdx 3
          (flashLoopStart_ capillaryPressure fluidState)).pc
        - (flashLoopBody_ self globalIdx 3 (flashLoopBody_ self globalIdx 3
            (flashLoopStart_ capillaryPressure fluidState))).pc)) (fin 10) = true
    · rw [if_pos h2, flashLoop_done]
      rw [hiter, if_pos h2]
      norm_num
    · rw [if_neg h2]
      have e2 : (flashLoopBody_ self globalIdx 3 (flashLoopBody_ self globalIdx 3
          (flashLoopStart_ capillaryPressure fluidState))).iter = 2 := by
        rw [hiter, if_neg h2, e1]
        norm_num
      rw [flashLoop_succ self globalIdx 3 _ _ (by rw [e2]; norm_num), flashLoop_done]
      rw [hiter, e2]
      split_ifs <;> norm_num

/-- C24: the capillarity loop of `initialMaterialLaws` for a concentration initial condition
ends within three iterations, without an exception, and more fuel than for three
iterations changes nothing.  It calls `fluidState.update` once, twice or three times: the
calls `c1`, `c2`, `c3` are chained through the capillary pressure and the fluid state, the
loop stops after the first call with `|oldPc - pc| < 10`, and after the third call in any
case; the fluid state kept is that of the last call made, to which
`calculateMassConcentration` is then applied.  In both formulations `pw` and `pn`, for a
finite pressure and capillary pressure, the phase pressures of every call satisfy
`pressure[nPhaseIdx] - pressure[wPhaseIdx] = oldPc`. -/
theorem capillarityLoop_bounded (self : InitialMaterialLaws) (globalIdx : Nat)
    (capillaryPressure : Scalar) (fluidState : DecFluidState) :
    (∀ fuel, capillarityLoop_ self globalIdx capillaryPressure fluidState (fuel + 3)
        = capillarityLoop_ self globalIdx capillaryPressure fluidState 3) ∧
      ¬ ((capillarityLoop_ self globalIdx capillaryPressure fluidState 3).iter < 3) ∧
      initialFluidState_ self globalIdx capillaryPressure fluidState 3
        = self.calculateMassConcentration
            (capillarityLoop_ self globalIdx capillaryPressure fluidState 3).fluidState
            (self.porosity globalIdx) ∧
      ∃ c1 c2 c3 : FlashCall,
        (c1.oldPc = capillaryPressure ∧ c2.oldPc = c1.pc ∧ c3.oldPc = c2.pc) ∧
        (c1.pressure = phasePressures_ self globalIdx c1.oldPc (fun _ => fin 0) ∧
          c2.pressure = phasePressures_ self globalIdx c2.oldPc c1.pressure ∧
          c3.pressure = phasePressures_ self globalIdx c3.oldPc c2.pressure) ∧
        (c1.fluidState = self.fluidStateUpdate fluidState (self.initConcentration globalIdx)
            c1.pressure (self.porosity globalIdx) (self.temperatureAtPos globalIdx) ∧
          c2.fluidState = self.fluidStateUpdate c1.fluidState
            (self.initConcentration globalIdx) c2.pressure (self.porosity globalIdx)
            (self.temperatureAtPos globalIdx) ∧
          c3.fluidState = self.fluidStateUpdate c2.fluidState
            (self.initConcentration globalIdx) c3.pressure (self.porosity globalIdx)
            (self.temperatureAtPos globalIdx)) ∧
        (∀ c, c = c1 ∨ c = c2 ∨ c = c3 →
          c.pc = self.pC globalIdx (c.fluidState.saturation self.wPhaseIdx)) ∧
        (∀ c, c = c1 ∨ c = c2 ∨ c = c3 → ∀ p q : ℚ,
          self.pressure globalIdx = fin p → c.oldPc = fin q →
          self.wPhaseIdx ≠ self.nPhaseIdx →
          (self.pressureType = self.pw ∨ self.pressureType = self.pn) →
          c.pressure self.nPhaseIdx - c.pressure self.wPhaseIdx = fin q) ∧
        ((c1.converged = true ∧
            (capillarityLoop_ self globalIdx capillaryPressure fluidState 3).updates = [c1] ∧
            (capillarityLoop_ self globalIdx capillaryPressure fluidState 3).fluidState
              = c1.fluidState) ∨
          (c1.converged = false ∧ c2.converged = true ∧
            (capillarityLoop_ self globalIdx capillaryPressure fluidState 3).updates
              = [c1, c2] ∧
            (capillarityLoop_ self globalIdx capillaryPressure fluidState 3).fluidState
              = c2.fluidState) ∨
          (c1.converged = false ∧ c2.converged = false ∧
            (capillarityLoop_ self globalIdx capillaryPressure fluidState 3).updates
              = [c1, c2, c3] ∧
            (capillarityLoop_ self globalIdx capillaryPressure fluidState 3).fluidState
              = c3.fluidState)) := by
  have hiter : ∀ s : FlashLoopState, (flashLoopBody_ self globalIdx 3 s).iter
      = (if lt (fabs (s.pc - (flashLoopBody_ self globalIdx 3 s).pc)) (fin 10) = true
          then 3 else s.iter) + 1 := fun _ => rfl
  have hR := capillarityLoop_unroll self globalIdx capillaryPressure fluidState 0
  rw [show (0 : Nat) + 3 = 3 from rfl] at hR
  obtain ⟨c1, u1, f1, p1, q1, _, o1, pr1, fs1, pc1⟩ :=
    flashLoopBody_spec self globalIdx 3 (flashLoopStart_ capillaryPressure fluidState)
  obtain ⟨c2, u2, f2, p2, q2, _, o2, pr2, fs2, pc2⟩ :=
    flashLoopBody_spec self globalIdx 3
      (flashLoopBody_ self globalIdx 3 (flashLoopStart_ capillaryPressure fluidState))
  obtain ⟨c3, u3, f3, p3, q3, _, o3, pr3, fs3, pc3⟩ :=
    flashLoopBody_spec self globalIdx 3
      (flashLoopBody_ self globalIdx 3
        (flashLoopBody_ self globalIdx 3 (flashLoopStart_ capillaryPressure fluidState)))
  have hc1 : c1.converged = lt (fabs ((flashLoopStart_ capillaryPressure fluidState).pc
      - (flashLoopBody_ self globalIdx 3
          (flashLoopStart_ capillaryPressure fluidState)).pc)) (fin 10) := by
    unfold FlashCall.converged
    rw [o1, p1]
  have hc2 : c2.converged = lt (fabs ((flashLoopBody_ self globalIdx 3
        (flashLoopStart_ capillaryPressure fluidState)).pc
      - (flashLoopBody_ self globalIdx 3 (flashLoopBody_ self globalIdx 3
          (flashLoopStart_ capillaryPressure fluidState))).pc)) (fin 10) := by
    unfold FlashCall.converged
    rw [o2, p2]
  have hu0 : (flashLoopStart_ capillaryPressure fluidState).updates = [] := rfl
  have hdiff : ∀ c : FlashCall, ∀ prev : Nat → Scalar,
      c.pressure = phasePressures_ self globalIdx c.oldPc prev → ∀ p q : ℚ,
      self.pressure globalIdx = fin p → c.oldPc = fin q →
      self.wPhaseIdx ≠ self.nPhaseIdx →
      (self.pressureType = self.pw ∨ self.pressureType = self.pn) →
      c.pressure self.nPhaseIdx - c.pressure self.wPhaseIdx = fin q := by
    intro c prev hc p q hp hq hwn ht
    rw [hc, hq]
    exact phasePressures_diff self globalIdx prev p q hp hwn ht
  have e1 : c1.pressure = phasePressures_ self globalIdx c1.oldPc (fun _ => fin 0) := by
    rw [pr1, o1]
    rfl
  have e2 : c2.pressure = phasePressures_ self globalIdx c2.oldPc c1.pressure := by
    rw [pr2, o2, p1, q1]
  have e3 : c3.pressure = phasePressures_ self globalIdx c3.oldPc c2.pressure := by
    rw [pr3, o3, p2, q2]
  refine ⟨fun fuel =>
      (capillarityLoop_unroll self globalIdx capillaryPressure fluidState fuel).trans
        hR.symm, ?_, rfl, c1, c2, c3, ⟨o1, by rw [o2, p1], by rw [o3, p2]⟩, ⟨e1, e2, e3⟩,
      ⟨fs1, by rw [fs2, f1], by rw [fs3, f2]⟩, ?_, ?_, ?_⟩
  · rw [hR]
    split_ifs with h1 h2
    · rw [hiter, if_pos h1]
      norm_num
    · rw [hiter, if_pos h2]
      norm_num
    · rw [hiter]
      split_ifs
      · norm_num
      · rw [hiter, if_neg h2, hiter, if_neg h1]
        show ¬ ((0 : Int) + 1 + 1 + 1 < 3)
        norm_num
  · intro c hc
    rcases hc with h | h | h
    · rw [h]; exact pc1
    · rw [h]; exact pc2
    · rw [h]; exact pc3
  · intro c hc
    rcases hc with h | h | h
    · rw [h]; exact hdiff c1 _ e1
    · rw [h]; exact hdiff c2 _ e2
    · rw [h]; exact hdiff c3 _ e3
  · rw [hR]
    by_cases h1 : lt (fabs ((flashLoopStart_ capillaryPressure fluidState).pc
        - (flashLoopBody_ self globalIdx 3
            (flashLoopStart_ capillaryPressure fluidState)).pc)) (fin 10) = true
    · rw [if_pos h1]
      left
      refine ⟨by rw [hc1]; exact h1, ?_, f1⟩
      rw [u1, hu0]
      rfl
    · rw [if_neg h1]
      have n1 : c1.converged = false := by
        rw [hc1]
        simpa using h1
      by_cases h2 : lt (fabs ((flashLoopBody_ self globalIdx 3
            (flashLoopStart_ capillaryPressure fluidState)).pc
          - (flashLoopBody_ self globalIdx 3 (flashLoopBody_ self globalIdx 3
              (flashLoopStart_ capillaryPressure fluidState))).pc)) (fin 10) = true
      · rw [if_pos h2]
        right
        left
        refine ⟨n1, by rw [hc2]; exact h2, ?_, f2⟩
        rw [u2, u1, hu0]
        rfl
      · rw [if_neg h2]
        right
        right
        have n2 : c2.converged = false := by
          rw [hc2]
          simpa using h2
        refine ⟨n1, n2, ?_, f3⟩
        rw [u3, u2, u1, hu0]
        rfl

end FVPressureCompositional

/-! ## The black-oil volume variables: dependence on the inputs -/

namespace BlackOilVolumeVariables

open Scalar

/-- The source's `update` in terms of its stages. -/
theorem update_eq_stages (FS : FluidSystem) (self : BlackOilVolumeVariables)
    (elemCtx : ElementContext) :
    update FS self elemCtx =
      if (!(ge (XoG_ FS (clippedPressure_ FS
              ((compositionState_ FS self elemCtx).pressure FS.oPhaseIdx))) (fin 0)
            && ge (fin 1 - XoG_ FS (clippedPressure_ FS
              ((compositionState_ FS self elemCtx).pressure FS.oPhaseIdx))) (fin 0))) = true
      then none
      else some
        { fluidState_ := finalState_ FS self elemCtx,
          relativePermeability_ := elemCtx.relativePermeabilities (finalState_ FS self elemCtx),
          porosity_ := elemCtx.porosity,
          intrinsicPerm_ := elemCtx.intrinsicPermeability } := rfl

/-- C26, evaluated at an admissible input (`XoG = 1/8`, `MG = 0.016`, `MO = 0.16`): `update`
passes its assertion and stores for the oil phase `xoG = 10/71` and `xoO = 7/8`, while
the mole fractions that belong to the mass fractions `(1/8, 7/8)` are `10/17` and
`7/17`. -/
theorem update_oil_moleFractions_sample :
    XoG_ sampleFluidSystem (fin 50) = fin (1/8) ∧
      sampleFluidSystem.molarMass sampleFluidSystem.gPhaseIdx = fin (2/125) ∧
      sampleFluidSystem.molarMass sampleFluidSystem.oPhaseIdx = fin (4/25) ∧
      (update sampleFluidSystem zero sampleContext).map
        (fun vv => vv.fluidState_.moleFraction 1 2) = some (fin (10/71)) ∧
      moleFractionGasSpec (1/8) (2/125) (4/25) = 10/17 ∧
      (update sampleFluidSystem zero sampleContext).map
        (fun vv => vv.fluidState_.moleFraction 1 1) = some (fin (7/8)) ∧
      moleFractionOilSpec (1/8) (2/125) (4/25) = 7/17 ∧
      fin (10/71) ≠ fin (10/17) ∧ fin (7/8) ≠ fin (7/17) := by
  refine ⟨?_, ?_, ?_, ?_, ?_, ?_, ?_, ?_, ?_⟩ <;>
    norm_num [update, sampleFluidSystem, sampleContext, zero, updateSaturations_,
      updatePressures_, zeroMoleFractions_, updateViscosities_, List.range_succ,
      FluidState.setTemperature, FluidState.setSaturation, FluidState.setPressure,
      FluidState.setMoleFraction, FluidState.setViscosity, FluidState.setDensity, setAt,
      gt, fin_div_fin_eq, XoG_, rhoo_, moleFractionGasSpec, moleFractionOilSpec]

/-- The saturation loop over the first `m` phases: the saturations it stores, and the
temperature it leaves alone. -/
theorem saturationLoop_state (FS : FluidSystem) (priVars : Nat → Scalar) (fs : FluidState)
    (m : Nat) :
    (∀ j, ((List.range m).foldl
        (fun (acc : FluidState × Scalar) phaseIdx =>
          (acc.1.setSaturation phaseIdx (priVars (FS.saturation0Idx + phaseIdx)),
           acc.2 + priVars (FS.saturation0Idx + phaseIdx)))
        (fs, fin 0)).1.saturation j =
        if j < m then priVars (FS.saturation0Idx + j) else fs.saturation j) ∧
      ((List.range m).foldl
        (fun (acc : FluidState × Scalar) phaseIdx =>
          (acc.1.setSaturation phaseIdx (priVars (FS.saturation0Idx + phaseIdx)),
           acc.2 + priVars (FS.saturation0Idx + phaseIdx)))
        (fs, fin 0)).1.temperature = fs.temperature := by
  induction m with
  | zero => simp
  | succ m ih =>
    obtain ⟨ih1, ih2⟩ := ih
    rw [List.range_succ, List.foldl_append]
    simp only [List.foldl_cons, List.foldl_nil]
    refine ⟨?_, ih2⟩
    intro j
    rw [setSaturation_saturation]
    by_cases hj : j = m
    · subst hj
      rw [if_pos rfl, if_pos (Nat.lt_succ_self j)]
    · rw [if_neg hj, ih1 j]
      have hiff : j < m + 1 ↔ j < m := by omega
      rw [if_congr hiff rfl rfl]

/-- The sum the saturation loop accumulates does not depend on the fluid state it
started from. -/
theorem saturationLoop_sum (FS : FluidSystem) (priVars : Nat → Scalar) (a b : FluidState)
    (m : Nat) :
    ((List.range m).foldl
        (fun (acc : FluidState × Scalar) phaseIdx =>
          (acc.1.setSaturation phaseIdx (priVars (FS.saturation0Idx + phaseIdx)),
           acc.2 + priVars (FS.saturation0Idx + phaseIdx)))
        (a, fin 0)).2 =
      ((List.range m).foldl
        (fun (acc : FluidState × Scalar) phaseIdx =>
          (acc.1.setSaturation phaseIdx (priVars (FS.saturation0Idx + phaseIdx)),
           acc.2 + priVars (FS.saturation0Idx + phaseIdx)))
        (b, fin 0)).2 := by
  induction m with
  | zero => rfl
  | succ m ih =>
    rw [List.range_succ, List.foldl_append, List.foldl_append]
    simp only [List.foldl_cons, List.foldl_nil]
    rw [ih]

/-- The saturation part of `update` overwrites the saturations of all phases of the model
with values that depend on the primary variables only. -/
theorem updateSaturations_agree (FS : FluidSystem) (priVars : Nat → Scalar)
    (a b : FluidState) (hn : 0 < FS.numPhases) (ht : a.temperature = b.temperature) :
    FluidState.agreeSaturations FS.numPhases (updateSaturations_ FS priVars a)
      (updateSaturations_ FS priVars b) := by
  obtain ⟨a1, a2⟩ := saturationLoop_state FS priVars a (FS.numPhases - 1)
  obtain ⟨b1, b2⟩ := saturationLoop_state FS priVars b (FS.numPhases - 1)
  have hsum := saturationLoop_sum FS priVars a b (FS.numPhases - 1)
  unfold updateSaturations_
  refine ⟨?_, ?_⟩
  · exact (a2.trans ht).trans b2.symm
  · intro phaseIdx hph
    simp only []
    rw [setSaturation_saturation, setSaturation_saturation, hsum]
    by_cases hl : phaseIdx = FS.numPhases - 1
    · rw [if_pos hl, if_pos hl]
    · rw [if_neg hl, if_neg hl, a1, b1, if_pos (by omega), if_pos (by omega)]

/-- The state of `update` after its pressure loop holds a temperature, saturations and
pressures that do not depend on the state the object held before, for a capillary
pressure law that reads the temperature and the saturations only. -/
theorem pressureState_agree (FS : FluidSystem) (self1 self2 : BlackOilVolumeVariables)
    (elemCtx : ElementContext) (hn : 0 < FS.numPhases)
    (hpc : ∀ a b, FluidState.agreeSaturations FS.numPhases a b →
      ∀ phaseIdx, phaseIdx < FS.numPhases →
        elemCtx.capillaryPressures a phaseIdx = elemCtx.capillaryPressures b phaseIdx) :
    FluidState.agreeSaturations FS.numPhases (pressureState_ FS self1 elemCtx)
        (pressureState_ FS self2 elemCtx) ∧
      ∀ phaseIdx, phaseIdx < FS.numPhases →
        (pressureState_ FS self1 elemCtx).pressure phaseIdx
          = (pressureState_ FS self2 elemCtx).pressure phaseIdx := by
  have hs := updateSaturations_agree FS elemCtx.primaryVars
    (self1.fluidState_.setTemperature elemCtx.temperature)
    (self2.fluidState_.setTemperature elemCtx.temperature) hn rfl
  unfold pressureState_
  simp only []
  refine ⟨⟨?_, ?_⟩, ?_⟩
  · rw [(updatePressures_fields FS _ _ _).2, (updatePressures_fields FS _ _ _).2]
    exact hs.1
  · intro phaseIdx hph
    rw [(updatePressures_fields FS _ _ _).1, (updatePressures_fields FS _ _ _).1]
    exact hs.2 phaseIdx hph
  · intro phaseIdx hph
    rw [updatePressures_val FS _ _ _ phaseIdx hph, updatePressures_val FS _ _ _ phaseIdx hph,
      hpc _ _ hs phaseIdx hph, hpc _ _ hs 0 hn]

/-- The fields of the state `compositionState_`. -/
theorem compositionState_fields (FS : FluidSystem) (self : BlackOilVolumeVariables)
    (elemCtx : ElementContext) :
    (compositionState_ FS self elemCtx).temperature
        = (pressureState_ FS self elemCtx).temperature ∧
      (compositionState_ FS self elemCtx).saturation
        = (pressureState_ FS self elemCtx).saturation ∧
      (compositionState_ FS self elemCtx).pressure
        = (pressureState_ FS self elemCtx).pressure ∧
      ∀ phaseIdx compIdx, phaseIdx < FS.numPhases → compIdx < FS.numComponents →
        (compositionState_ FS self elemCtx).moleFraction phaseIdx compIdx =
          if phaseIdx = FS.oPhaseIdx ∧ compIdx = FS.oCompIdx then
            xoO_ FS (clippedPressure_ FS
              ((pressureState_ FS self elemCtx).pressure FS.oPhaseIdx))
          else if phaseIdx = FS.oPhaseIdx ∧ compIdx = FS.gCompIdx then
            xoG_ FS (clippedPressure_ FS
              ((pressureState_ FS self elemCtx).pressure FS.oPhaseIdx))
          else if phaseIdx = FS.wPhaseIdx ∧ compIdx = FS.wCompIdx then fin 1
          else if phaseIdx = FS.gPhaseIdx ∧ compIdx = FS.gCompIdx then fin 1
          else fin 0 := by
  obtain ⟨z1, z2, z3⟩ := zeroMoleFractions_fields FS (pressureState_ FS self elemCtx)
  refine ⟨z3, z1, z2, ?_⟩
  intro phaseIdx compIdx hph hc
  rw [← zeroMoleFractions_val FS (pressureState_ FS self elemCtx) phaseIdx compIdx hph hc,
    ← z2]
  rfl

/-- The state `compositionState_` of `update` holds a temperature, saturations, pressures
and mole fractions that do not depend on the state the object held before. -/
theorem compositionState_agree (FS : FluidSystem) (self1 self2 : BlackOilVolumeVariables)
    (elemCtx : ElementContext) (ho : FS.oPhaseIdx < FS.numPhases)
    (hpc : ∀ a b, FluidState.agreeSaturations FS.numPhases a b →
      ∀ phaseIdx, phaseIdx < FS.numPhases →
        elemCtx.capillaryPressures a phaseIdx = elemCtx.capillaryPressures b phaseIdx) :
    FluidState.agreeThermodynamic FS.numPhases FS.numComponents
      (compositionState_ FS self1 elemCtx) (compositionState_ FS self2 elemCtx) := by
  obtain ⟨⟨ht, hs⟩, hp⟩ := pressureState_agree FS self1 self2 elemCtx (by omega) hpc
  obtain ⟨a1, a2, a3, a4⟩ := compositionState_fields FS self1 elemCtx
  obtain ⟨b1, b2, b3, b4⟩ := compositionState_fields FS self2 elemCtx
  refine ⟨⟨?_, ?_⟩, ?_, ?_⟩
  · rw [a1, b1]
    exact ht
  · intro phaseIdx hph
    rw [a2, b2]
    exact hs phaseIdx hph
  · intro phaseIdx hph
    rw [a3, b3]
    exact hp phaseIdx hph
  · intro phaseIdx compIdx hph hc
    rw [a4 phaseIdx compIdx hph hc, b4 phaseIdx compIdx hph hc, hp FS.oPhaseIdx ho]

/-- The viscosity loop over the first `m` phases, run on two fluid states and parameter
caches that hold the same temperature, saturations, pressures and mole fractions, stores
the same viscosities, for a fluid system that reads these fields only. -/
theorem viscosityLoop_agree (FS : FluidSystem) (a b pa pb : FluidState)
    (hvisc : ∀ a b c d,
      FluidState.agreeThermodynamic FS.numPhases FS.numComponents a b →
      FluidState.agreeThermodynamic FS.numPhases FS.numComponents c d →
      ∀ phaseIdx, phaseIdx < FS.numPhases →
        FS.viscosity a c phaseIdx = FS.viscosity b d phaseIdx)
    (hab : FluidState.agreeThermodynamic FS.numPhases FS.numComponents a b)
    (hp : FluidState.agreeThermodynamic FS.numPhases FS.numComponents pa pb)
    (m : Nat) (hm : m ≤ FS.numPhases) :
    FluidState.agreeThermodynamic FS.numPhases FS.numComponents
        ((List.range m).foldl
          (fun acc phaseIdx => acc.setViscosity phaseIdx (FS.viscosity acc pa phaseIdx)) a)
        ((List.range m).foldl
          (fun acc phaseIdx => acc.setViscosity phaseIdx (FS.viscosity acc pb phaseIdx)) b) ∧
      ∀ phaseIdx, phaseIdx < m →
        ((List.range m).foldl
          (fun acc phaseIdx => acc.setViscosity phaseIdx (FS.viscosity acc pa phaseIdx))
          a).viscosity phaseIdx
        = ((List.range m).foldl
          (fun acc phaseIdx => acc.setViscosity phaseIdx (FS.viscosity acc pb phaseIdx))
          b).viscosity phaseIdx := by
  induction m with
  | zero =>
    refine ⟨hab, ?_⟩
    intro phaseIdx hph
    omega
  | succ m ih =>
    obtain ⟨ih1, ih2⟩ := ih (by omega)
    rw [List.range_succ, List.foldl_append, List.foldl_append]
    simp only [List.foldl_cons, List.foldl_nil]
    refine ⟨ih1, ?_⟩
    intro phaseIdx hph
    show setAt _ m _ phaseIdx = setAt _ m _ phaseIdx
    rw [NcpNewtonMethod.setAt_apply, NcpNewtonMethod.setAt_apply]
    by_cases e : phaseIdx = m
    · rw [if_pos e, if_pos e]
      exact hvisc _ _ _ _ ih1 hp m (by omega)
    · rw [if_neg e, if_neg e]
      exact ih2 phaseIdx (by omega)

/-- The viscosities and densities of the state `finalState_`. -/
theorem finalState_fields (FS : FluidSystem) (self : BlackOilVolumeVariables)
    (elemCtx : ElementContext) :
    (finalState_ FS self elemCtx).viscosity
        = (updateViscosities_ FS (compositionState_ FS self elemCtx)
            (compositionState_ FS self elemCtx)).viscosity ∧
      (finalState_ FS self elemCtx).density
        = setAt (setAt (setAt
            (updateViscosities_ FS (compositionState_ FS self elemCtx)
              (compositionState_ FS self elemCtx)).density
            FS.oPhaseIdx
            (rhooUndersaturated_ FS ((compositionState_ FS self elemCtx).pressure FS.oPhaseIdx)))
            FS.wPhaseIdx
            (FS.density
              ((updateViscosities_ FS (compositionState_ FS self elemCtx)
                (compositionState_ FS self elemCtx)).setDensity FS.oPhaseIdx
                (rhooUndersaturated_ FS
                  ((compositionState_ FS self elemCtx).pressure FS.oPhaseIdx)))
              (compositionState_ FS self elemCtx) FS.wPhaseIdx))
            FS.gPhaseIdx
            (FS.surfaceDensity FS.gPhaseIdx
              / FS.gasFormationVolumeFactor (clippedPressure_ FS
                  ((compositionState_ FS self elemCtx).pressure FS.oPhaseIdx))) :=
  ⟨rfl, rfl⟩

/-- C25: for a fluid system whose phases are the water, oil and gas phase, a capillary
pressure law that reads the temperature and the saturations, viscosity and density
functions that read the temperature, saturations, pressures and mole fractions, and a
relative permeability law that reads the fields of the phases and components of the
model, two calls of `update` with the same fluid system and the same element context
(primary variables, problem parameters, laws) on objects in any two states either both
fail the assertion or both pass it, and then they leave the same temperature, the same
saturation, pressure, viscosity and density of every phase, the same mole fraction of
every component in every phase, the same relative permeabilities, porosity and intrinsic
permeability: none of these fields keeps a value from before the call. -/
theorem update_function_of_inputs (FS : FluidSystem) (self1 self2 : BlackOilVolumeVariables)
    (elemCtx : ElementContext)
    (hphases : ∀ phaseIdx, phaseIdx < FS.numPhases →
      phaseIdx = FS.wPhaseIdx ∨ phaseIdx = FS.oPhaseIdx ∨ phaseIdx = FS.gPhaseIdx)
    (ho : FS.oPhaseIdx < FS.numPhases)
    (hpc : ∀ a b, FluidState.agreeSaturations FS.numPhases a b →
      ∀ phaseIdx, phaseIdx < FS.numPhases →
        elemCtx.capillaryPressures a phaseIdx = elemCtx.capillaryPressures b phaseIdx)
    (hvisc : ∀ a b c d,
      FluidState.agreeThermodynamic FS.numPhases FS.numComponents a b →
      FluidState.agreeThermodynamic FS.numPhases FS.numComponents c d →
      ∀ phaseIdx, phaseIdx < FS.numPhases →
        FS.viscosity a c phaseIdx = FS.viscosity b d phaseIdx)
    (hdens : ∀ a b c d,
      FluidState.agreeThermodynamic FS.numPhases FS.numComponents a b →
      FluidState.agreeThermodynamic FS.numPhases FS.numComponents c d →
      ∀ phaseIdx, phaseIdx < FS.numPhases →
        FS.density a c phaseIdx = FS.density b d phaseIdx)
    (hkr : ∀ a b, FluidState.agree FS.numPhases FS.numComponents a b →
      ∀ phaseIdx, phaseIdx < FS.numPhases →
        elemCtx.relativePermeabilities a phaseIdx
          = elemCtx.relativePermeabilities b phaseIdx) :
    (update FS self1 elemCtx).isSome = (update FS self2 elemCtx).isSome ∧
      ∀ vv1 vv2, update FS self1 elemCtx = some vv1 → update FS self2 elemCtx = some vv2 →
        FluidState.agree FS.numPhases FS.numComponents vv1.fluidState_ vv2.fluidState_ ∧
          (∀ phaseIdx, phaseIdx < FS.numPhases →
            vv1.relativePermeability_ phaseIdx = vv2.relativePermeability_ phaseIdx) ∧
          vv1.porosity_ = vv2.porosity_ ∧ vv1.intrinsicPerm_ = vv2.intrinsicPerm_ := by
  have hTD := compositionState_agree FS self1 self2 elemCtx ho hpc
  have hpo : (compositionState_ FS self1 elemCtx).pressure FS.oPhaseIdx
      = (compositionState_ FS self2 elemCtx).pressure FS.oPhaseIdx := hTD.2.1 _ ho
  have hV : FluidState.agreeThermodynamic FS.numPhases FS.numComponents
        (updateViscosities_ FS (compositionState_ FS self1 elemCtx)
          (compositionState_ FS self1 elemCtx))
        (updateViscosities_ FS (compositionState_ FS self2 elemCtx)
          (compositionState_ FS self2 elemCtx)) ∧
      ∀ phaseIdx, phaseIdx < FS.numPhases →
        (updateViscosities_ FS (compositionState_ FS self1 elemCtx)
          (compositionState_ FS self1 elemCtx)).viscosity phaseIdx
        = (updateViscosities_ FS (compositionState_ FS self2 elemCtx)
          (compositionState_ FS self2 elemCtx)).viscosity phaseIdx :=
    viscosityLoop_agree FS _ _ _ _ hvisc hTD hTD FS.numPhases (le_refl _)
  have hD : FluidState.agreeThermodynamic FS.numPhases FS.numComponents
      ((updateViscosities_ FS (compositionState_ FS self1 elemCtx)
        (compositionState_ FS self1 elemCtx)).setDensity FS.oPhaseIdx
        (rhooUndersaturated_ FS ((compositionState_ FS self1 elemCtx).pressure FS.oPhaseIdx)))
      ((updateViscosities_ FS (compositionState_ FS self2 elemCtx)
        (compositionState_ FS self2 elemCtx)).setDensity FS.oPhaseIdx
        (rhooUndersaturated_ FS ((compositionState_ FS self2 elemCtx).pressure FS.oPhaseIdx))) :=
    hV.1
  have hfinal : FluidState.agree FS.numPhases FS.numComponents
      (finalState_ FS self1 elemCtx) (finalState_ FS self2 elemCtx) := by
    refine ⟨hV.1, ?_, ?_⟩
    · intro phaseIdx hph
      rw [(finalState_fields FS self1 elemCtx).1, (finalState_fields FS self2 elemCtx).1]
      exact hV.2 phaseIdx hph
    · intro phaseIdx hph
      rw [(finalState_fields FS self1 elemCtx).2, (finalState_fields FS self2 elemCtx).2]
      rw [NcpNewtonMethod.setAt_apply, NcpNewtonMethod.setAt_apply,
        NcpNewtonMethod.setAt_apply]
      rw [NcpNewtonMethod.setAt_apply (setAt _ _ _) FS.gPhaseIdx,
        NcpNewtonMethod.setAt_apply (setAt _ _ _) FS.wPhaseIdx,
        NcpNewtonMethod.setAt_apply _ FS.oPhaseIdx]
      by_cases hg : phaseIdx = FS.gPhaseIdx
      · rw [if_pos hg, if_pos hg, hpo]
      · rw [if_neg hg, if_neg hg]
        by_cases hw : phaseIdx = FS.wPhaseIdx
        · rw [if_pos hw, if_pos hw]
          exact hdens _ _ _ _ hD hTD FS.wPhaseIdx (by rw [← hw]; exact hph)
        · rw [if_neg hw, if_neg hw]
          have hoo : phaseIdx = FS.oPhaseIdx := by
            rcases hphases phaseIdx hph with h | h | h
            · exact absurd h hw
            · exact h
            · exact absurd h hg
          rw [if_pos hoo, if_pos hoo, hpo]
  rw [update_eq_stages, update_eq_stages, hpo]
  by_cases c : (!(ge (XoG_ FS (clippedPressure_ FS
        ((compositionState_ FS self2 elemCtx).pressure FS.oPhaseIdx))) (fin 0)
      && ge (fin 1 - XoG_ FS (clippedPressure_ FS
        ((compositionState_ FS self2 elemCtx).pressure FS.oPhaseIdx))) (fin 0))) = true
  · rw [if_pos c, if_pos c]
    refine ⟨rfl, ?_⟩
    intro vv1 vv2 h1 _
    exact absurd h1 (by simp)
  · rw [if_neg c, if_neg c]
    refine ⟨rfl, ?_⟩
    intro vv1 vv2 h1 h2
    rw [← Option.some.inj h1, ← Option.some.inj h2]
    exact ⟨hfinal, fun phaseIdx hph => hkr _ _ hfinal phaseIdx hph, rfl, rfl⟩

/-- C25, at a concrete input: the sample fluid system and element context, called on an
object all of whose members are zero and on one all of whose members hold `7`. -/
theorem update_function_of_inputs_witness :
    ((∀ phaseIdx, phaseIdx < sampleFluidSystem.numPhases →
        phaseIdx = sampleFluidSystem.wPhaseIdx ∨ phaseIdx = sampleFluidSystem.oPhaseIdx ∨
          phaseIdx = sampleFluidSystem.gPhaseIdx) ∧
      sampleFluidSystem.oPhaseIdx < sampleFluidSystem.numPhases ∧
      (update sampleFluidSystem zero sampleContext).isSome = true) ∧
    ((update sampleFluidSystem zero sampleContext).isSome
        = (update sampleFluidSystem stale sampleContext).isSome ∧
      ∀ vv1 vv2, update sampleFluidSystem zero sampleContext = some vv1 →
        update sampleFluidSystem stale sampleContext = some vv2 →
        FluidState.agree sampleFluidSystem.numPhases sampleFluidSystem.numComponents
            vv1.fluidState_ vv2.fluidState_ ∧
          (∀ phaseIdx, phaseIdx < sampleFluidSystem.numPhases →
            vv1.relativePermeability_ phaseIdx = vv2.relativePermeability_ phaseIdx) ∧
          vv1.porosity_ = vv2.porosity_ ∧ vv1.intrinsicPerm_ = vv2.intrinsicPerm_) :=
  have hphases : ∀ phaseIdx, phaseIdx < sampleFluidSystem.numPhases →
      phaseIdx = sampleFluidSystem.wPhaseIdx ∨ phaseIdx = sampleFluidSystem.oPhaseIdx ∨
        phaseIdx = sampleFluidSystem.gPhaseIdx := by
    intro phaseIdx hph
    simp only [sampleFluidSystem] at hph ⊢
    omega
  have ho : sampleFluidSystem.oPhaseIdx < sampleFluidSystem.numPhases := by decide
  ⟨⟨hphases, ho, sample_update_isSome⟩,
    update_function_of_inputs sampleFluidSystem zero stale sampleContext hphases ho
      (fun _ _ _ _ _ => rfl) (fun _ _ _ _ _ _ _ _ => rfl) (fun _ _ _ _ _ _ _ _ => rfl)
      (fun _ _ h phaseIdx hph => h.1.1.2 phaseIdx hph)⟩

end BlackOilVolumeVariables

/-! ## The Richards volume variables: pressures and saturations -/

namespace RichardsVolumeVariables

open Scalar

/-- What `update` stores when its assertion holds: the pressures of the state
`pressureState_` and the saturations taken from the material law at that state. -/
theorem richards_update_fields (ctx : RichardsContext) (self vv : RichardsVolumeVariables)
    (h : update ctx self = some vv) :
    ctx.isLiquid (nonWettingPhaseIdx ctx) = false ∧
      vv.fluidState_.pressure = (pressureState_ ctx self).pressure ∧
      vv.fluidState_.saturation
        = setAt (setAt (pressureState_ ctx self).saturation ctx.wPhaseIdx
            (ctx.saturations (pressureState_ ctx self) ctx.wPhaseIdx))
          (nonWettingPhaseIdx ctx)
          (fin 1 - ctx.saturations (pressureState_ ctx self) ctx.wPhaseIdx) := by
  simp only [update, Option.ite_none_left_eq_some, Option.some.injEq] at h
  obtain ⟨hl, h⟩ := h
  subst h
  exact ⟨by simpa using hl, rfl, rfl⟩

/-- C27: when `update` passes its assertion, for a wetting phase index of `0` or `1` and
finite values of the pressure primary variable, the reference pressure, the capillary
pressures and the material law's wetting saturation: the stored wetting pressure is the
pressure primary variable; the stored non-wetting pressure is
`max(referencePressure, pW + (pC[n] - pC[w]))`, which is below neither of the two, with
`pC` computed for a fluid state with the wetting saturation `1` and the non-wetting
saturation `0`; the stored wetting saturation is the one the material law's `saturations`
gives for a fluid state that holds these two pressures, the non-wetting saturation is one
minus it, and the two sum to `1`. -/
theorem update_closure (ctx : RichardsContext) (self vv : RichardsVolumeVariables)
    (w r a b σ : ℚ) (hw : ctx.wPhaseIdx ≤ 1)
    (hpW : ctx.primaryVars ctx.pressureWIdx = fin w)
    (href : ctx.referencePressure = fin r)
    (hpCn : ctx.capillaryPressures (saturatedState_ ctx self) (nonWettingPhaseIdx ctx)
      = fin a)
    (hpCw : ctx.capillaryPressures (saturatedState_ ctx self) ctx.wPhaseIdx = fin b)
    (hsat : ctx.saturations (pressureState_ ctx self) ctx.wPhaseIdx = fin σ)
    (h : update ctx self = some vv) :
    vv.fluidState_.pressure ctx.wPhaseIdx = ctx.primaryVars ctx.pressureWIdx ∧
      vv.fluidState_.pressure (nonWettingPhaseIdx ctx)
        = stdMax ctx.referencePressure
            (ctx.primaryVars ctx.pressureWIdx
              + (ctx.capillaryPressures (saturatedState_ ctx self) (nonWettingPhaseIdx ctx)
                - ctx.capillaryPressures (saturatedState_ ctx self) ctx.wPhaseIdx)) ∧
      vv.fluidState_.pressure (nonWettingPhaseIdx ctx) = fin (max r (w + (a - b))) ∧
      r ≤ max r (w + (a - b)) ∧ w + (a - b) ≤ max r (w + (a - b)) ∧
      (saturatedState_ ctx self).saturation ctx.wPhaseIdx = fin 1 ∧
      (saturatedState_ ctx self).saturation (nonWettingPhaseIdx ctx) = fin 0 ∧
      (pressureState_ ctx self).pressure ctx.wPhaseIdx = vv.fluidState_.pressure ctx.wPhaseIdx ∧
      (pressureState_ ctx self).pressure (nonWettingPhaseIdx ctx)
        = vv.fluidState_.pressure (nonWettingPhaseIdx ctx) ∧
      vv.fluidState_.saturation ctx.wPhaseIdx
        = ctx.saturations (pressureState_ ctx self) ctx.wPhaseIdx ∧
      vv.fluidState_.saturation (nonWettingPhaseIdx ctx)
        = fin 1 - ctx.saturations (pressureState_ ctx self) ctx.wPhaseIdx ∧
      vv.fluidState_.saturation ctx.wPhaseIdx
        + vv.fluidState_.saturation (nonWettingPhaseIdx ctx) = fin 1 := by
  obtain ⟨_, hp, hs⟩ := richards_update_fields ctx self vv h
  have hne : ctx.wPhaseIdx ≠ nonWettingPhaseIdx ctx := by
    unfold nonWettingPhaseIdx
    omega
  have hpw : (pressureState_ ctx self).pressure ctx.wPhaseIdx
      = ctx.primaryVars ctx.pressureWIdx := by
    simp only [pressureState_, FluidState.setPressure, setAt, if_neg hne, if_true]
  have hpn : (pressureState_ ctx self).pressure (nonWettingPhaseIdx ctx)
      = stdMax ctx.referencePressure
          (ctx.primaryVars ctx.pressureWIdx
            + (ctx.capillaryPressures (saturatedState_ ctx self) (nonWettingPhaseIdx ctx)
              - ctx.capillaryPressures (saturatedState_ ctx self) ctx.wPhaseIdx)) := by
    simp only [pressureState_, FluidState.setPressure, setAt, if_true, pN_]
  have hsw : vv.fluidState_.saturation ctx.wPhaseIdx
      = ctx.saturations (pressureState_ ctx self) ctx.wPhaseIdx := by
    rw [hs]
    simp only [setAt, if_neg hne, if_true]
  have hsn : vv.fluidState_.saturation (nonWettingPhaseIdx ctx)
      = fin 1 - ctx.saturations (pressureState_ ctx self) ctx.wPhaseIdx := by
    rw [hs]
    simp only [setAt, if_true]
  refine ⟨by rw [hp, hpw], by rw [hp, hpn], ?_, le_max_left _ _, le_max_right _ _, ?_, ?_,
    by rw [hp], by rw [hp], hsw, hsn, ?_⟩
  · rw [hp, hpn, hpW, href, hpCn, hpCw, fin_sub_fin, fin_add_fin, stdMax_fin_fin]
  · simp only [saturatedState_, FluidState.setSaturation, setAt, if_neg hne, if_true]
  · simp only [saturatedState_, FluidState.setSaturation, setAt, if_true]
  · rw [hsw, hsn, hsat, fin_sub_fin, fin_add_fin]
    congr 1
    ring

/-- C27, at a concrete input: the wetting pressure `90000` is below the reference pressure
`100000`, and the material law gives the wetting saturation `9/10`. -/
theorem update_closure_witness :
    (sampleContext.wPhaseIdx ≤ 1 ∧
      sampleContext.primaryVars sampleContext.pressureWIdx = fin 90000 ∧
      sampleContext.referencePressure = fin 100000 ∧
      sampleContext.capillaryPressures (saturatedState_ sampleContext zero)
        (nonWettingPhaseIdx sampleContext) = fin 0 ∧
      sampleContext.capillaryPressures (saturatedState_ sampleContext zero)
        sampleContext.wPhaseIdx = fin 0 ∧
      sampleContext.saturations (pressureState_ sampleContext zero) sampleContext.wPhaseIdx
        = fin (9/10) ∧
      (update sampleContext zero).isSome = true) ∧
    ∀ vv, update sampleContext zero = some vv →
      vv.fluidState_.pressure sampleContext.wPhaseIdx
          = sampleContext.primaryVars sampleContext.pressureWIdx ∧
        vv.fluidState_.pressure (nonWettingPhaseIdx sampleContext)
          = stdMax sampleContext.referencePressure
              (sampleContext.primaryVars sampleContext.pressureWIdx
                + (sampleContext.capillaryPressures (saturatedState_ sampleContext zero)
                    (nonWettingPhaseIdx sampleContext)
                  - sampleContext.capillaryPressures (saturatedState_ sampleContext zero)
                    sampleContext.wPhaseIdx)) ∧
        vv.fluidState_.pressure (nonWettingPhaseIdx sampleContext)
          = fin (max 100000 (90000 + (0 - 0))) ∧
        (100000 : ℚ) ≤ max 100000 (90000 + (0 - 0)) ∧
        (90000 : ℚ) + (0 - 0) ≤ max 100000 (90000 + (0 - 0)) ∧
        (saturatedState_ sampleContext zero).saturation sampleContext.wPhaseIdx = fin 1 ∧
        (saturatedState_ sampleContext zero).saturation (nonWettingPhaseIdx sampleContext)
          = fin 0 ∧
        (pressureState_ sampleContext zero).pressure sampleContext.wPhaseIdx
          = vv.fluidState_.pressure sampleContext.wPhaseIdx ∧
        (pressureState_ sampleContext zero).pressure (nonWettingPhaseIdx sampleContext)
          = vv.fluidState_.pressure (nonWettingPhaseIdx sampleContext) ∧
        vv.fluidState_.saturation sampleContext.wPhaseIdx
          = sampleContext.saturations (pressureState_ sampleContext zero)
              sampleContext.wPhaseIdx ∧
        vv.fluidState_.saturation (nonWettingPhaseIdx sampleContext)
          = fin 1 - sampleContext.saturations (pressureState_ sampleContext zero)
              sampleContext.wPhaseIdx ∧
        vv.fluidState_.saturation sampleContext.wPhaseIdx
          + vv.fluidState_.saturation (nonWettingPhaseIdx sampleContext) = fin 1 :=
  have h1 : sampleContext.wPhaseIdx ≤ 1 := by decide
  have h2 : sampleContext.primaryVars sampleContext.pressureWIdx = fin 90000 := rfl
  have h3 : sampleContext.referencePressure = fin 100000 := rfl
  have h4 : sampleContext.capillaryPressures (saturatedState_ sampleContext zero)
      (nonWettingPhaseIdx sampleContext) = fin 0 := by
    norm_num [sampleContext, saturatedState_, zero, nonWettingPhaseIdx,
      FluidState.setSaturation, FluidState.setTemperature, setAt]
  have h5 : sampleContext.capillaryPressures (saturatedState_ sampleContext zero)
      sampleContext.wPhaseIdx = fin 0 := rfl
  have h6 : sampleContext.saturations (pressureState_ sampleContext zero)
      sampleContext.wPhaseIdx = fin (9/10) := by
    norm_num [sampleContext, pressureState_, pN_, saturatedState_, zero, nonWettingPhaseIdx,
      FluidState.setSaturation, FluidState.setTemperature, FluidState.setPressure, setAt,
      fin_div_fin_eq]
  ⟨⟨h1, h2, h3, h4, h5, h6, rfl⟩,
    fun vv h => update_closure sampleContext zero vv 90000 100000 0 0 (9/10) h1 h2 h3 h4 h5
      h6 h⟩

end RichardsVolumeVariables

/-! ## The compositional pressure model: the secants -/

namespace FVPressureCompositional

open Scalar

/-- For finite mass fractions and finite densities other than zero, the loop over the
phases computes the sum of `phaseMassFraction / density`. -/
theorem specificVolume_fin (n : Nat) (phaseMassFraction density : Nat → Scalar)
    (ν ρ : Nat → ℚ)
    (h : ∀ phaseIdx, phaseIdx < n →
      phaseMassFraction phaseIdx = fin (ν phaseIdx) ∧ density phaseIdx = fin (ρ phaseIdx) ∧
        ρ phaseIdx ≠ 0) :
    specificVolume_ n phaseMassFraction density
      = fin ((Finset.range n).sum (fun phaseIdx => ν phaseIdx / ρ phaseIdx)) := by
  unfold specificVolume_
  apply foldl_add_fin (fun phaseIdx => ν phaseIdx / ρ phaseIdx)
    (fun phaseIdx => phaseMassFraction phaseIdx / density phaseIdx) n
  intro phaseIdx hph
  obtain ⟨h1, h2, h3⟩ := h phaseIdx hph
  show phaseMassFraction phaseIdx / density phaseIdx = fin (ν phaseIdx / ρ phaseIdx)
  rw [h1, h2, fin_div_fin _ _ h3]

/-- The vector `mass` of `volumeDerivatives` holds the finite masses of the cell data. -/
theorem mass_fin (self : FVPressureCompositional) (cellData : CellData) (μ : Nat → ℚ)
    (hμ : ∀ k, k < self.numComponents → cellData.massConcentration k = fin (μ k))
    (k : Nat) (hk : k < self.numComponents) : mass_ self cellData k = fin (μ k) := by
  unfold mass_
  rw [if_pos hk, hμ k hk]

/-- C18: for a cell with finite masses `μ`, finite phase mass fractions `ν0` and finite
densities `ρ0` other than zero, `V0` is `(Σ |μ|) * Σ ν0 / ρ0`, the sums taken over the
components and over the phases.  `V1` is the same expression for the mass fractions `ν1`
and densities `ρ1` of the fluid state flashed with the feed fraction `mass[0] / Σ |μ|` of the
unchanged masses and with every phase pressure raised by `incp = 1e-2`.  Whenever
`(V1 - V0) / incp ≤ 0`, that value is the `dv_dp` the cell data holds after
`volumeDerivatives`. -/
theorem volumeDerivatives_forward_secant (self : FVPressureCompositional) (globalIdx : Nat)
    (cellData : CellData) (μ ν0 ρ0 ν1 ρ1 : Nat → ℚ)
    (hnc : 0 < self.numComponents)
    (hμ : ∀ k, k < self.numComponents → cellData.massConcentration k = fin (μ k))
    (h0 : ∀ phaseIdx, phaseIdx < self.numPhases →
      cellData.phaseMassFraction phaseIdx = fin (ν0 phaseIdx) ∧
        cellData.density phaseIdx = fin (ρ0 phaseIdx) ∧ ρ0 phaseIdx ≠ 0)
    (h1 : ∀ phaseIdx, phaseIdx < self.numPhases →
      (self.fluidStateUpdate self.fluidStateDefault
          (fin (μ 0) / fin ((Finset.range self.numComponents).sum (fun k => |μ k|)))
          (fun phaseIdx => fin (1/100)
            + (if phaseIdx < self.numPhases then cellData.pressure phaseIdx else fin 0))
          (self.porosity globalIdx) (self.temperatureAtPos globalIdx)).phaseMassFraction
          phaseIdx = fin (ν1 phaseIdx) ∧
        (self.fluidStateUpdate self.fluidStateDefault
          (fin (μ 0) / fin ((Finset.range self.numComponents).sum (fun k => |μ k|)))
          (fun phaseIdx => fin (1/100)
            + (if phaseIdx < self.numPhases then cellData.pressure phaseIdx else fin 0))
          (self.porosity globalIdx) (self.temperatureAtPos globalIdx)).density
          phaseIdx = fin (ρ1 phaseIdx) ∧
        ρ1 phaseIdx ≠ 0)
    (hle : ((Finset.range self.numComponents).sum (fun k => |μ k|)
          * (Finset.range self.numPhases).sum (fun phaseIdx => ν1 phaseIdx / ρ1 phaseIdx)
        - (Finset.range self.numComponents).sum (fun k => |μ k|)
          * (Finset.range self.numPhases).sum (fun phaseIdx => ν0 phaseIdx / ρ0 phaseIdx))
        / (1/100) ≤ 0) :
    (volumeDerivatives self globalIdx cellData).cellData.dv_dp
      = fin (((Finset.range self.numComponents).sum (fun k => |μ k|)
          * (Finset.range self.numPhases).sum (fun phaseIdx => ν1 phaseIdx / ρ1 phaseIdx)
        - (Finset.range self.numComponents).sum (fun k => |μ k|)
          * (Finset.range self.numPhases).sum (fun phaseIdx => ν0 phaseIdx / ρ0 phaseIdx))
        / (1/100)) := by
  have hnorm := one_norm_fin self.numComponents (mass_ self cellData) μ
    (mass_fin self cellData μ hμ)
  have hS0 := specificVolume_fin self.numPhases cellData.phaseMassFraction cellData.density
    ν0 ρ0 h0
  have hfl : flashForward_ self globalIdx cellData
      = self.fluidStateUpdate self.fluidStateDefault
          (fin (μ 0) / fin ((Finset.range self.numComponents).sum (fun k => |μ k|)))
          (fun phaseIdx => fin (1/100)
            + (if phaseIdx < self.numPhases then cellData.pressure phaseIdx else fin 0))
          (self.porosity globalIdx) (self.temperatureAtPos globalIdx) := by
    unfold flashForward_ Z1_
    rw [hnorm, mass_fin self cellData μ hμ 0 hnc]
    rfl
  have hS1 := specificVolume_fin self.numPhases
    (flashForward_ self globalIdx cellData).phaseMassFraction
    (flashForward_ self globalIdx cellData).density ν1 ρ1 (by rw [hfl]; exact h1)
  have hV0 : volalt_ self cellData
      = fin ((Finset.range self.numComponents).sum (fun k => |μ k|)
          * (Finset.range self.numPhases).sum
            (fun phaseIdx => ν0 phaseIdx / ρ0 phaseIdx)) := by
    unfold volalt_
    rw [hnorm, hS0, fin_mul_fin]
  have hV1 : volume_ self (mass_ self cellData) (flashForward_ self globalIdx cellData)
      = fin ((Finset.range self.numComponents).sum (fun k => |μ k|)
          * (Finset.range self.numPhases).sum
            (fun phaseIdx => ν1 phaseIdx / ρ1 phaseIdx)) := by
    unfold volume_
    rw [hnorm, hS1, fin_mul_fin]
  rw [(volumeDerivatives_result self globalIdx cellData).2.1,
    volumeDerivativesPressure_dv_dp, hV0, hV1, fin_sub_fin,
    fin_div_fin _ _ (by norm_num : (1/100 : ℚ) ≠ 0), gt_fin_fin,
    if_neg (by rw [decide_eq_true_eq]; exact not_lt.mpr hle)]

/-- C18, at a concrete input: the two-phase model `sampleModel` and the cell `sampleCell`
with the density `100` of phase `0`; the stored `dv_dp` is `-1/10001`. -/
theorem volumeDerivatives_forward_secant_witness :
    (0 < sampleModel.numComponents ∧
      (∀ k, k < sampleModel.numComponents →
        (sampleCell (fin 100)).massConcentration k = fin (sampleMass k)) ∧
      (∀ phaseIdx, phaseIdx < sampleModel.numPhases →
        (sampleCell (fin 100)).phaseMassFraction phaseIdx = fin (sampleMass phaseIdx) ∧
          (sampleCell (fin 100)).density phaseIdx = fin (sampleDensity phaseIdx) ∧
          sampleDensity phaseIdx ≠ 0) ∧
      ((Finset.range sampleModel.numComponents).sum (fun k => |sampleMass k|)
          * (Finset.range sampleModel.numPhases).sum
            (fun phaseIdx => sampleMass phaseIdx / sampleForwardDensity phaseIdx)
        - (Finset.range sampleModel.numComponents).sum (fun k => |sampleMass k|)
          * (Finset.range sampleModel.numPhases).sum
            (fun phaseIdx => sampleMass phaseIdx / sampleDensity phaseIdx))
        / (1/100) = -1/10001) ∧
    (volumeDerivatives sampleModel 0 (sampleCell (fin 100))).cellData.dv_dp
      = fin (((Finset.range sampleModel.numComponents).sum (fun k => |sampleMass k|)
          * (Finset.range sampleModel.numPhases).sum
            (fun phaseIdx => sampleMass phaseIdx / sampleForwardDensity phaseIdx)
        - (Finset.range sampleModel.numComponents).sum (fun k => |sampleMass k|)
          * (Finset.range sampleModel.numPhases).sum
            (fun phaseIdx => sampleMass phaseIdx / sampleDensity phaseIdx))
        / (1/100)) :=
  have hnc : 0 < sampleModel.numComponents := by decide
  have hμ : ∀ k, k < sampleModel.numComponents →
      (sampleCell (fin 100)).massConcentration k = fin (sampleMass k) := by
    intro k _
    by_cases hk : k = 0 <;> simp [sampleCell, sampleMass, hk]
  have h0 : ∀ phaseIdx, phaseIdx < sampleModel.numPhases →
      (sampleCell (fin 100)).phaseMassFraction phaseIdx = fin (sampleMass phaseIdx) ∧
        (sampleCell (fin 100)).density phaseIdx = fin (sampleDensity phaseIdx) ∧
        sampleDensity phaseIdx ≠ 0 := by
    intro phaseIdx _
    by_cases hph : phaseIdx = 0 <;> simp [sampleCell, sampleMass, sampleDensity, hph]
  have h1 : ∀ phaseIdx, phaseIdx < sampleModel.numPhases →
      (sampleModel.fluidStateUpdate sampleModel.fluidStateDefault
          (fin (sampleMass 0)
            / fin ((Finset.range sampleModel.numComponents).sum (fun k => |sampleMass k|)))
          (fun phaseIdx => fin (1/100)
            + (if phaseIdx < sampleModel.numPhases then (sampleCell (fin 100)).pressure phaseIdx
              else fin 0))
          (sampleModel.porosity 0) (sampleModel.temperatureAtPos 0)).phaseMassFraction
          phaseIdx = fin (sampleMass phaseIdx) ∧
        (sampleModel.fluidStateUpdate sampleModel.fluidStateDefault
          (fin (sampleMass 0)
            / fin ((Finset.range sampleModel.numComponents).sum (fun k => |sampleMass k|)))
          (fun phaseIdx => fin (1/100)
            + (if phaseIdx < sampleModel.numPhases then (sampleCell (fin 100)).pressure phaseIdx
              else fin 0))
          (sampleModel.porosity 0) (sampleModel.temperatureAtPos 0)).density
          phaseIdx = fin (sampleForwardDensity phaseIdx) ∧
        sampleForwardDensity phaseIdx ≠ 0 := by
    intro phaseIdx _
    by_cases hph : phaseIdx = 0 <;>
      norm_num [sampleModel, sampleFlash, sampleCell, sampleMass, sampleForwardDensity, hph]
  have hval : ((Finset.range sampleModel.numComponents).sum (fun k => |sampleMass k|)
        * (Finset.range sampleModel.numPhases).sum
          (fun phaseIdx => sampleMass phaseIdx / sampleForwardDensity phaseIdx)
      - (Finset.range sampleModel.numComponents).sum (fun k => |sampleMass k|)
        * (Finset.range sampleModel.numPhases).sum
          (fun phaseIdx => sampleMass phaseIdx / sampleDensity phaseIdx))
      / (1/100) = -1/10001 := by
    norm_num [sampleModel, sampleMass, sampleDensity, sampleForwardDensity,
      Finset.sum_range_succ]
  ⟨⟨hnc, hμ, h0, hval⟩,
    volumeDerivatives_forward_secant sampleModel 0 (sampleCell (fin 100)) sampleMass
      sampleMass sampleDensity sampleMass sampleForwardDensity hnc hμ h0 h1
      (by rw [hval]; norm_num)⟩

/-- When all mass is in the phase `a`, the loop over the phases computes the inverse of
the density of that phase, whatever the finite densities other than zero of the other
phases are. -/
theorem specificVolume_single (n a : Nat) (phaseMassFraction density : Nat → Scalar)
    (r : ℚ) (ha : a < n) (hr : r ≠ 0)
    (hνa : phaseMassFraction a = fin 1) (hρa : density a = fin r)
    (hother : ∀ phaseIdx, phaseIdx < n → phaseIdx ≠ a →
      phaseMassFraction phaseIdx = fin 0 ∧ ∃ ρ : ℚ, ρ ≠ 0 ∧ density phaseIdx = fin ρ) :
    specificVolume_ n phaseMassFraction density = fin (1 / r) := by
  have hterm : ∀ phaseIdx, phaseIdx < n →
      phaseMassFraction phaseIdx / density phaseIdx
        = fin ((fun phaseIdx => if phaseIdx = a then 1 / r else 0) phaseIdx) := by
    intro phaseIdx hph
    by_cases e : phaseIdx = a
    · rw [e, hνa, hρa, fin_div_fin _ _ hr]
      simp
    · obtain ⟨h1, ρ, hρ, h2⟩ := hother phaseIdx hph e
      rw [h1, h2, fin_div_fin _ _ hρ]
      simp [e]
  unfold specificVolume_
  rw [foldl_add_fin (fun phaseIdx => if phaseIdx = a then 1 / r else 0)
    (fun phaseIdx => phaseMassFraction phaseIdx / density phaseIdx) n hterm]
  congr 1
  rw [Finset.sum_eq_single a]
  · simp
  · intro b _ hb
    simp [hb]
  · intro h
    exact absurd (Finset.mem_range.mpr ha) h

/-- C19: in a model with any number of phases, for a fluid all of whose mass the flash
puts into the phase `a`, with a density `f(p)` of that phase that is monotonically
increasing in its pressure and finite densities other than zero of the absent phases, and a
cell whose stored phase mass fractions and densities are those of the flash at the cell's
pressures (for some feed fraction `Z`), with a positive density of the phase `a` and
finite masses: the `dv_dp` that `volumeDerivatives` stores is
`((Σ |μ|) / f(p + incp) - (Σ |μ|) / f(p)) / incp`, a number `≤ 0`. -/
theorem volumeDerivatives_dv_dp_nonpos (self : FVPressureCompositional) (globalIdx : Nat)
    (cellData : CellData) (a : Nat) (f : ℚ → ℚ) (p : ℚ) (μ : Nat → ℚ)
    (prev : DecFluidState) (Z : Scalar)
    (ha : a < self.numPhases)
    (hflash : ∀ prev Z pr φ T (q : ℚ), pr a = fin q →
      (self.fluidStateUpdate prev Z pr φ T).density a = fin (f q) ∧
        (self.fluidStateUpdate prev Z pr φ T).phaseMassFraction a = fin 1 ∧
        ∀ phaseIdx, phaseIdx < self.numPhases → phaseIdx ≠ a →
          (self.fluidStateUpdate prev Z pr φ T).phaseMassFraction phaseIdx = fin 0 ∧
            ∃ ρ : ℚ, ρ ≠ 0 ∧ (self.fluidStateUpdate prev Z pr φ T).density phaseIdx = fin ρ)
    (hmono : ∀ x y, x ≤ y → f x ≤ f y)
    (hp : cellData.pressure a = fin p)
    (hpos : 0 < f p)
    (hcell : ∀ phaseIdx, phaseIdx < self.numPhases →
      cellData.phaseMassFraction phaseIdx
          = (self.fluidStateUpdate prev Z
              (fun phaseIdx =>
                if phaseIdx < self.numPhases then cellData.pressure phaseIdx else fin 0)
              (self.porosity globalIdx) (self.temperatureAtPos globalIdx)).phaseMassFraction
              phaseIdx ∧
        cellData.density phaseIdx
          = (self.fluidStateUpdate prev Z
              (fun phaseIdx =>
                if phaseIdx < self.numPhases then cellData.pressure phaseIdx else fin 0)
              (self.porosity globalIdx) (self.temperatureAtPos globalIdx)).density phaseIdx)
    (hμ : ∀ k, k < self.numComponents → cellData.massConcentration k = fin (μ k)) :
    (volumeDerivatives self globalIdx cellData).cellData.dv_dp
        = fin (((Finset.range self.numComponents).sum (fun k => |μ k|) * (1 / f (1/100 + p))
            - (Finset.range self.numComponents).sum (fun k => |μ k|) * (1 / f p))
          / (1/100)) ∧
      ((Finset.range self.numComponents).sum (fun k => |μ k|) * (1 / f (1/100 + p))
          - (Finset.range self.numComponents).sum (fun k => |μ k|) * (1 / f p))
        / (1/100) ≤ 0 := by
  have hnorm := one_norm_fin self.numComponents (mass_ self cellData) μ
    (mass_fin self cellData μ hμ)
  have hM : 0 ≤ (Finset.range self.numComponents).sum (fun k => |μ k|) :=
    Finset.sum_nonneg (fun k _ => abs_nonneg (μ k))
  have hle : f p ≤ f (1/100 + p) := hmono _ _ (by linarith)
  have hpos2 : 0 < f (1/100 + p) := lt_of_lt_of_le hpos hle
  -- the stored state of the cell
  have hpc : (fun phaseIdx =>
      if phaseIdx < self.numPhases then cellData.pressure phaseIdx else fin 0) a = fin p := by
    show (if a < self.numPhases then cellData.pressure a else fin 0) = fin p
    rw [if_pos ha, hp]
  obtain ⟨c1, c2, c3⟩ := hflash prev Z
    (fun phaseIdx => if phaseIdx < self.numPhases then cellData.pressure phaseIdx else fin 0)
    (self.porosity globalIdx) (self.temperatureAtPos globalIdx) p hpc
  have hS0 : specificVolume_ self.numPhases cellData.phaseMassFraction cellData.density
      = fin (1 / f p) := by
    apply specificVolume_single self.numPhases a _ _ (f p) ha hpos.ne'
    · rw [(hcell a ha).1, c2]
    · rw [(hcell a ha).2, c1]
    · intro phaseIdx hph hne
      rw [(hcell phaseIdx hph).1, (hcell phaseIdx hph).2]
      exact c3 phaseIdx hph hne
  -- the state flashed at the raised pressures
  have hpf : pForward_ self cellData a = fin (1/100 + p) := by
    unfold pForward_ pressure_
    rw [if_pos ha, hp, fin_add_fin]
  obtain ⟨d1, d2, d3⟩ := hflash self.fluidStateDefault (Z1_ self cellData)
    (pForward_ self cellData) (self.porosity globalIdx) (self.temperatureAtPos globalIdx)
    (1/100 + p) hpf
  have hS1 : specificVolume_ self.numPhases
      (flashForward_ self globalIdx cellData).phaseMassFraction
      (flashForward_ self globalIdx cellData).density = fin (1 / f (1/100 + p)) :=
    specificVolume_single self.numPhases a _ _ (f (1/100 + p)) ha hpos2.ne' d2 d1 d3
  have hV0 : volalt_ self cellData
      = fin ((Finset.range self.numComponents).sum (fun k => |μ k|) * (1 / f p)) := by
    unfold volalt_
    rw [hnorm, hS0, fin_mul_fin]
  have hV1 : volume_ self (mass_ self cellData) (flashForward_ self globalIdx cellData)
      = fin ((Finset.range self.numComponents).sum (fun k => |μ k|)
        * (1 / f (1/100 + p))) := by
    unfold volume_
    rw [hnorm, hS1, fin_mul_fin]
  have hd : ((Finset.range self.numComponents).sum (fun k => |μ k|) * (1 / f (1/100 + p))
      - (Finset.range self.numComponents).sum (fun k => |μ k|) * (1 / f p)) / (1/100)
      ≤ 0 := by
    apply div_nonpos_of_nonpos_of_nonneg _ (by norm_num)
    have hinv : 1 / f (1/100 + p) ≤ 1 / f p := one_div_le_one_div_of_le hpos hle
    have := mul_le_mul_of_nonneg_left hinv hM
    linarith
  refine ⟨?_, hd⟩
  rw [(volumeDerivatives_result self globalIdx cellData).2.1,
    volumeDerivativesPressure_dv_dp, hV0, hV1, fin_sub_fin,
    fin_div_fin _ _ (by norm_num : (1/100 : ℚ) ≠ 0), gt_fin_fin,
    if_neg (by rw [decide_eq_true_eq]; exact not_lt.mpr hd)]

/-- C19, at a concrete input: the two-phase, two-component model `sampleModel`, whose flash
puts all mass into phase `0` with the density equal to the pressure and gives the absent
phase `1` the density `1`, and the cell `sampleCell` at the pressure `100` with the
densities `100` and `1`. -/
theorem volumeDerivatives_dv_dp_nonpos_witness :
    (0 < sampleModel.numPhases ∧ sampleModel.numPhases = 2 ∧
      (sampleCell (fin 100)).pressure 0 = fin 100 ∧
      (0 : ℚ) < (fun x : ℚ => x) 100 ∧
      (∀ phaseIdx, phaseIdx < sampleModel.numPhases →
        (sampleCell (fin 100)).phaseMassFraction phaseIdx
            = (sampleModel.fluidStateUpdate sampleModel.fluidStateDefault (fin 1)
                (fun phaseIdx =>
                  if phaseIdx < sampleModel.numPhases then
                    (sampleCell (fin 100)).pressure phaseIdx
                  else fin 0)
                (sampleModel.porosity 0) (sampleModel.temperatureAtPos 0)).phaseMassFraction
                phaseIdx ∧
          (sampleCell (fin 100)).density phaseIdx
            = (sampleModel.fluidStateUpdate sampleModel.fluidStateDefault (fin 1)
                (fun phaseIdx =>
                  if phaseIdx < sampleModel.numPhases then
                    (sampleCell (fin 100)).pressure phaseIdx
                  else fin 0)
                (sampleModel.porosity 0) (sampleModel.temperatureAtPos 0)).density
                phaseIdx) ∧
      ∀ k, k < sampleModel.numComponents →
        (sampleCell (fin 100)).massConcentration k = fin (sampleMass k)) ∧
    ((volumeDerivatives sampleModel 0 (sampleCell (fin 100))).cellData.dv_dp
        = fin (((Finset.range sampleModel.numComponents).sum (fun k => |sampleMass k|)
              * (1 / (fun x : ℚ => x) (1/100 + 100))
            - (Finset.range sampleModel.numComponents).sum (fun k => |sampleMass k|)
              * (1 / (fun x : ℚ => x) 100))
          / (1/100)) ∧
      ((Finset.range sampleModel.numComponents).sum (fun k => |sampleMass k|)
            * (1 / (fun x : ℚ => x) (1/100 + 100))
          - (Finset.range sampleModel.numComponents).sum (fun k => |sampleMass k|)
            * (1 / (fun x : ℚ => x) 100))
        / (1/100) ≤ 0) :=
  have ha : 0 < sampleModel.numPhases := by decide
  have hflash : ∀ prev Z pr φ T (q : ℚ), pr 0 = fin q →
      (sampleModel.fluidStateUpdate prev Z pr φ T).density 0 = fin ((fun x : ℚ => x) q) ∧
        (sampleModel.fluidStateUpdate prev Z pr φ T).phaseMassFraction 0 = fin 1 ∧
        ∀ phaseIdx, phaseIdx < sampleModel.numPhases → phaseIdx ≠ 0 →
          (sampleModel.fluidStateUpdate prev Z pr φ T).phaseMassFraction phaseIdx = fin 0 ∧
            ∃ ρ : ℚ, ρ ≠ 0 ∧
              (sampleModel.fluidStateUpdate prev Z pr φ T).density phaseIdx = fin ρ := by
    intro prev Z pr φ T q hq
    refine ⟨by simp [sampleModel, sampleFlash, hq], by simp [sampleModel, sampleFlash], ?_⟩
    intro phaseIdx _ hne
    exact ⟨by simp [sampleModel, sampleFlash, hne],
      1, by norm_num, by simp [sampleModel, sampleFlash, hne]⟩
  have hcell : ∀ phaseIdx, phaseIdx < sampleModel.numPhases →
      (sampleCell (fin 100)).phaseMassFraction phaseIdx
          = (sampleModel.fluidStateUpdate sampleModel.fluidStateDefault (fin 1)
              (fun phaseIdx =>
                if phaseIdx < sampleModel.numPhases then
                  (sampleCell (fin 100)).pressure phaseIdx
                else fin 0)
              (sampleModel.porosity 0) (sampleModel.temperatureAtPos 0)).phaseMassFraction
              phaseIdx ∧
        (sampleCell (fin 100)).density phaseIdx
          = (sampleModel.fluidStateUpdate sampleModel.fluidStateDefault (fin 1)
              (fun phaseIdx =>
                if phaseIdx < sampleModel.numPhases then
                  (sampleCell (fin 100)).pressure phaseIdx
                else fin 0)
              (sampleModel.porosity 0) (sampleModel.temperatureAtPos 0)).density
              phaseIdx := by
    intro phaseIdx _
    by_cases hph : phaseIdx = 0 <;> simp [sampleModel, sampleFlash, sampleCell, hph]
  have hμ : ∀ k, k < sampleModel.numComponents →
      (sampleCell (fin 100)).massConcentration k = fin (sampleMass k) := by
    intro k _
    by_cases hk : k = 0 <;> simp [sampleCell, sampleMass, hk]
  ⟨⟨ha, rfl, rfl, by norm_num, hcell, hμ⟩,
    volumeDerivatives_dv_dp_nonpos sampleModel 0 (sampleCell (fin 100)) 0 (fun x => x) 100
      sampleMass sampleModel.fluidStateDefault (fin 1) ha hflash (fun _ _ h => h) rfl
      (by norm_num) hcell hμ⟩

/-- For a finite update estimate `e` and a finite density `ρ > 0` of the component, the
mass increment is the finite number `ι`, the estimate floored at `1e-8 * ρ`, and it is
not zero. -/
theorem massIncrement_fin (self : FVPressureCompositional) (globalIdx : Nat)
    (cellData : CellData) (k : Nat) (e ρ ι : ℚ) (hk : k < self.numComponents)
    (he : self.updateEstimate_ k globalIdx = fin e)
    (hρ : cellData.density k = fin ρ) (hpos : 0 < ρ)
    (hι : ι = if |e| < 1/100000000 * ρ then 1/100000000 * ρ else e) :
    massIncrement_ self globalIdx cellData k = fin ι ∧ ι ≠ 0 := by
  have hfl : 0 < 1/100000000 * ρ := by positivity
  refine ⟨?_, ?_⟩
  · unfold massIncrement_
    rw [if_pos hk]
    simp only [he, hρ, fabs_fin, fin_mul_fin, lt_fin_fin, decide_eq_true_eq]
    rw [hι]
    split_ifs <;> rfl
  · rw [hι]
    split_ifs with h
    · exact hfl.ne'
    · intro h0
      rw [h0, abs_zero] at h
      exact h hfl

/-- C20: for a cell with finite masses `μ`, finite update estimates, finite phase mass
fractions `ν0` and positive finite densities `ρ0`, and a flash whose mass fractions and
densities are a function of its arguments and are finite, the densities other than zero:
`volumeDerivatives` returns normally and the `dv(k)` it stores for every component `k` is
`(V2_k - V0) / ι_k`.  Here `ι_k` is the increment of the component (the update estimate
floored at `1e-8 * ρ0_k`), `V0 = (Σ |μ|) * Σ ν0 / ρ0`, and
`V2_k = (Σ_j |μ'_j|) * Σ ν2_k / ρ2_k` for the masses `μ'` with only the mass of component
`k` raised by `ι_k`, and the mass fractions `ν2_k` and densities `ρ2_k` of the flash with
the feed fraction `μ'_0 / Σ_j |μ'_j|` at the unperturbed phase pressures.  No increment of
another component enters the `dv(k)` of component `k`. -/
theorem volumeDerivatives_dv (self : FVPressureCompositional) (globalIdx : Nat)
    (cellData : CellData) (μ e ι ν0 ρ0 : Nat → ℚ) (ν2 ρ2 : Nat → Nat → ℚ)
    (hμ : ∀ k, k < self.numComponents → cellData.massConcentration k = fin (μ k))
    (he : ∀ k, k < self.numComponents → self.updateEstimate_ k globalIdx = fin (e k))
    (hρc : ∀ k, k < self.numComponents → cellData.density k = fin (ρ0 k) ∧ 0 < ρ0 k)
    (hι : ∀ k, k < self.numComponents →
      ι k = if |e k| < 1/100000000 * ρ0 k then 1/100000000 * ρ0 k else e k)
    (h0 : ∀ phaseIdx, phaseIdx < self.numPhases →
      cellData.phaseMassFraction phaseIdx = fin (ν0 phaseIdx) ∧
        cellData.density phaseIdx = fin (ρ0 phaseIdx) ∧ ρ0 phaseIdx ≠ 0)
    (hfn : ∀ prev1 prev2 Z pr φ T phaseIdx, phaseIdx < self.numPhases →
      (self.fluidStateUpdate prev1 Z pr φ T).phaseMassFraction phaseIdx
          = (self.fluidStateUpdate prev2 Z pr φ T).phaseMassFraction phaseIdx ∧
        (self.fluidStateUpdate prev1 Z pr φ T).density phaseIdx
          = (self.fluidStateUpdate prev2 Z pr φ T).density phaseIdx)
    (h2 : ∀ k, k < self.numComponents → ∀ phaseIdx, phaseIdx < self.numPhases →
      (self.fluidStateUpdate self.fluidStateDefault
          (fin (if 0 = k then μ k + ι k else μ 0)
            / fin ((Finset.range self.numComponents).sum
                (fun j => |if j = k then μ k + ι k else μ j|)))
          (fun phaseIdx =>
            if phaseIdx < self.numPhases then cellData.pressure phaseIdx else fin 0)
          (self.porosity globalIdx) (self.temperatureAtPos globalIdx)).phaseMassFraction
          phaseIdx = fin (ν2 k phaseIdx) ∧
        (self.fluidStateUpdate self.fluidStateDefault
          (fin (if 0 = k then μ k + ι k else μ 0)
            / fin ((Finset.range self.numComponents).sum
                (fun j => |if j = k then μ k + ι k else μ j|)))
          (fun phaseIdx =>
            if phaseIdx < self.numPhases then cellData.pressure phaseIdx else fin 0)
          (self.porosity globalIdx) (self.temperatureAtPos globalIdx)).density
          phaseIdx = fin (ρ2 k phaseIdx) ∧
        ρ2 k phaseIdx ≠ 0) :
    (volumeDerivatives self globalIdx cellData).thrown = none ∧
      ∀ k, k < self.numComponents →
        (volumeDerivatives self globalIdx cellData).cellData.dv k
          = fin (((Finset.range self.numComponents).sum
                  (fun j => |if j = k then μ k + ι k else μ j|)
                * (Finset.range self.numPhases).sum
                  (fun phaseIdx => ν2 k phaseIdx / ρ2 k phaseIdx)
              - (Finset.range self.numComponents).sum (fun j => |μ j|)
                * (Finset.range self.numPhases).sum
                  (fun phaseIdx => ν0 phaseIdx / ρ0 phaseIdx))
            / ι k) := by
  have hm := mass_fin self cellData μ hμ
  have hinc : ∀ k, k < self.numComponents →
      massIncrement_ self globalIdx cellData k = fin (ι k) := fun k hk =>
    (massIncrement_fin self globalIdx cellData k (e k) (ρ0 k) (ι k) hk (he k hk)
      (hρc k hk).1 (hρc k hk).2 (hι k hk)).1
  have hι0 : ∀ k, k < self.numComponents → ι k ≠ 0 := fun k hk =>
    (massIncrement_fin self globalIdx cellData k (e k) (ρ0 k) (ι k) hk (he k hk)
      (hρc k hk).1 (hρc k hk).2 (hι k hk)).2
  have hnorm := one_norm_fin self.numComponents (mass_ self cellData) μ hm
  have hS0 := specificVolume_fin self.numPhases cellData.phaseMassFraction cellData.density
    ν0 ρ0 h0
  have hV0 : volalt_ self cellData
      = fin ((Finset.range self.numComponents).sum (fun j => |μ j|)
          * (Finset.range self.numPhases).sum
            (fun phaseIdx => ν0 phaseIdx / ρ0 phaseIdx)) := by
    unfold volalt_
    rw [hnorm, hS0, fin_mul_fin]
  -- the perturbed masses of the iteration `k`
  have hpert : ∀ k, k < self.numComponents → ∀ j, j < self.numComponents →
      massPerturbed_ self globalIdx cellData k j
        = fin ((fun j => if j = k then μ k + ι k else μ j) j) := by
    intro k hk j hj
    unfold massPerturbed_
    rw [NcpNewtonMethod.setAt_apply]
    by_cases ejk : j = k
    · rw [if_pos ejk, hm k hk, hinc k hk, fin_add_fin]
      simp [ejk]
    · rw [if_neg ejk, hm j hj]
      simp [ejk]
  have hnormk : ∀ k, k < self.numComponents →
      one_norm self.numComponents (massPerturbed_ self globalIdx cellData k)
        = fin ((Finset.range self.numComponents).sum
            (fun j => |if j = k then μ k + ι k else μ j|)) := fun k hk =>
    one_norm_fin self.numComponents (massPerturbed_ self globalIdx cellData k)
      (fun j => if j = k then μ k + ι k else μ j) (hpert k hk)
  have hSk : ∀ k, k < self.numComponents →
      specificVolume_ self.numPhases (flashComp_ self globalIdx cellData k).phaseMassFraction
          (flashComp_ self globalIdx cellData k).density
        = fin ((Finset.range self.numPhases).sum
            (fun phaseIdx => ν2 k phaseIdx / ρ2 k phaseIdx)) := by
    intro k hk
    apply specificVolume_fin
    intro phaseIdx hph
    obtain ⟨a1, a2, a3⟩ := h2 k hk phaseIdx hph
    have hz : massPerturbed_ self globalIdx cellData k 0
        / one_norm self.numComponents (massPerturbed_ self globalIdx cellData k)
        = fin (if 0 = k then μ k + ι k else μ 0)
          / fin ((Finset.range self.numComponents).sum
              (fun j => |if j = k then μ k + ι k else μ j|)) := by
      rw [hnormk k hk, hpert k hk 0 (by omega)]
    obtain ⟨b1, b2⟩ := hfn (compLoop_ self globalIdx cellData k).updFluidState
      self.fluidStateDefault
      (fin (if 0 = k then μ k + ι k else μ 0)
        / fin ((Finset.range self.numComponents).sum
            (fun j => |if j = k then μ k + ι k else μ j|)))
      (fun phaseIdx => if phaseIdx < self.numPhases then cellData.pressure phaseIdx else fin 0)
      (self.porosity globalIdx) (self.temperatureAtPos globalIdx) phaseIdx hph
    unfold flashComp_
    rw [hz]
    exact ⟨b1.trans a1, b2.trans a2, a3⟩
  have hVk : ∀ k, k < self.numComponents →
      volume_ self (massPerturbed_ self globalIdx cellData k)
          (flashComp_ self globalIdx cellData k)
        = fin ((Finset.range self.numComponents).sum
              (fun j => |if j = k then μ k + ι k else μ j|)
            * (Finset.range self.numPhases).sum
              (fun phaseIdx => ν2 k phaseIdx / ρ2 k phaseIdx)) := by
    intro k hk
    unfold volume_
    rw [hnormk k hk, hSk k hk, fin_mul_fin]
  -- the entry of a component whose iteration is reached
  have hE : ∀ m, m ≤ self.numComponents → ∀ k, k < m →
      (compLoop_ self globalIdx cellData k).thrown = none →
      (compLoop_ self globalIdx cellData m).cellData.dv k
        = fin (((Finset.range self.numComponents).sum
                (fun j => |if j = k then μ k + ι k else μ j|)
              * (Finset.range self.numPhases).sum
                (fun phaseIdx => ν2 k phaseIdx / ρ2 k phaseIdx)
            - (Finset.range self.numComponents).sum (fun j => |μ j|)
              * (Finset.range self.numPhases).sum
                (fun phaseIdx => ν0 phaseIdx / ρ0 phaseIdx))
          / ι k) := by
    intro m hm2 k hk hr
    have hk2 : k < self.numComponents := by omega
    rw [compLoop_dv self globalIdx cellData μ ι hμ hinc m hm2 k hk hr, hVk k hk2, hV0,
      hinc k hk2, fin_sub_fin, fin_div_fin _ _ (hι0 k hk2)]
  -- no iteration raises the exception
  have hok : ∀ m, m ≤ self.numComponents →
      (compLoop_ self globalIdx cellData m).thrown = none := by
    intro m
    induction m with
    | zero =>
      intro _
      rfl
    | succ m ih =>
      intro hm2
      have ihm := ih (by omega)
      cases ht : (compLoop_ self globalIdx cellData (m + 1)).thrown with
      | none => rfl
      | some ex =>
        obtain ⟨_, k, hk, hnf, _⟩ :=
          (compLoop_checked self globalIdx cellData (m + 1)).2.2 ex ht
        have hr : (compLoop_ self globalIdx cellData k).thrown = none :=
          compLoop_thrown_none self globalIdx cellData k m (by omega) ihm
        rw [hE (m + 1) hm2 k hk hr] at hnf
        exact absurd hnf (by simp)
  obtain ⟨r1, _, r3⟩ := volumeDerivatives_result self globalIdx cellData
  refine ⟨by rw [r1]; exact hok _ (le_refl _), ?_⟩
  intro k hk
  rw [r3]
  exact hE self.numComponents (le_refl _) k hk (hok k (by omega))

/-- C20, at a concrete input: the sample model and the consistent sample cell, with the
masses `1` and `0` and the increments `1e-6` and `1/2`; the run raises no exception and
stores `dv = 1/100` for both components. -/
theorem volumeDerivatives_dv_witness :
    ((∀ k, k < sampleModel.numComponents →
        (sampleCell (fin 100)).massConcentration k = fin (sampleMass k)) ∧
      (∀ k, k < sampleModel.numComponents →
        sampleModel.updateEstimate_ k 0 = fin (sampleEstimate k)) ∧
      (∀ k, k < sampleModel.numComponents →
        (sampleCell (fin 100)).density k = fin (sampleDensity k) ∧ 0 < sampleDensity k) ∧
      (∀ k, k < sampleModel.numComponents →
        sampleIncrement k
          = if |sampleEstimate k| < 1/100000000 * sampleDensity k then
              1/100000000 * sampleDensity k
            else sampleEstimate k) ∧
      (∀ phaseIdx, phaseIdx < sampleModel.numPhases →
        (sampleCell (fin 100)).phaseMassFraction phaseIdx = fin (sampleMass phaseIdx) ∧
          (sampleCell (fin 100)).density phaseIdx = fin (sampleDensity phaseIdx) ∧
          sampleDensity phaseIdx ≠ 0) ∧
      ∀ k, k < sampleModel.numComponents →
        ((Finset.range sampleModel.numComponents).sum
              (fun j => |if j = k then sampleMass k + sampleIncrement k else sampleMass j|)
            * (Finset.range sampleModel.numPhases).sum
              (fun phaseIdx => sampleMass phaseIdx / sampleDensity phaseIdx)
          - (Finset.range sampleModel.numComponents).sum (fun j => |sampleMass j|)
            * (Finset.range sampleModel.numPhases).sum
              (fun phaseIdx => sampleMass phaseIdx / sampleDensity phaseIdx))
          / sampleIncrement k = 1/100) ∧
    ((volumeDerivatives sampleModel 0 (sampleCell (fin 100))).thrown = none ∧
      ∀ k, k < sampleModel.numComponents →
        (volumeDerivatives sampleModel 0 (sampleCell (fin 100))).cellData.dv k
          = fin (((Finset.range sampleModel.numComponents).sum
                  (fun j => |if j = k then sampleMass k + sampleIncrement k
                    else sampleMass j|)
                * (Finset.range sampleModel.numPhases).sum
                  (fun phaseIdx => sampleMass phaseIdx / sampleDensity phaseIdx)
              - (Finset.range sampleModel.numComponents).sum (fun j => |sampleMass j|)
                * (Finset.range sampleModel.numPhases).sum
                  (fun phaseIdx => sampleMass phaseIdx / sampleDensity phaseIdx))
            / sampleIncrement k)) :=
  have hcases : ∀ k, k < sampleModel.numComponents → k = 0 ∨ k = 1 := by
    intro k hk
    simp only [sampleModel] at hk
    omega
  have hμ : ∀ k, k < sampleModel.numComponents →
      (sampleCell (fin 100)).massConcentration k = fin (sampleMass k) := by
    intro k _
    by_cases hk : k = 0 <;> simp [sampleCell, sampleMass, hk]
  have he : ∀ k, k < sampleModel.numComponents →
      sampleModel.updateEstimate_ k 0 = fin (sampleEstimate k) := by
    intro k _
    by_cases hk : k = 0 <;> simp [sampleModel, sampleEstimate, hk]
  have hρc : ∀ k, k < sampleModel.numComponents →
      (sampleCell (fin 100)).density k = fin (sampleDensity k) ∧ 0 < sampleDensity k := by
    intro k _
    by_cases hk : k = 0 <;> simp [sampleCell, sampleDensity, hk]
  have hι : ∀ k, k < sampleModel.numComponents →
      sampleIncrement k
        = if |sampleEstimate k| < 1/100000000 * sampleDensity k then
            1/100000000 * sampleDensity k
          else sampleEstimate k := by
    intro k hk
    rcases hcases k hk with h | h <;> subst h <;>
      norm_num [sampleIncrement, sampleEstimate, sampleDensity, abs_div, abs_of_nonneg]
  have h0 : ∀ phaseIdx, phaseIdx < sampleModel.numPhases →
      (sampleCell (fin 100)).phaseMassFraction phaseIdx = fin (sampleMass phaseIdx) ∧
        (sampleCell (fin 100)).density phaseIdx = fin (sampleDensity phaseIdx) ∧
        sampleDensity phaseIdx ≠ 0 := by
    intro phaseIdx _
    by_cases hph : phaseIdx = 0 <;> simp [sampleCell, sampleMass, sampleDensity, hph]
  have h2 : ∀ k, k < sampleModel.numComponents →
      ∀ phaseIdx, phaseIdx < sampleModel.numPhases →
      (sampleModel.fluidStateUpdate sampleModel.fluidStateDefault
          (fin (if 0 = k then sampleMass k + sampleIncrement k else sampleMass 0)
            / fin ((Finset.range sampleModel.numComponents).sum
                (fun j => |if j = k then sampleMass k + sampleIncrement k
                  else sampleMass j|)))
          (fun phaseIdx =>
            if phaseIdx < sampleModel.numPhases then (sampleCell (fin 100)).pressure phaseIdx
            else fin 0)
          (sampleModel.porosity 0) (sampleModel.temperatureAtPos 0)).phaseMassFraction
          phaseIdx = fin ((fun _ => sampleMass) k phaseIdx) ∧
        (sampleModel.fluidStateUpdate sampleModel.fluidStateDefault
          (fin (if 0 = k then sampleMass k + sampleIncrement k else sampleMass 0)
            / fin ((Finset.range sampleModel.numComponents).sum
                (fun j => |if j = k then sampleMass k + sampleIncrement k
                  else sampleMass j|)))
          (fun phaseIdx =>
            if phaseIdx < sampleModel.numPhases then (sampleCell (fin 100)).pressure phaseIdx
            else fin 0)
          (sampleModel.porosity 0) (sampleModel.temperatureAtPos 0)).density
          phaseIdx = fin ((fun _ => sampleDensity) k phaseIdx) ∧
        (fun _ => sampleDensity) k phaseIdx ≠ 0 := by
    intro k _ phaseIdx _
    by_cases hph : phaseIdx = 0 <;>
      norm_num [sampleModel, sampleFlash, sampleCell, sampleMass, sampleDensity, hph]
  have hval : ∀ k, k < sampleModel.numComponents →
      ((Finset.range sampleModel.numComponents).sum
            (fun j => |if j = k then sampleMass k + sampleIncrement k else sampleMass j|)
          * (Finset.range sampleModel.numPhases).sum
            (fun phaseIdx => sampleMass phaseIdx / sampleDensity phaseIdx)
        - (Finset.range sampleModel.numComponents).sum (fun j => |sampleMass j|)
          * (Finset.range sampleModel.numPhases).sum
            (fun phaseIdx => sampleMass phaseIdx / sampleDensity phaseIdx))
        / sampleIncrement k = 1/100 := by
    intro k hk
    rcases hcases k hk with h | h <;> subst h <;>
      norm_num [sampleModel, sampleMass, sampleDensity, sampleIncrement,
        Finset.sum_range_succ, abs_div, abs_of_nonneg]
  ⟨⟨hμ, he, hρc, hι, h0, hval⟩,
    volumeDerivatives_dv sampleModel 0 (sampleCell (fin 100)) sampleMass sampleEstimate
      sampleIncrement sampleMass sampleDensity (fun _ => sampleMass) (fun _ => sampleDensity)
      hμ he hρc hι h0 (fun _ _ _ _ _ _ _ _ => ⟨rfl, rfl⟩) h2⟩

end FVPressureCompositional

end Ewoms
